import Mathlib

/-!
# API abuse detection server (`src/server/server.js`)

A shallow embedding of the request pipeline of `server.js`: the Redis key space with
per-key expiry, the alert and log collections, the two middleware gates (`checkBan`,
`rateLimiter`), the route handlers and the dispatcher that chains them.

Requests are processed one at a time; every request is stamped with the time `now`
(milliseconds) at which its store operations run.
-/

namespace ApiAbuse

/-! ## The ephemeral state store (Redis)

The Redis server is an external collaborator; its operations follow the contract of the
specification (section 4.1): `get`, `set` with a time-to-live, atomic `incr`, `expire`, `del`,
key listing, and keys that vanish when their time-to-live has elapsed. -/

/-- A value held under a Redis key. The server writes only two kinds of value: the marker
string `"true"` (`set(key, "true", ...)`) and the integers produced by `incr`. Both are
non-empty strings on the JavaScript side, hence truthy when returned by `get`. -/
inductive RVal where
  | flag
  | int (n : Int)
  deriving DecidableEq, Repr

/-- A stored entry: the value and the absolute time (ms) at which the key expires, if any. -/
structure Entry where
  val : RVal
  expiresAt : Option Nat
  deriving DecidableEq, Repr

/-- The key space: an association list with at most one entry per key in front. -/
abbrev Store := List (String × Entry)

/-- Modelled from the spec: a key vanishes when its time-to-live has elapsed, so an entry is
live until its expiry time is reached. -/
def Entry.live (e : Entry) (now : Nat) : Bool :=
  match e.expiresAt with
  | none => true
  | some t => decide (now < t)

/-- The stored entry of a key, expired or not. -/
def Store.raw : Store → String → Option Entry
  | [], _ => none
  | (k', e) :: rest, k => if k' = k then some e else Store.raw rest k

/-- The live entry of a key: an expired key is indistinguishable from an absent one. -/
def Store.find (s : Store) (now : Nat) (k : String) : Option Entry :=
  match s.raw k with
  | none => none
  | some e => if e.live now then some e else none

/-- Remove every entry of key `k`. -/
def Store.erase (s : Store) (k : String) : Store :=
  s.filter (fun p => !(p.1 == k))

/-- Store entry `e` under key `k`, replacing what was there. -/
def Store.put (s : Store) (k : String) (e : Entry) : Store :=
  (k, e) :: s.erase k

/-- Modelled from the spec: `get(key)`, the value or absent (Redis `GET key`). -/
def Store.get (s : Store) (now : Nat) (k : String) : Option RVal :=
  (s.find now k).map Entry.val

/-- Modelled from the spec: `set(key, value, ttl)` overwrites the value and resets the expiry
to `ttl` seconds ahead (Redis `SET key value EX ttl`). -/
def Store.set (s : Store) (now : Nat) (k : String) (v : RVal) (ttl : Nat) : Store :=
  s.put k { val := v, expiresAt := some (now + ttl * 1000) }

/-- Modelled from the spec: `delete(key)` (Redis `DEL key`). -/
def Store.del (s : Store) (k : String) : Store :=
  s.erase k

/-- Modelled from the spec: `incrementAndGet(key)` (Redis `INCR key`). An absent or expired key
is created at 1 without expiry; a live integer is incremented keeping its expiry; a non-integer
value or a 64-bit overflow is an error. -/
def Store.incr (s : Store) (now : Nat) (k : String) : Option (Store × Int) :=
  match s.find now k with
  | none => some (s.put k { val := .int 1, expiresAt := none }, 1)
  | some e =>
    match e.val with
    | .flag => none
    | .int n =>
      if n + 1 > 9223372036854775807 then none
      else some (s.put k { val := .int (n + 1), expiresAt := e.expiresAt }, n + 1)

/-- Modelled from the spec: `expire(key, ttl)` sets the expiry of a live key without altering
its value (Redis `EXPIRE key ttl`). -/
def Store.expire (s : Store) (now : Nat) (k : String) (ttl : Nat) : Store :=
  match s.find now k with
  | none => s
  | some e => s.put k { val := e.val, expiresAt := some (now + ttl * 1000) }

/-- Modelled from the spec: clearing the whole key space (Redis `FLUSHDB`). -/
def Store.flushDb (_ : Store) : Store := []

/-- Keep the first occurrence of each string (insertion order of a JavaScript `Set`). -/
def uniq : List String → List String
  | [] => []
  | x :: xs => x :: (uniq xs).filter (fun y => !(y == x))

/-- Modelled from the spec: `listKeys(prefix)`, the live keys starting with `pfx` (Redis
`KEYS prefix*`). -/
def Store.keys (s : Store) (now : Nat) (pfx : String) : List String :=
  uniq ((s.map Prod.fst).filter (fun k => pfx.data.isPrefixOf k.data && (s.find now k).isSome))

/-! ## Collections, requests and responses -/

/-- A document of the `Alert` collection. -/
structure Alert where
  ip : String
  type : String
  severity : String
  timestamp : Nat
  deriving DecidableEq, Repr

/-- A document of the `Log` collection. -/
structure Log where
  ip : String
  endpoint : String
  method : String
  status : Nat
  reason : String
  timestamp : Nat
  deriving DecidableEq, Repr

/-- The server state: the Redis key space and the two MongoDB collections. -/
structure State where
  redis : Store
  alerts : List Alert
  logs : List Log
  deriving DecidableEq, Repr

/-- HTTP method of a request that reaches the gates. `OTHER` stands for the methods no route
is registered for (`PUT`, `DELETE`, ...); `OPTIONS` is answered by the `cors` middleware before
the gates and is not a method of this model. -/
inductive Method where
  | GET
  | HEAD
  | POST
  | OTHER
  deriving DecidableEq, Repr

/-- Name of the method as it is written to the log. -/
def Method.name : Method → String
  | .GET => "GET"
  | .HEAD => "HEAD"
  | .POST => "POST"
  | .OTHER => "OTHER"

/-- A body value that is not a string (a number, a boolean, `null`, an array or an object),
given by what the handlers do with it: its truthiness (`!v`), the text a template literal
makes of it, and the alerts a filter on the address selects by it, as a test on the stored
address. The last two are conversions done outside `server.js`; each gives a result or
throws an error with a message. -/
structure Foreign where
  truthy : Bool
  text : Except String String
  alertFilter : Except String (String → Bool)

/-- A property of the parsed body as the handlers read it: `undefined` when the body has no
such property, a string, or another value. -/
inductive JsVal where
  | undefined
  | str (s : String)
  | other (v : Foreign)

/-- The properties of `req.body` that the handlers read (lines 173 and 221). -/
structure ReqBody where
  username : JsVal
  password : JsVal
  ip : JsVal

/-- An inbound request as it reaches the gates: `req.ip`, the method, `req.path`, the query
string that follows the path in `req.originalUrl` (empty, or starting with `?`), and
`req.body`, which is `none` when the body parsers left it `undefined`. -/
structure Request where
  ip : String
  method : Method
  path : String
  query : String
  body : Option ReqBody

/-- The request target as received, `req.originalUrl`. -/
def Request.originalUrl (req : Request) : String := req.path ++ req.query

/-- Strict equality `v === s` with a string. -/
def JsVal.isStr : JsVal → String → Bool
  | .str t, s => t == s
  | _, _ => false

/-- The message of the `TypeError` thrown by `const \x7b prop \x7d = req.body` when
`req.body` is `undefined`. -/
def destructureMessage (prop : String) : String :=
  "Cannot destructure property \x27" ++ prop ++ "\x27 of \x27req.body\x27 as it is undefined."

/-- A JSON field value of a response body. -/
inductive JVal where
  | str (s : String)
  | num (n : Int)
  | bool (b : Bool)
  | strs (l : List String)
  deriving DecidableEq, Repr

/-- A response body. -/
inductive Body where
  | json (fields : List (String × JVal))
  | text (s : String)
  | stats (logs : List Log) (alerts : List Alert)
  | notFound
  deriving DecidableEq, Repr

/-- A response: status code and body. -/
structure Response where
  status : Nat
  body : Body
  deriving DecidableEq, Repr

/-- The body of `res.status(c).json(\x7b error: msg \x7d)`. -/
def errorBody (msg : String) : Body := .json [("error", .str msg)]

/-- Result of a middleware: pass the request on (`next()`), answer it, or end with its promise
rejected (a store operation that fails outside any `try`). -/
inductive Step where
  | next (st : State)
  | respond (st : State) (r : Response)
  | rejected (st : State)
  deriving DecidableEq, Repr

/-! ## Keys -/

def bannedKey (ip : String) : String := "banned:" ++ ip
def blockedKey (ip : String) : String := "blocked:" ++ ip
def rateKey (ip : String) : String := "rate:" ++ ip
def failKey (ip : String) : String := "login_failures:" ++ ip
def sessionKey (ip : String) : String := "session:" ++ ip ++ ":checked_balance"

/-- JavaScript truthiness of the result of `get`: `null` is falsy, a stored value is truthy. -/
def truthy : Option RVal → Bool
  | none => false
  | some _ => true

/-- The result of `parseInt` on a value returned by `get`; `none` is `NaN`. -/
def parseInt : RVal → Option Int
  | .flag => none
  | .int n => some n

/-! ## Identity normalisation (logger only) -/

/-- The address written to the access log (lines 54-56): `::1` becomes `127.0.0.1`, then a
leading `::ffff:` is removed. -/
def normalizeIp (ip : String) : String :=
  let ip1 := if ip = "::1" then "127.0.0.1" else ip
  if "::ffff:".data.isPrefixOf ip1.data then String.mk (ip1.data.drop 7) else ip1

/-! ## Routing (Express defaults: case-insensitive, optional trailing slash) -/

/-- The path as the router compares it. -/
def lowerPath (path : String) : List Char := path.data.map Char.toLower

/-- Whether `app.use(mount, ...)` applies to the path: the path is the mount point or lies
below it. -/
def mounted (mount : String) (path : String) : Bool :=
  lowerPath path == mount.data || (mount.data ++ ['/']).isPrefixOf (lowerPath path)

/-- Whether a route pattern `app.get(route, ...)` / `app.post(route, ...)` matches the path. -/
def routeMatches (route : String) (path : String) : Bool :=
  lowerPath path == route.data || lowerPath path == route.data ++ ['/']

/-- The handlers registered on the application. -/
inductive Route where
  | resetRedis
  | stats
  | bannedIps
  | unbanIp
  | login
  | balance
  | transaction
  | unrouted
  deriving DecidableEq, Repr

/-- `app.get` also serves `HEAD`. -/
def Method.isGet : Method → Bool
  | .GET => true
  | .HEAD => true
  | _ => false

/-- The handler that serves a request, in registration order. -/
def routeOf (req : Request) : Route :=
  if req.method.isGet && routeMatches "/reset-redis" req.path then .resetRedis
  else if req.method.isGet && routeMatches "/dashboard/stats" req.path then .stats
  else if req.method.isGet && routeMatches "/dashboard/banned-ips" req.path then .bannedIps
  else if req.method == .POST && routeMatches "/dashboard/unban-ip" req.path then .unbanIp
  else if req.method == .POST && routeMatches "/api/login" req.path then .login
  else if req.method.isGet && routeMatches "/api/balance" req.path then .balance
  else if req.method == .POST && routeMatches "/api/transaction" req.path then .transaction
  else .unrouted

/-! ## Security checks -/

/-- The middleware `checkBan` (lines 76-88). -/
def checkBan (st : State) (now : Nat) (req : Request) : Step :=
  let ip := req.ip
  let isBanned := st.redis.get now (bannedKey ip)
  let isBlocked := st.redis.get now (blockedKey ip)
  if truthy isBanned || truthy isBlocked then
    .respond st { status := 403,
                  body := errorBody "⛔ YOUR IP IS BANNED. Security violation detected." }
  else .next st

/-- The paths the rate limiter lets through uncounted (line 94). -/
def rateExempt (path : String) : Bool :=
  "/dashboard".data.isPrefixOf path.data || path == "/reset-redis"

/-- The middleware `rateLimiter` (lines 93-129). -/
def rateLimiter (st : State) (now : Nat) (req : Request) : Step :=
  if rateExempt req.path then .next st
  else
    let ip := req.ip
    let key := rateKey ip
    let blockKey := blockedKey ip
    let isBlocked := st.redis.get now blockKey
    if truthy isBlocked then
      .respond st { status := 403, body := errorBody "IP Blocked due to traffic abuse" }
    else
      match st.redis.incr now key with
      | none => .rejected st
      | some (r1, count) =>
        let r2 := if count = 1 then r1.expire now key 60 else r1
        if count > 100 then
          if count = 101 then
            let r3 := r2.set now blockKey .flag 60
            let alert : Alert :=
              { ip := ip, type := "Rate Limit Exceeded", severity := "High", timestamp := now }
            .respond { st with redis := r3, alerts := st.alerts ++ [alert] }
              { status := 429, body := errorBody "Too Many Requests" }
          else
            .respond { st with redis := r2 }
              { status := 403, body := errorBody "IP Blocked due to traffic abuse" }
        else .next { st with redis := r2 }

/-! ## Route handlers -/

/-- `GET /reset-redis` (lines 136-143). -/
def resetRedisHandler (st : State) : State × Response :=
  ({ st with redis := st.redis.flushDb },
   { status := 200, body := .text "✅ Redis memory cleared! You are no longer banned." })

/-- `GET /dashboard/stats` (lines 146-150): the 50 latest logs and the 10 latest alerts. -/
def statsHandler (st : State) : State × Response :=
  (st, { status := 200, body := .stats (st.logs.reverse.take 50) (st.alerts.reverse.take 10) })

/-- `GET /dashboard/banned-ips` (lines 153-168). -/
def bannedIpsHandler (st : State) (now : Nat) : State × Response :=
  let bannedKeys := st.redis.keys now "banned:"
  let blockedKeys := st.redis.keys now "blocked:"
  let bannedIPs := bannedKeys.map (fun key => String.mk (key.data.drop 7))
  let blockedIPs := blockedKeys.map (fun key => String.mk (key.data.drop 8))
  let uniqueIPs := uniq (bannedIPs ++ blockedIPs)
  (st, { status := 200, body := .json [("bannedIPs", .strs uniqueIPs)] })

/-- Lines 176-186 of `POST /dashboard/unban-ip`, for a truthy `ip` whose text in a template
literal is `ip`: the five deletions, then `Alert.deleteMany` with the filter made of the
value, then the answer. A filter that throws is answered by the `catch` (line 188), after the
deletions. -/
def unbanCore (st : State) (ip : String) (filter : Except String (String → Bool)) :
    State × Response :=
  let r1 := st.redis.del (bannedKey ip)
  let r2 := r1.del (blockedKey ip)
  let r3 := r2.del (rateKey ip)
  let r4 := r3.del (failKey ip)
  let r5 := r4.del (sessionKey ip)
  match filter with
  | .error msg => ({ st with redis := r5 }, { status := 500, body := errorBody msg })
  | .ok selects =>
    let alerts := st.alerts.filter (fun a => !(selects a.ip))
    ({ st with redis := r5, alerts := alerts },
     { status := 200,
       body := .json [("success", .bool true), ("message", .str ("IP " ++ ip ++ " unbanned"))] })

/-- `POST /dashboard/unban-ip` (lines 171-190). Destructuring an `undefined` body throws
inside the `try`, and so does a value that cannot be turned into text; both are answered by
the `catch`. -/
def unbanIpHandler (st : State) (req : Request) : State × Response :=
  match req.body with
  | none => (st, { status := 500, body := errorBody (destructureMessage "ip") })
  | some b =>
    match b.ip with
    | .undefined => (st, { status := 400, body := errorBody "IP address is required" })
    | .str ip =>
      if ip = "" then (st, { status := 400, body := errorBody "IP address is required" })
      else unbanCore st ip (.ok (fun a => a == ip))
    | .other v =>
      if !v.truthy then (st, { status := 400, body := errorBody "IP address is required" })
      else
        match v.text with
        | .error msg => (st, { status := 500, body := errorBody msg })
        | .ok ip => unbanCore st ip v.alertFilter

/-- The mock user (line 193). -/
def MOCK_USER : String × String := ("admin", "password123")

/-- Whether the submitted credentials are those of the mock user (line 224). -/
def credentialsOk (b : ReqBody) : Bool :=
  b.username.isStr MOCK_USER.1 && b.password.isStr MOCK_USER.2

/-- Whether the failure counter read by the login guard is over the threshold (line 205):
`failures && parseInt(failures) >= 5`. -/
def overThreshold (failures : Option RVal) : Bool :=
  match failures with
  | none => false
  | some v =>
    match parseInt v with
    | none => false
    | some n => decide (n ≥ 5)

/-- `POST /api/login` (lines 196-240). The body is destructured (line 221) only after the
threshold check; when it is `undefined` the destructuring throws inside the `try` and the
`catch` answers. -/
def loginHandler (st : State) (now : Nat) (req : Request) : State × Response :=
  let ip := req.ip
  let failKey := failKey ip
  let blockKey := blockedKey ip
  let failures := st.redis.get now failKey
  if overThreshold failures then
    let alert : Alert :=
      { ip := ip, type := "Brute Force Attempt", severity := "High", timestamp := now }
    let r1 := st.redis.set now blockKey .flag 600
    ({ st with redis := r1, alerts := st.alerts ++ [alert] },
     { status := 429,
       body := errorBody "Too many failed attempts. IP blocked for 10 minutes." })
  else
    match req.body with
    | none => (st, { status := 500, body := .text "Server Error" })
    | some b =>
      if credentialsOk b then
        let r1 := st.redis.del failKey
        let r2 := r1.del blockKey
        ({ st with redis := r2 },
         { status := 200,
           body := .json [("message", .str "Login Successful"),
                          ("token", .str "mock-jwt-token")] })
      else
        match st.redis.incr now failKey with
        | none => (st, { status := 500, body := .text "Server Error" })
        | some (r1, currentCount) =>
          let r2 := if currentCount = 1 then r1.expire now failKey 600 else r1
          ({ st with redis := r2 },
           { status := 401,
             body := errorBody
               ("Invalid credentials. Attempt " ++ toString currentCount ++ "/5") })

/-- `GET /api/balance` (lines 243-251). -/
def balanceHandler (st : State) (now : Nat) (req : Request) : State × Response :=
  let ip := req.ip
  ({ st with redis := st.redis.set now (sessionKey ip) .flag 300 },
   { status := 200,
     body := .json [("balance", .num 5000), ("currency", .str "USD"),
                    ("message", .str "Balance verified")] })

/-- `POST /api/transaction` (lines 254-280). -/
def transactionHandler (st : State) (now : Nat) (req : Request) : State × Response :=
  let ip := req.ip
  let hasCheckedBalance := st.redis.get now (sessionKey ip)
  if !truthy hasCheckedBalance then
    let alert : Alert :=
      { ip := ip, type := "Unusual Access Order", severity := "Critical", timestamp := now }
    ({ st with redis := st.redis.set now (bannedKey ip) .flag 3600, alerts := st.alerts ++ [alert] },
     { status := 403,
       body := errorBody
         "SECURITY ALERT: Abnormal behavior detected. Your IP has been flagged and blocked." })
  else
    (st, { status := 200,
           body := .json [("status", .str "success"),
                          ("message", .str "Transaction completed successfully"),
                          ("amount", .num 100)] })

/-! ## The request pipeline -/

/-- Which stage ended the request. -/
inductive Stage where
  | checkBan
  | rateLimiter
  | handler (r : Route)
  deriving DecidableEq, Repr

/-- What the client gets: the stage that ended the request and the response. -/
structure Reply where
  stage : Stage
  resp : Option Response
  deriving DecidableEq, Repr

/-- The log document written by the logger when a response is sent (lines 51-71). -/
def logEntry (now : Nat) (req : Request) (r : Response) : Log :=
  { ip := normalizeIp req.ip, endpoint := req.originalUrl, method := req.method.name,
    status := r.status,
    reason := if r.status = 403 || r.status = 429 then "Security Violation" else "Standard Access",
    timestamp := now }

/-- A response sent through `res.send` / `res.json` is logged. -/
def logged (st : State) (now : Nat) (req : Request) (r : Response) : State :=
  { st with logs := st.logs ++ [logEntry now req r] }

/-- Modelled from the spec: the answer to a request whose gate ends with a rejected promise.
The router that calls the gates and receives their promises is not part of `server.js`; the
spec has a state-store failure "surfaced as a generic server error (500) for that single
request", the design failing "the whole request with a server error rather than silently
skipping security checks". The spec fixes the status only; the body stands for the generic
text of the router. Like the 404 answer it does not pass through `res.send`. -/
def rejectedResponse : Response := { status := 500, body := .text "Internal Server Error" }

/-- The route handlers. A request that matches no route falls through to the framework's
404 answer, which does not pass through `res.send`. -/
def dispatch (st : State) (now : Nat) (req : Request) : State × Response :=
  match routeOf req with
  | .resetRedis => resetRedisHandler st
  | .stats => statsHandler st
  | .bannedIps => bannedIpsHandler st now
  | .unbanIp => unbanIpHandler st req
  | .login => loginHandler st now req
  | .balance => balanceHandler st now req
  | .transaction => transactionHandler st now req
  | .unrouted => (st, { status := 404, body := .notFound })

/-- The two gates in registration order: `app.use('/api', checkBan)` (line 90), then
`app.use(rateLimiter)` (line 131). -/
def gates (st : State) (now : Nat) (req : Request) : Stage × Step :=
  match (if mounted "/api" req.path then checkBan st now req else .next st) with
  | .respond st1 r => (.checkBan, .respond st1 r)
  | .rejected st1 => (.checkBan, .rejected st1)
  | .next st1 => (.rateLimiter, rateLimiter st1 now req)

/-- One request through the whole application. A gate that ends with a rejected promise
sends nothing itself; the request then gets `rejectedResponse`. -/
def handle (st : State) (now : Nat) (req : Request) : State × Reply :=
  match gates st now req with
  | (stage, .respond st1 r) => (logged st1 now req r, { stage := stage, resp := some r })
  | (stage, .rejected st1) => (st1, { stage := stage, resp := some rejectedResponse })
  | (_, .next st1) =>
    let out := dispatch st1 now req
    match routeOf req with
    | .unrouted => (out.1, { stage := .handler .unrouted, resp := some out.2 })
    | route => (logged out.1 now req out.2, { stage := .handler route, resp := some out.2 })

/-- A timed request. -/
abbrev Event := Nat × Request

/-- Process a list of timed requests one after the other, collecting the replies. -/
def run : State → List Event → State × List Reply
  | st, [] => (st, [])
  | st, (now, req) :: rest =>
    let out := handle st now req
    let tail := run out.1 rest
    (tail.1, out.2 :: tail.2)

/-- The state reached after a list of timed requests. -/
def runState (st : State) (evs : List Event) : State := (run st evs).1

/-- The empty server state. -/
def State.empty : State := { redis := [], alerts := [], logs := [] }

/-! ## Example requests -/

/-- The body `\x7b\x7d`: an object without any of the properties. -/
def emptyBody : ReqBody := { username := .undefined, password := .undefined, ip := .undefined }

/-- A request without query string whose body is the empty object. -/
def mkReq (ip : String) (m : Method) (path : String) : Request :=
  { ip := ip, method := m, path := path, query := "", body := some emptyBody }

/-- A login request with the given credentials. -/
def loginReq (ip user pass : String) : Request :=
  { ip := ip, method := .POST, path := "/api/login", query := "",
    body := some { username := .str user, password := .str pass, ip := .undefined } }

/-- An unban request sent from `from_` for the address `ip`. -/
def unbanReq (from_ ip : String) : Request :=
  { ip := from_, method := .POST, path := "/dashboard/unban-ip", query := "",
    body := some { username := .undefined, password := .undefined, ip := .str ip } }

/-- Six login requests of `10.0.0.9` with the empty object as body, one per second. -/
def emptyLogins : List Event :=
  (List.range 6).map (fun i => (1000 * i, mkReq "10.0.0.9" .POST "/api/login"))

/-- A login request whose body carries the credentials of the mock user. -/
def rightLogin (req : Request) : Bool :=
  match req.body with
  | none => false
  | some b => credentialsOk b

/-- A login request whose body does not carry the credentials of the mock user (a missing or
non-string property included). -/
def wrongLogin (req : Request) : Bool :=
  match req.body with
  | none => false
  | some b => !credentialsOk b

/-- The address whose keys an unban request deletes, if it deletes any: the text of a truthy
`ip` property. -/
def Request.unbanTarget (req : Request) : Option String :=
  match req.body with
  | none => none
  | some b =>
    match b.ip with
    | .undefined => none
    | .str ip => if ip = "" then none else some ip
    | .other v =>
      if !v.truthy then none
      else
        match v.text with
        | .error _ => none
        | .ok ip => some ip

/-- A state in which the address `ip` carries a ban set at time 0. -/
def bannedState (ip : String) : State :=
  { redis := [(bannedKey ip, { val := .flag, expiresAt := some 3600000 })], alerts := [], logs := [] }

/-! ## Responses named in the theorems -/

def forbiddenResponse : Response :=
  { status := 403, body := errorBody "⛔ YOUR IP IS BANNED. Security violation detected." }

def loginOkResponse : Response :=
  { status := 200,
    body := .json [("message", .str "Login Successful"), ("token", .str "mock-jwt-token")] }

def tooManyAttemptsResponse : Response :=
  { status := 429, body := errorBody "Too many failed attempts. IP blocked for 10 minutes." }

def tooManyRequestsResponse : Response :=
  { status := 429, body := errorBody "Too Many Requests" }

def flowViolationResponse : Response :=
  { status := 403,
    body := errorBody
      "SECURITY ALERT: Abnormal behavior detected. Your IP has been flagged and blocked." }

def transactionOkResponse : Response :=
  { status := 200,
    body := .json [("status", .str "success"),
                   ("message", .str "Transaction completed successfully"),
                   ("amount", .num 100)] }

/-- The five keys the server keeps for an address. -/
def keysOf (ip : String) : List String :=
  [bannedKey ip, blockedKey ip, rateKey ip, failKey ip, sessionKey ip]

/-- What `checkBan` tests: the banned or the blocked key of the address is live. -/
def flagged (st : State) (now : Nat) (ip : String) : Bool :=
  (st.redis.find now (bannedKey ip)).isSome || (st.redis.find now (blockedKey ip)).isSome

/-- The alert raised by the rate limiter. -/
def rateAlert (ip : String) (now : Nat) : Alert :=
  { ip := ip, type := "Rate Limit Exceeded", severity := "High", timestamp := now }

def blockedByTrafficResponse : Response :=
  { status := 403, body := errorBody "IP Blocked due to traffic abuse" }

/-- The four administrative endpoints. -/
def adminPaths : List String :=
  ["/dashboard/stats", "/dashboard/banned-ips", "/dashboard/unban-ip", "/reset-redis"]

/-- The state a middleware leaves behind. -/
def Step.state : Step → State
  | .next st => st
  | .respond st _ => st
  | .rejected st => st

/-- What a middleware step sends: nothing yet (`next`), a response, or no response of its own
(a rejected promise). -/
def Step.reply : Step → Option (Option Response)
  | .next _ => none
  | .respond _ r => some (some r)
  | .rejected _ => some none

/-- A state with a ban, a block, counters, a checkpoint and alerts for `10.0.0.9`, and a ban
and an alert for `10.0.0.7`. -/
def busyState : State :=
  { redis := [(bannedKey "10.0.0.9", { val := .flag, expiresAt := some 3600000 }),
              (blockedKey "10.0.0.9", { val := .flag, expiresAt := some 600000 }),
              (rateKey "10.0.0.9", { val := .int 7, expiresAt := some 60000 }),
              (failKey "10.0.0.9", { val := .int 5, expiresAt := some 600000 }),
              (sessionKey "10.0.0.9", { val := .flag, expiresAt := some 300000 }),
              (bannedKey "10.0.0.7", { val := .flag, expiresAt := some 3600000 })],
    alerts := [{ ip := "10.0.0.9", type := "Brute Force Attempt", severity := "High",
                 timestamp := 0 },
               { ip := "10.0.0.7", type := "Unusual Access Order", severity := "Critical",
                 timestamp := 0 }],
    logs := [] }

/-- The alert raised by the login guard. -/
def bruteAlert (ip : String) (now : Nat) : Alert :=
  { ip := ip, type := "Brute Force Attempt", severity := "High", timestamp := now }

/-- The answer to the `n`-th consecutive failed login. -/
def attemptResponse (n : Int) : Response :=
  { status := 401, body := errorBody ("Invalid credentials. Attempt " ++ toString n ++ "/5") }

/-- The `login_failures` entry after `n` failures, the first of them at time `t1`. -/
def failEntry (n : Int) (t1 : Nat) : Entry :=
  { val := .int n, expiresAt := some (t1 + 600 * 1000) }

/-- The login handler applied to a list of timed login requests, one after the other. -/
def loginRun : State → List Event → State × List Response
  | st, [] => (st, [])
  | st, (now, req) :: rest =>
    let out := loginHandler st now req
    let tail := loginRun out.1 rest
    (tail.1, out.2 :: tail.2)

/-- The five answers to five consecutive failed logins. -/
def fiveAttemptResponses : List Response :=
  [{ status := 401, body := errorBody "Invalid credentials. Attempt 1/5" },
   { status := 401, body := errorBody "Invalid credentials. Attempt 2/5" },
   { status := 401, body := errorBody "Invalid credentials. Attempt 3/5" },
   { status := 401, body := errorBody "Invalid credentials. Attempt 4/5" },
   { status := 401, body := errorBody "Invalid credentials. Attempt 5/5" }]

/-- Four further failed logins of `10.0.0.9`, after a first one at time 0. -/
def fourMoreFailures : List Event :=
  [(1000, loginReq "10.0.0.9" "admin" "guess1"), (2000, loginReq "10.0.0.9" "admin" "guess2"),
   (3000, loginReq "10.0.0.9" "root" "password123"), (599999, loginReq "10.0.0.9" "admin" "")]

/-- A state in which `10.0.0.9` has three recorded login failures and a block. -/
def threeFailuresState : State :=
  { redis := [(failKey "10.0.0.9", { val := .int 3, expiresAt := some 600000 }),
              (blockedKey "10.0.0.9", { val := .flag, expiresAt := some 60000 })],
    alerts := [], logs := [] }

/-- The alert raised by the flow sequence enforcer. -/
def flowAlert (ip : String) (now : Nat) : Alert :=
  { ip := ip, type := "Unusual Access Order", severity := "Critical", timestamp := now }

/-- The requests served by the checkpoint, commit and login handlers. -/
def apiRoute (req : Request) : Bool :=
  routeOf req == .login || routeOf req == .balance || routeOf req == .transaction

/-- A request whose route handler never touches the ban, block and rate keys of the
requesting address, in whatever state it runs. -/
def Quiet (req : Request) : Prop :=
  ∀ (st : State) (now : Nat), ∀ k ∈ [bannedKey req.ip, blockedKey req.ip, rateKey req.ip],
    (dispatch st now req).1.redis.raw k = st.redis.raw k

/-- A flood of 102 commit requests from `10.0.0.9`, one every 100 ms. -/
def floodTransactions : List Event :=
  (List.range 102).map (fun i => (100 * i, mkReq "10.0.0.9" .POST "/api/transaction"))

/-- Ninety-nine further checkpoint requests from `10.0.0.9`, one every 100 ms. -/
def balanceFlood : List Event :=
  (List.range 99).map (fun i => (100 * (i + 1), mkReq "10.0.0.9" .GET "/api/balance"))

/-- The checkpoint entry written at time `tc`. -/
def checkpointEntry (tc : Nat) : Entry :=
  { val := .flag, expiresAt := some (tc + 300 * 1000) }

/-- How one answered request changes the time of the latest checkpoint of `ip` that has not
been cleared: a request of `ip` served by the checkpoint handler records its time; a flush,
or an unban naming `ip`, clears it; anything else leaves it. -/
def checkpointAfter (ip : String) (prev : Option Nat) (now : Nat) (req : Request)
    (rep : Reply) : Option Nat :=
  match rep.stage with
  | .handler .balance => if req.ip = ip then some now else prev
  | .handler .resetRedis => none
  | .handler .unbanIp => if req.unbanTarget = some ip then none else prev
  | _ => prev

/-- The time of the latest checkpoint of `ip` not cleared since, over a run of requests. -/
def lastCheckpoint (ip : String) : State → List Event → Option Nat → Option Nat
  | _, [], prev => prev
  | st, (now, req) :: rest, prev =>
    lastCheckpoint ip (handle st now req).1 rest
      (checkpointAfter ip prev now req (handle st now req).2)

/-- A state in which `10.0.0.9` has a rate counter at 7 and two recorded login failures. -/
def countingState : State :=
  { redis := [(rateKey "10.0.0.9", { val := .int 7, expiresAt := some 60000 }),
              (failKey "10.0.0.9", { val := .int 2, expiresAt := some 600000 })],
    alerts := [], logs := [] }

/-- The answer to an unban request without an address. -/
def ipRequiredResponse : Response :=
  { status := 400, body := errorBody "IP address is required" }

/-! ## Store failures

The same gates and handlers with every store operation allowed to fail. A failure inside a
`try` block is answered by its `catch`; a failure in a gate, which has no `try`, rejects the
promise of the gate. -/

/-- A fault plan for one request: which of its store operations fail, by their position in
the order in which the request issues them, and the message carried by the error. -/
structure Faults where
  fails : Nat → Bool
  message : String

/-- The plan under which no store operation fails. -/
def noFaults : Faults := { fails := fun _ => false, message := "" }

/-- The plan under which exactly the operation at position `k` fails. -/
def failAt (k : Nat) : Faults := { fails := fun i => i == k, message := "Connection lost" }

/-- Result of a computation that issues store operations: a value, or the failure (a rejected
promise) of one of its operations; in both cases the position of the next operation and the
state reached. -/
inductive Outcome (α : Type) where
  | ok (a : α) (i : Nat) (st : State)
  | failed (i : Nat) (st : State)

/-- A computation issuing store operations under a fault plan, from a given position and
state. -/
def StoreM (α : Type) : Type := Faults → Nat → State → Outcome α

instance : Monad StoreM where
  pure a := fun _ i st => .ok a i st
  bind m f := fun flt i st =>
    match m flt i st with
    | .ok a i' st' => f a flt i' st'
    | .failed i' st' => .failed i' st'

/-- One store operation: it fails when the plan says so, or when the operation itself is an
error on the current store. -/
def storeOp {α : Type} (f : State → Option (α × State)) : StoreM α := fun flt i st =>
  if flt.fails i then .failed (i + 1) st
  else
    match f st with
    | some (a, st') => .ok a (i + 1) st'
    | none => .failed (i + 1) st

/-- `get` as a fallible operation. -/
def getM (now : Nat) (key : String) : StoreM (Option RVal) :=
  storeOp (fun st => some (st.redis.get now key, st))

/-- `set` with a time-to-live as a fallible operation. -/
def setM (now : Nat) (key : String) (v : RVal) (ttl : Nat) : StoreM Unit :=
  storeOp (fun st => some ((), { st with redis := st.redis.set now key v ttl }))

/-- `del` as a fallible operation. -/
def delM (key : String) : StoreM Unit :=
  storeOp (fun st => some ((), { st with redis := st.redis.del key }))

/-- `incr` as a fallible operation. -/
def incrM (now : Nat) (key : String) : StoreM Int :=
  storeOp (fun st =>
    match st.redis.incr now key with
    | some (r, count) => some (count, { st with redis := r })
    | none => none)

/-- `expire` as a fallible operation. -/
def expireM (now : Nat) (key : String) (ttl : Nat) : StoreM Unit :=
  storeOp (fun st => some ((), { st with redis := st.redis.expire now key ttl }))

/-- `flushDb` as a fallible operation. -/
def flushDbM : StoreM Unit :=
  storeOp (fun st => some ((), { st with redis := st.redis.flushDb }))

/-- `keys` as a fallible operation. -/
def keysM (now : Nat) (pfx : String) : StoreM (List String) :=
  storeOp (fun st => some (st.redis.keys now pfx, st))

/-- Saving an alert document (MongoDB, not a store operation). -/
def saveAlert (a : Alert) : StoreM Unit := fun _ i st =>
  .ok () i { st with alerts := st.alerts ++ [a] }

/-- `Alert.deleteMany` for the alerts whose address the filter selects (MongoDB, not a store
operation). -/
def deleteAlerts (selects : String → Bool) : StoreM Unit := fun _ i st =>
  .ok () i { st with alerts := st.alerts.filter (fun a => !(selects a.ip)) }

/-- A `try`/`catch` around a handler body: a failed store operation is answered by `onError`
applied to the error message. -/
def tryCatch (body : StoreM Response) (onError : String → Response) : StoreM Response :=
  fun flt i st =>
    match body flt i st with
    | .ok r i' st' => .ok r i' st'
    | .failed i' st' => .ok (onError flt.message) i' st'

/-- `checkBan` (lines 76-88) with its two store reads as fallible operations. -/
def checkBanM (now : Nat) (req : Request) : StoreM (Option Response) := do
  let ip := req.ip
  let isBanned ← getM now (bannedKey ip)
  let isBlocked ← getM now (blockedKey ip)
  if truthy isBanned || truthy isBlocked then
    pure (some { status := 403,
                 body := errorBody "⛔ YOUR IP IS BANNED. Security violation detected." })
  else pure none

/-- `rateLimiter` (lines 93-129) with its store operations as fallible operations. -/
def rateLimiterM (now : Nat) (req : Request) : StoreM (Option Response) :=
  if rateExempt req.path then pure none
  else do
    let ip := req.ip
    let key := rateKey ip
    let blockKey := blockedKey ip
    let isBlocked ← getM now blockKey
    if truthy isBlocked then
      pure (some { status := 403, body := errorBody "IP Blocked due to traffic abuse" })
    else do
      let count ← incrM now key
      if count = 1 then
        expireM now key 60
      if count > 100 then
        if count = 101 then do
          setM now blockKey .flag 60
          saveAlert { ip := ip, type := "Rate Limit Exceeded", severity := "High",
                      timestamp := now }
          pure (some { status := 429, body := errorBody "Too Many Requests" })
        else
          pure (some { status := 403, body := errorBody "IP Blocked due to traffic abuse" })
      else pure none

/-- Body of the `try` block of `GET /reset-redis`. -/
def resetRedisBody : StoreM Response := do
  flushDbM
  pure { status := 200, body := .text "✅ Redis memory cleared! You are no longer banned." }

/-- `GET /reset-redis` with its `try`/`catch`. -/
def resetRedisHandlerM : StoreM Response :=
  tryCatch resetRedisBody
    (fun msg => { status := 500, body := .text ("Error clearing Redis: " ++ msg) })

/-- Body of the `try` block of `GET /dashboard/banned-ips`. -/
def bannedIpsBody (now : Nat) : StoreM Response := do
  let bannedKeys ← keysM now "banned:"
  let blockedKeys ← keysM now "blocked:"
  let bannedIPs := bannedKeys.map (fun key => String.mk (key.data.drop 7))
  let blockedIPs := blockedKeys.map (fun key => String.mk (key.data.drop 8))
  let uniqueIPs := uniq (bannedIPs ++ blockedIPs)
  pure { status := 200, body := .json [("bannedIPs", .strs uniqueIPs)] }

/-- `GET /dashboard/banned-ips` with its `try`/`catch`. -/
def bannedIpsHandlerM (now : Nat) : StoreM Response :=
  tryCatch (bannedIpsBody now) (fun msg => { status := 500, body := errorBody msg })

/-- Lines 176-186 with the five deletions as fallible operations. A filter that throws is
answered as the `catch` answers it. -/
def unbanCoreM (ip : String) (filter : Except String (String → Bool)) : StoreM Response := do
  delM (bannedKey ip)
  delM (blockedKey ip)
  delM (rateKey ip)
  delM (failKey ip)
  delM (sessionKey ip)
  match filter with
  | .error msg => pure { status := 500, body := errorBody msg }
  | .ok selects =>
    deleteAlerts selects
    pure { status := 200,
           body := .json [("success", .bool true),
                          ("message", .str ("IP " ++ ip ++ " unbanned"))] }

/-- Body of the `try` block of `POST /dashboard/unban-ip`. An error thrown by the
destructuring or by the conversion to text is answered as the `catch` answers it. -/
def unbanIpBody (req : Request) : StoreM Response :=
  match req.body with
  | none => pure { status := 500, body := errorBody (destructureMessage "ip") }
  | some b =>
    match b.ip with
    | .undefined => pure { status := 400, body := errorBody "IP address is required" }
    | .str ip =>
      if ip = "" then pure { status := 400, body := errorBody "IP address is required" }
      else unbanCoreM ip (.ok (fun a => a == ip))
    | .other v =>
      if !v.truthy then pure { status := 400, body := errorBody "IP address is required" }
      else
        match v.text with
        | .error msg => pure { status := 500, body := errorBody msg }
        | .ok ip => unbanCoreM ip v.alertFilter

/-- `POST /dashboard/unban-ip` with its `try`/`catch`. -/
def unbanIpHandlerM (req : Request) : StoreM Response :=
  tryCatch (unbanIpBody req) (fun msg => { status := 500, body := errorBody msg })

/-- Body of the `try` block of `POST /api/login`. The `TypeError` of destructuring an
`undefined` body is answered as the `catch` answers it. -/
def loginBody (now : Nat) (req : Request) : StoreM Response :=
  let ip := req.ip
  let failKey := failKey ip
  let blockKey := blockedKey ip
  (do
      let failures ← getM now failKey
      if overThreshold failures then
        saveAlert { ip := ip, type := "Brute Force Attempt", severity := "High",
                    timestamp := now }
        setM now blockKey .flag 600
        pure { status := 429,
               body := errorBody "Too many failed attempts. IP blocked for 10 minutes." }
      else
        match req.body with
        | none => pure { status := 500, body := .text "Server Error" }
        | some b =>
          if credentialsOk b then
            delM failKey
            delM blockKey
            pure { status := 200,
                   body := .json [("message", .str "Login Successful"),
                                  ("token", .str "mock-jwt-token")] }
          else
            let currentCount ← incrM now failKey
            if currentCount = 1 then
              expireM now failKey 600
            pure { status := 401,
                   body := errorBody
                     ("Invalid credentials. Attempt " ++ toString currentCount ++ "/5") })

/-- `POST /api/login` with its `try`/`catch`. -/
def loginHandlerM (now : Nat) (req : Request) : StoreM Response :=
  tryCatch (loginBody now req) (fun _ => { status := 500, body := .text "Server Error" })

/-- Body of the `try` block of `GET /api/balance`. -/
def balanceBody (now : Nat) (req : Request) : StoreM Response := do
  let ip := req.ip
  setM now (sessionKey ip) .flag 300
  pure { status := 200,
         body := .json [("balance", .num 5000), ("currency", .str "USD"),
                        ("message", .str "Balance verified")] }

/-- `GET /api/balance` with its `try`/`catch`. -/
def balanceHandlerM (now : Nat) (req : Request) : StoreM Response :=
  tryCatch (balanceBody now req) (fun _ => { status := 500, body := errorBody "Server Error" })

/-- Body of the `try` block of `POST /api/transaction`. -/
def transactionBody (now : Nat) (req : Request) : StoreM Response :=
  let ip := req.ip
  (do
      let hasCheckedBalance ← getM now (sessionKey ip)
      if !truthy hasCheckedBalance then
        saveAlert { ip := ip, type := "Unusual Access Order", severity := "Critical",
                    timestamp := now }
        setM now (bannedKey ip) .flag 3600
        pure { status := 403,
               body := errorBody
                 "SECURITY ALERT: Abnormal behavior detected. Your IP has been flagged and blocked." }
      else
        pure { status := 200,
               body := .json [("status", .str "success"),
                              ("message", .str "Transaction completed successfully"),
                              ("amount", .num 100)] })

/-- `POST /api/transaction` with its `try`/`catch`. -/
def transactionHandlerM (now : Nat) (req : Request) : StoreM Response :=
  tryCatch (transactionBody now req)
    (fun _ => { status := 500, body := errorBody "Server Error" })

/-- The route handlers under a fault plan. -/
def dispatchM (now : Nat) (req : Request) : StoreM Response :=
  match routeOf req with
  | .resetRedis => resetRedisHandlerM
  | .stats => fun _ i st => .ok (statsHandler st).2 i st
  | .bannedIps => bannedIpsHandlerM now
  | .unbanIp => unbanIpHandlerM req
  | .login => loginHandlerM now req
  | .balance => balanceHandlerM now req
  | .transaction => transactionHandlerM now req
  | .unrouted => fun _ i st => .ok { status := 404, body := .notFound } i st

/-- The outcome of a gate as the result of the middleware: a failed store operation rejects
its promise. -/
def Outcome.asStep : Outcome (Option Response) → Step
  | .ok none _ st => .next st
  | .ok (some r) _ st => .respond st r
  | .failed _ st => .rejected st

/-- The value and the state of an outcome that did not fail. -/
def Outcome.value? {α : Type} : Outcome α → Option (α × State)
  | .ok a _ st => some (a, st)
  | .failed _ _ => none

/-- The position of the next store operation after an outcome: the number of operations
issued so far. -/
def Outcome.position {α : Type} : Outcome α → Nat
  | .ok _ i _ => i
  | .failed i _ => i

/-- One request under a fault plan: the state and the reply, and the number of store
operations issued up to the end of `checkBan`, of `rateLimiter` and of the whole request. -/
structure Trace where
  state : State
  reply : Reply
  banOps : Nat
  rateOps : Nat
  ops : Nat

/-- One request through the whole application under a fault plan. -/
def handleT (flt : Faults) (st : State) (now : Nat) (req : Request) : Trace :=
  let o1 := (if mounted "/api" req.path then checkBanM now req else pure none) flt 0 st
  match o1.asStep with
  | .respond st1 r =>
    { state := logged st1 now req r, reply := { stage := .checkBan, resp := some r },
      banOps := o1.position, rateOps := o1.position, ops := o1.position }
  | .rejected st1 =>
    { state := st1, reply := { stage := .checkBan, resp := some rejectedResponse },
      banOps := o1.position, rateOps := o1.position, ops := o1.position }
  | .next st1 =>
    let o2 := rateLimiterM now req flt o1.position st1
    match o2.asStep with
    | .respond st2 r =>
      { state := logged st2 now req r, reply := { stage := .rateLimiter, resp := some r },
        banOps := o1.position, rateOps := o2.position, ops := o2.position }
    | .rejected st2 =>
      { state := st2, reply := { stage := .rateLimiter, resp := some rejectedResponse },
        banOps := o1.position, rateOps := o2.position, ops := o2.position }
    | .next st2 =>
      let o3 := dispatchM now req flt o2.position st2
      match o3 with
      | .failed _ st3 =>
        { state := st3,
          reply := { stage := .handler (routeOf req), resp := some rejectedResponse },
          banOps := o1.position, rateOps := o2.position, ops := o3.position }
      | .ok r _ st3 =>
        match routeOf req with
        | .unrouted =>
          { state := st3, reply := { stage := .handler .unrouted, resp := some r },
            banOps := o1.position, rateOps := o2.position, ops := o3.position }
        | route =>
          { state := logged st3 now req r, reply := { stage := .handler route, resp := some r },
            banOps := o1.position, rateOps := o2.position, ops := o3.position }

/-- The state and the reply of one request under a fault plan. -/
def handleF (flt : Faults) (st : State) (now : Nat) (req : Request) : State × Reply :=
  ((handleT flt st now req).state, (handleT flt st now req).reply)

/-- A computation in which a failing store operation is the last one issued and makes the
computation fail. -/
def Sound {α : Type} (m : StoreM α) : Prop :=
  ∀ (flt : Faults) (i : Nat) (st : State),
    i ≤ (m flt i st).position ∧
    ∀ j, i ≤ j → j < (m flt i st).position → flt.fails j = true →
      (m flt i st).position = j + 1 ∧ (m flt i st).value? = none

/-- A handler that always answers, and answers 500 when a store operation it issues fails,
that operation being the last one issued. -/
def Caught (m : StoreM Response) : Prop :=
  ∀ (flt : Faults) (i : Nat) (st : State),
    i ≤ (m flt i st).position ∧
    (∃ r st', (m flt i st).value? = some (r, st')) ∧
    ∀ j, i ≤ j → j < (m flt i st).position → flt.fails j = true →
      (m flt i st).position = j + 1 ∧
      ∃ r st', (m flt i st).value? = some (r, st') ∧ r.status = 500

/-- The stage that issues the store operation at position `j` of a traced request. -/
def Trace.stageOf (t : Trace) (req : Request) (j : Nat) : Stage :=
  if j < t.banOps then .checkBan
  else if j < t.rateOps then .rateLimiter
  else .handler (routeOf req)

/-- The request used to exhibit store failures: a checkpoint request of `10.0.0.9`. -/
def probeReq : Request := mkReq "10.0.0.9" .GET "/api/balance"

/-! ## Concurrent requests inside the rate limiter -/

/-- Where a request stands inside `rateLimiter` (lines 102-128) when every store call is an
atomic step of its own: before reading the blocked flag, before the increment, before the
expiry (after an increment that returned `count`), before setting the block, or finished:
passed on, rejected at the blocked check, rejected beyond the first overflow, answered 429, or
ended by a store error. -/
inductive Pc where
  | start
  | toIncr
  | toExpire (count : Int)
  | toBlock
  | passed
  | blocked
  | over
  | limited
  | crashed
  deriving DecidableEq, Repr

/-- The branch on the count (lines 112-128). -/
def branch (count : Int) : Pc :=
  if count > 100 then
    if count = 101 then .toBlock else .over
  else .passed

/-- A set of concurrent requests of one address inside the rate limiter: the store, the
alerts, the position of every request and the values the increments have returned so far. -/
structure Sys where
  redis : Store
  alerts : List Alert
  pcs : List Pc
  counts : List Int
  deriving DecidableEq, Repr

/-- The next store call of a request at position `pc`, on the current store and alerts: the
new store, alerts and position, and the value returned if the call was the increment. -/
def stepPc (now : Nat) (ip : String) (redis : Store) (alerts : List Alert) :
    Pc → Store × List Alert × Pc × Option Int
  | .start =>
    if truthy (redis.get now (blockedKey ip)) then (redis, alerts, .blocked, none)
    else (redis, alerts, .toIncr, none)
  | .toIncr =>
    match redis.incr now (rateKey ip) with
    | none => (redis, alerts, .crashed, none)
    | some (r1, count) =>
      (r1, alerts, if count = 1 then .toExpire count else branch count, some count)
  | .toExpire count => (redis.expire now (rateKey ip) 60, alerts, branch count, none)
  | .toBlock =>
    (redis.set now (blockedKey ip) .flag 60, alerts ++ [rateAlert ip now], .limited, none)
  | pc => (redis, alerts, pc, none)

/-- Request number `i` performs its next store call; a finished or unknown request does
nothing. -/
def Sys.step (now : Nat) (ip : String) (s : Sys) (i : Nat) : Sys :=
  match s.pcs[i]? with
  | none => s
  | some pc =>
    let out := stepPc now ip s.redis s.alerts pc
    { redis := out.1, alerts := out.2.1, pcs := s.pcs.set i out.2.2.1,
      counts := match out.2.2.2 with
        | some c => s.counts ++ [c]
        | none => s.counts }

/-- An interleaving: the order in which the requests perform their store calls. -/
def Sys.exec (now : Nat) (ip : String) (s : Sys) (sched : List Nat) : Sys :=
  sched.foldl (Sys.step now ip) s

/-- `n` simultaneous requests against an empty store. -/
def Sys.init (n : Nat) : Sys :=
  { redis := [], alerts := [], pcs := List.replicate n .start, counts := [] }

/-- Whether a request has finished. -/
def Pc.finished : Pc → Bool
  | .passed => true
  | .blocked => true
  | .over => true
  | .limited => true
  | .crashed => true
  | _ => false

/-- The interleaving in which the requests run one after the other, three steps each. -/
def oneByOne (n : Nat) : List Nat :=
  (List.range n).flatMap (fun i => [i, i, i])

/-- The outcome of `rateLimiter` read off a single finished request. -/
def Sys.toStep (st : State) (s : Sys) : Step :=
  match s.pcs with
  | [.passed] => .next { st with redis := s.redis }
  | [.blocked] => .respond { st with redis := s.redis } blockedByTrafficResponse
  | [.over] => .respond { st with redis := s.redis } blockedByTrafficResponse
  | [.limited] =>
    .respond { st with redis := s.redis, alerts := s.alerts } tooManyRequestsResponse
  | _ => .rejected st

/-- Positions a request can only be in after its increment. -/
def Pc.incremented : Pc → Bool
  | .toExpire _ => true
  | .toBlock => true
  | .passed => true
  | .over => true
  | .limited => true
  | _ => false

/-- Positions of a request that took the count-equals-101 branch. -/
def Pc.tookBranch : Pc → Bool
  | .toBlock => true
  | .limited => true
  | _ => false

/-- The values `1, 2, ..., c`. -/
def upTo (c : Nat) : List Int := (List.range c).map (fun i => (i : Int) + 1)

/-- What holds in every state of the concurrent rate limiter reached from `Sys.init n`. -/
structure Inv (n now : Nat) (ip : String) (s : Sys) : Prop where
  len : s.pcs.length = n
  counts : s.counts = upTo s.counts.length
  rate0 : s.counts.length = 0 → s.redis.find now (rateKey ip) = none
  rate : 0 < s.counts.length →
    ∃ exp, s.redis.find now (rateKey ip) = some { val := .int s.counts.length, expiresAt := exp }
  incremented : s.pcs.countP Pc.incremented = s.counts.length
  branch : s.pcs.countP Pc.tookBranch = if 101 ≤ s.counts.length then 1 else 0
  alerts : s.alerts = List.replicate (s.pcs.countP (· == Pc.limited)) (rateAlert ip now)
  flag : (s.redis.find now (blockedKey ip)).isSome = true → 1 ≤ s.pcs.countP (· == Pc.limited)
  blocked : 1 ≤ s.pcs.countP (· == Pc.blocked) → 1 ≤ s.pcs.countP (· == Pc.limited)
  crashed : s.pcs.countP (· == Pc.crashed) = 0
  expire : ∀ k, Pc.toExpire k ∈ s.pcs → k = 1

/-- The store once the rate counter of `ip` stands at `k` with the expiry of a window opened
at `now`. -/
def seqStore (now : Nat) (ip : String) (k : Nat) : Store :=
  [(rateKey ip, { val := .int k, expiresAt := some (now + 60 * 1000) })]

/-- The store once the block of `ip` has been set at `now` on top of a counter at `k`. -/
def blockedStore (now : Nat) (ip : String) (k : Nat) : Store :=
  (blockedKey ip, { val := .flag, expiresAt := some (now + 60 * 1000) }) :: seqStore now ip k

/-- The state after the rate limiter has counted the first request of `10.0.0.9`, made at
1000 ms on the empty server. -/
def firstCountedState : State :=
  { redis := [(rateKey "10.0.0.9", { val := .int 1, expiresAt := some 61000 })],
    alerts := [], logs := [] }

/-- A hundred requests of `10.0.0.9` to a path without route, one every 10 ms. -/
def hundredPings : List Event :=
  (List.range 100).map (fun i => (10 * i, mkReq "10.0.0.9" .GET "/api/ping"))

/-- The state after `hundredPings`: the rate counter of `10.0.0.9` stands at 100. -/
def fullWindowState : State :=
  { redis := [(rateKey "10.0.0.9", { val := .int 100, expiresAt := some 60000 })],
    alerts := [], logs := [] }

/-- The events come in order of time, none before `T`. -/
def timesFrom : Nat → List Event → Prop
  | _, [] => True
  | T, (t, _) :: rest => T ≤ t ∧ timesFrom t rest

/-- What holds of the rate counter of `ip` in a state reached by time `T`: it is an integer
between 1 and 101 that expires at most 60 s after `T`, and while it stands at 101 the blocked
key is stored with an expiry that is not earlier. -/
def RateInv (st : State) (T : Nat) (ip : String) : Prop :=
  ∀ e, st.redis.raw (rateKey ip) = some e →
    ∃ n x, e = { val := .int n, expiresAt := some x } ∧ 1 ≤ n ∧ n ≤ 101 ∧ x ≤ T + 60 * 1000 ∧
      (n = 101 → ∃ v xb, st.redis.raw (blockedKey ip) = some { val := v, expiresAt := some xb } ∧
        x ≤ xb)

/-- The stored rate counter of `ip`, if any, is at most 100. -/
def RateLow (st : State) (ip : String) : Prop :=
  ∀ n x, st.redis.raw (rateKey ip) = some { val := .int n, expiresAt := x } → n ≤ 100

/-- What holds of the failure counter of `ip` in every reachable state: it is an integer
between 1 and 5 with an expiry. -/
def FailInv (st : State) (ip : String) : Prop :=
  ∀ e, st.redis.raw (failKey ip) = some e →
    ∃ n x, e = { val := .int n, expiresAt := some x } ∧ 1 ≤ n ∧ n ≤ 5

/-- The condition under which `rateLimiter` takes the count-greater-than-101 branch
(line 126): the path is counted, the blocked flag is read as absent, and the increment
returns more than 101. -/
def takesOverBranch (st : State) (now : Nat) (req : Request) : Bool :=
  !rateExempt req.path && !truthy (st.redis.get now (blockedKey req.ip)) &&
    (match st.redis.incr now (rateKey req.ip) with
     | some (_, count) => decide (count > 101)
     | none => false)

/-- A short session of `10.0.0.9`: two failed logins, a checkpoint and a commit. -/
def shortSession : List Event :=
  [(0, loginReq "10.0.0.9" "admin" "guess1"), (1000, loginReq "10.0.0.9" "admin" "guess2"),
   (2000, mkReq "10.0.0.9" .GET "/api/balance"),
   (3000, mkReq "10.0.0.9" .POST "/api/transaction")]

/-! ## THEOREMS -/

/-! ### The store -/

theorem Store.raw_erase (s : Store) (k k' : String) :
    (s.erase k).raw k' = if k = k' then none else s.raw k' := by
  induction s with
  | nil => simp [Store.erase, Store.raw]
  | cons p rest ih =>
    obtain ⟨a, e⟩ := p
    simp only [Store.erase] at ih ⊢
    by_cases ha : a = k
    · subst ha
      by_cases hk : a = k'
      · simp [List.filter_cons, Store.raw, hk] at ih ⊢; simpa [hk] using ih
      · simp [List.filter_cons, Store.raw, hk] at ih ⊢; simpa [hk] using ih
    · by_cases hk : k = k'
      · subst hk
        simp [List.filter_cons, Store.raw, ha] at ih ⊢; exact ih
      · simp [List.filter_cons, Store.raw, ha, hk] at ih ⊢
        rw [ih]

theorem Store.raw_put (s : Store) (k k' : String) (e : Entry) :
    (s.put k e).raw k' = if k = k' then some e else s.raw k' := by
  by_cases h : k = k'
  · simp [Store.put, Store.raw, h]
  · simp [Store.put, Store.raw, h, Store.raw_erase]

theorem Store.raw_set (s : Store) (now ttl : Nat) (k k' : String) (v : RVal) :
    (s.set now k v ttl).raw k' =
      if k = k' then some { val := v, expiresAt := some (now + ttl * 1000) } else s.raw k' := by
  simp [Store.set, Store.raw_put]

theorem Store.raw_del (s : Store) (k k' : String) :
    (s.del k).raw k' = if k = k' then none else s.raw k' := by
  simp [Store.del, Store.raw_erase]

theorem Store.find_of_raw_none {s : Store} {k : String} (now : Nat) (h : s.raw k = none) :
    s.find now k = none := by
  simp [Store.find, h]

theorem Store.get_of_find_none {s : Store} {k : String} {now : Nat} (h : s.find now k = none) :
    s.get now k = none := by
  simp [Store.get, h]

theorem Store.truthy_get (s : Store) (now : Nat) (k : String) :
    truthy (s.get now k) = (s.find now k).isSome := by
  unfold Store.get
  cases s.find now k <;> rfl

theorem Store.find_congr {s s' : Store} {k : String} (now : Nat) (h : s'.raw k = s.raw k) :
    s'.find now k = s.find now k := by
  simp [Store.find, h]

theorem Store.get_congr {s s' : Store} {k : String} (now : Nat) (h : s'.raw k = s.raw k) :
    s'.get now k = s.get now k := by
  simp [Store.get, Store.find_congr now h]

/-- An expired or absent key stays so as time passes. -/
theorem Store.find_none_mono {s : Store} {k : String} {now now' : Nat} (hle : now ≤ now')
    (h : s.find now k = none) : s.find now' k = none := by
  unfold Store.find at h ⊢
  cases hr : s.raw k with
  | none => rfl
  | some e =>
    obtain ⟨v, exp⟩ := e
    rw [hr] at h
    cases exp with
    | none => simp [Entry.live] at h
    | some t =>
      have h1 : ¬ now < t := by simpa [Entry.live] using h
      have h2 : ¬ now' < t := by omega
      simp [Entry.live, h2]

theorem Store.incr_absent {s : Store} {k : String} {now : Nat} (h : s.find now k = none) :
    s.incr now k = some (s.put k { val := .int 1, expiresAt := none }, 1) := by
  simp [Store.incr, h]

theorem Store.incr_int {s : Store} {k : String} {now : Nat} {n : Int} {exp : Option Nat}
    (h : s.find now k = some { val := .int n, expiresAt := exp })
    (hn : n + 1 ≤ 9223372036854775807) :
    s.incr now k = some (s.put k { val := .int (n + 1), expiresAt := exp }, n + 1) := by
  have hn' : ¬ (n + 1 > 9223372036854775807) := by omega
  simp [Store.incr, h, hn']

/-! ### Keys -/

theorem bannedKey_inj {a b : String} : bannedKey a = bannedKey b ↔ a = b := by
  constructor
  · intro h
    have := congrArg String.data h
    simp [bannedKey, String.data_append] at this
    exact String.ext this
  · rintro rfl; rfl

theorem blockedKey_inj {a b : String} : blockedKey a = blockedKey b ↔ a = b := by
  constructor
  · intro h
    have := congrArg String.data h
    simp [blockedKey, String.data_append] at this
    exact String.ext this
  · rintro rfl; rfl

theorem rateKey_inj {a b : String} : rateKey a = rateKey b ↔ a = b := by
  constructor
  · intro h
    have := congrArg String.data h
    simp [rateKey, String.data_append] at this
    exact String.ext this
  · rintro rfl; rfl

theorem failKey_inj {a b : String} : failKey a = failKey b ↔ a = b := by
  constructor
  · intro h
    have := congrArg String.data h
    simp [failKey, String.data_append] at this
    exact String.ext this
  · rintro rfl; rfl

theorem sessionKey_inj {a b : String} : sessionKey a = sessionKey b ↔ a = b := by
  constructor
  · intro h
    have := congrArg String.data h
    simp [sessionKey, String.data_append] at this
    exact String.ext this
  · rintro rfl; rfl

theorem banned_ne_blocked (a b : String) : bannedKey a ≠ blockedKey b := by
  intro h; have := congrArg String.data h
  simp [bannedKey, blockedKey, String.data_append] at this

theorem banned_ne_rate (a b : String) : bannedKey a ≠ rateKey b := by
  intro h; have := congrArg String.data h
  simp [bannedKey, rateKey, String.data_append] at this

theorem banned_ne_fail (a b : String) : bannedKey a ≠ failKey b := by
  intro h; have := congrArg String.data h
  simp [bannedKey, failKey, String.data_append] at this

theorem banned_ne_session (a b : String) : bannedKey a ≠ sessionKey b := by
  intro h; have := congrArg String.data h
  simp [bannedKey, sessionKey, String.data_append] at this

theorem blocked_ne_rate (a b : String) : blockedKey a ≠ rateKey b := by
  intro h; have := congrArg String.data h
  simp [blockedKey, rateKey, String.data_append] at this

theorem blocked_ne_fail (a b : String) : blockedKey a ≠ failKey b := by
  intro h; have := congrArg String.data h
  simp [blockedKey, failKey, String.data_append] at this

theorem blocked_ne_session (a b : String) : blockedKey a ≠ sessionKey b := by
  intro h; have := congrArg String.data h
  simp [blockedKey, sessionKey, String.data_append] at this

theorem rate_ne_fail (a b : String) : rateKey a ≠ failKey b := by
  intro h; have := congrArg String.data h
  simp [rateKey, failKey, String.data_append] at this

theorem rate_ne_session (a b : String) : rateKey a ≠ sessionKey b := by
  intro h; have := congrArg String.data h
  simp [rateKey, sessionKey, String.data_append] at this

theorem fail_ne_session (a b : String) : failKey a ≠ sessionKey b := by
  intro h; have := congrArg String.data h
  simp [failKey, sessionKey, String.data_append] at this

/-! ### The ban gate -/

theorem checkBan_eq (st : State) (now : Nat) (req : Request) :
    checkBan st now req =
      if flagged st now req.ip then .respond st forbiddenResponse else .next st := by
  simp [checkBan, flagged, Store.truthy_get, forbiddenResponse]

theorem handle_flagged {st : State} {now : Nat} {req : Request}
    (hapi : mounted "/api" req.path = true) (hf : flagged st now req.ip = true) :
    handle st now req =
      (logged st now req forbiddenResponse, { stage := .checkBan, resp := some forbiddenResponse }) := by
  simp [handle, gates, hapi, checkBan_eq, hf]

theorem gates_of_not_flagged {st : State} {now : Nat} {req : Request}
    (hf : flagged st now req.ip = false) :
    gates st now req = (.rateLimiter, rateLimiter st now req) := by
  have h : (if mounted "/api" req.path then checkBan st now req else Step.next st)
      = Step.next st := by
    simp [checkBan_eq, hf]
  simp [gates, h]

theorem gates_of_not_mounted {st : State} {now : Nat} {req : Request}
    (hm : mounted "/api" req.path = false) :
    gates st now req = (.rateLimiter, rateLimiter st now req) := by
  unfold gates
  simp [hm]

theorem handle_stage_of_not_flagged {st : State} {now : Nat} {req : Request}
    (hf : flagged st now req.ip = false) : (handle st now req).2.stage ≠ .checkBan := by
  unfold handle
  rw [gates_of_not_flagged hf]
  cases hr : rateLimiter st now req <;> simp
  cases hroute : routeOf req <;> simp

/-- C10. For every store state and every request under `/api`: the request is answered by
`checkBan` with the 403 response exactly when the banned or the blocked key of `req.ip` is
live; in that case the rate limiter is not reached and the store (and the alert collection) is
what it was. -/
theorem checkBan_decision_and_frame (st : State) (now : Nat) (req : Request)
    (hapi : mounted "/api" req.path = true) :
    ((handle st now req).2 = { stage := .checkBan, resp := some forbiddenResponse } ↔
        ((st.redis.find now (bannedKey req.ip)).isSome ∨
          (st.redis.find now (blockedKey req.ip)).isSome)) ∧
    ((handle st now req).2.stage = .checkBan ↔
        ((st.redis.find now (bannedKey req.ip)).isSome ∨
          (st.redis.find now (blockedKey req.ip)).isSome)) ∧
    ((handle st now req).2.stage = .checkBan →
        (handle st now req).1.redis = st.redis ∧ (handle st now req).1.alerts = st.alerts) := by
  have hiff : ((st.redis.find now (bannedKey req.ip)).isSome ∨
      (st.redis.find now (blockedKey req.ip)).isSome) ↔ flagged st now req.ip = true := by
    simp [flagged]
  rw [hiff]
  cases hf : flagged st now req.ip with
  | true =>
    rw [handle_flagged hapi hf]
    simp [logged]
  | false =>
    have hs : (handle st now req).2.stage ≠ .checkBan := handle_stage_of_not_flagged hf
    refine ⟨?_, ?_, ?_⟩
    · constructor
      · intro h; rw [h] at hs; exact absurd rfl hs
      · intro h; cases h
    · constructor
      · intro h; exact absurd h hs
      · intro h; cases h
    · intro h; exact absurd h hs

/-- C10, witness: a banned address asking for `/api/balance`. -/
theorem checkBan_decision_and_frame_witness :
    mounted "/api" (mkReq "10.0.0.9" .GET "/api/balance").path = true ∧
    (handle (bannedState "10.0.0.9") 1000 (mkReq "10.0.0.9" .GET "/api/balance")).2.stage
      = .checkBan ∧
    (handle (bannedState "10.0.0.9") 1000 (mkReq "10.0.0.9" .GET "/api/balance")).1.redis
      = (bannedState "10.0.0.9").redis :=
  ⟨by decide,
   ((checkBan_decision_and_frame (bannedState "10.0.0.9") 1000
      (mkReq "10.0.0.9" .GET "/api/balance") (by decide)).2.1).2 (Or.inl (by decide)),
   ((checkBan_decision_and_frame (bannedState "10.0.0.9") 1000
      (mkReq "10.0.0.9" .GET "/api/balance") (by decide)).2.2
        (((checkBan_decision_and_frame (bannedState "10.0.0.9") 1000
          (mkReq "10.0.0.9" .GET "/api/balance") (by decide)).2.1).2 (Or.inl (by decide)))).1⟩

/-! ### The rate limiter -/

theorem Store.find_put (s : Store) (now : Nat) (k k' : String) (e : Entry) :
    (s.put k e).find now k' =
      if k = k' then (if e.live now then some e else none) else s.find now k' := by
  by_cases h : k = k' <;> simp [Store.find, Store.raw_put, h]

theorem Store.find_put_self (s : Store) (now : Nat) (k : String) (e : Entry) :
    (s.put k e).find now k = if e.live now then some e else none := by
  simp [Store.find_put]

theorem Store.find_put_of_ne (s : Store) (now : Nat) {k k' : String} (e : Entry) (h : k ≠ k') :
    (s.put k e).find now k' = s.find now k' := by
  simp [Store.find_put, h]

theorem Store.expire_put_live (s : Store) (now ttl : Nat) (k : String) (e : Entry)
    (h : e.live now = true) :
    (s.put k e).expire now k ttl =
      (s.put k e).put k { val := e.val, expiresAt := some (now + ttl * 1000) } := by
  simp [Store.expire, Store.find_put_self, h]

theorem Store.raw_put_put (s : Store) (k k' : String) (e e' : Entry) :
    ((s.put k e).put k e').raw k' = (s.put k e').raw k' := by
  by_cases h : k = k' <;> simp [Store.raw_put, h]

theorem rateLimiter_exempt {st : State} {now : Nat} {req : Request}
    (h : rateExempt req.path = true) : rateLimiter st now req = .next st := by
  simp [rateLimiter, h]

theorem rateLimiter_blocked {st : State} {now : Nat} {req : Request}
    (h : rateExempt req.path = false)
    (hb : (st.redis.find now (blockedKey req.ip)).isSome = true) :
    rateLimiter st now req = .respond st blockedByTrafficResponse := by
  simp [rateLimiter, h, Store.truthy_get, hb, blockedByTrafficResponse]

theorem rateLimiter_first {st : State} {now : Nat} {req : Request}
    (h : rateExempt req.path = false)
    (hb : st.redis.find now (blockedKey req.ip) = none)
    (hr : st.redis.find now (rateKey req.ip) = none) :
    rateLimiter st now req =
      .next { st with redis :=
        ((st.redis.put (rateKey req.ip) { val := .int 1, expiresAt := none }).put (rateKey req.ip)
          { val := .int 1, expiresAt := some (now + 60 * 1000) }) } := by
  simp [rateLimiter, h, Store.truthy_get, hb, Store.incr_absent hr, Store.expire_put_live,
    Entry.live]

theorem rateLimiter_count {st : State} {now : Nat} {req : Request} {n : Int} {exp : Option Nat}
    (h : rateExempt req.path = false)
    (hb : st.redis.find now (blockedKey req.ip) = none)
    (hr : st.redis.find now (rateKey req.ip) = some { val := .int n, expiresAt := exp })
    (h1 : 1 ≤ n) (h2 : n < 100) :
    rateLimiter st now req =
      .next { st with redis :=
        (st.redis.put (rateKey req.ip) { val := .int (n + 1), expiresAt := exp }) } := by
  have hn : n + 1 ≤ 9223372036854775807 := by omega
  have hne : ¬ (n + 1 = 1) := by omega
  have hle : ¬ (n + 1 > 100) := by omega
  have hle' : ¬ (100 < n + 1) := by omega
  have hne' : ¬ (n = 0) := by omega
  simp [rateLimiter, h, Store.truthy_get, hb, Store.incr_int hr hn, hne, hle, hle', hne']

theorem rateLimiter_overflow {st : State} {now : Nat} {req : Request} {exp : Option Nat}
    (h : rateExempt req.path = false)
    (hb : st.redis.find now (blockedKey req.ip) = none)
    (hr : st.redis.find now (rateKey req.ip) = some { val := .int 100, expiresAt := exp }) :
    rateLimiter st now req =
      .respond { st with
          redis := ((st.redis.put (rateKey req.ip) { val := .int 101, expiresAt := exp }).set now
            (blockedKey req.ip) .flag 60)
          alerts := st.alerts ++ [rateAlert req.ip now] }
        tooManyRequestsResponse := by
  have hn : (100 : Int) + 1 ≤ 9223372036854775807 := by omega
  simp [rateLimiter, h, Store.truthy_get, hb, Store.incr_int hr hn, rateAlert,
    tooManyRequestsResponse]

theorem handle_of_next {st st1 : State} {now : Nat} {req : Request} {stg : Stage}
    (h : gates st now req = (stg, .next st1)) :
    (handle st now req).2 =
        { stage := .handler (routeOf req), resp := some (dispatch st1 now req).2 } ∧
    (handle st now req).1.redis = (dispatch st1 now req).1.redis ∧
    (handle st now req).1.alerts = (dispatch st1 now req).1.alerts := by
  unfold handle
  rw [h]
  cases hroute : routeOf req <;> simp [logged]

/-! ### Scope of the ban gate and identity of a client -/

theorem gates_admin {st : State} {now : Nat} {req : Request} (h : req.path ∈ adminPaths) :
    gates st now req = (.rateLimiter, .next st) := by
  have hm : mounted "/api" req.path = false ∧ rateExempt req.path = true := by
    simp only [adminPaths, List.mem_cons, List.mem_singleton, List.not_mem_nil, or_false] at h
    rcases h with h | h | h | h <;> rw [h] <;> decide
  rw [gates_of_not_mounted hm.1, rateLimiter_exempt hm.2]

/-- C8, counterexample. The address `10.0.0.9` carries a live ban, yet its request to
`/dashboard/stats` is answered by the route handler with status 200, not by the ban gate. -/
theorem banGate_not_on_every_route :
    ((bannedState "10.0.0.9").redis.find 1000 (bannedKey "10.0.0.9")).isSome = true ∧
    (handle (bannedState "10.0.0.9") 1000 (mkReq "10.0.0.9" .GET "/dashboard/stats")).2 =
      { stage := .handler .stats, resp := some { status := 200, body := .stats [] [] } } := by
  decide

/-- C8, amended. For a request from an address whose banned or blocked key is live: on every
path under `/api` the ban gate answers 403 before the rate limiter and the handler run, leaving
the store and the alerts as they were; on the four administrative endpoints no gate answers
and the request is served by the route handler. -/
theorem banGate_scope (st : State) (now : Nat) (req : Request)
    (hf : flagged st now req.ip = true) :
    (mounted "/api" req.path = true →
      handle st now req =
        (logged st now req forbiddenResponse,
          { stage := .checkBan, resp := some forbiddenResponse })) ∧
    (req.path ∈ adminPaths →
      (handle st now req).2 =
        { stage := .handler (routeOf req), resp := some (dispatch st now req).2 }) := by
  refine ⟨fun hapi => handle_flagged hapi hf, fun hadm => ?_⟩
  exact (handle_of_next (gates_admin hadm)).1

/-- C8, witness: a banned address posting to `/api/login`. -/
theorem banGate_scope_witness :
    flagged (bannedState "10.0.0.9") 1000 (mkReq "10.0.0.9" .POST "/api/login").ip = true ∧
    handle (bannedState "10.0.0.9") 1000 (mkReq "10.0.0.9" .POST "/api/login") =
      (logged (bannedState "10.0.0.9") 1000 (mkReq "10.0.0.9" .POST "/api/login")
          forbiddenResponse,
        { stage := .checkBan, resp := some forbiddenResponse }) :=
  ⟨by decide,
   (banGate_scope (bannedState "10.0.0.9") 1000 (mkReq "10.0.0.9" .POST "/api/login")
      (by decide)).1 (by decide)⟩

/-- C9, counterexample. `::1` and `127.0.0.1` have the same normal form, but a ban recorded
for `::1` does not apply to a request arriving as `127.0.0.1`: the first is refused by the ban
gate, the second is served. -/
theorem gates_ignore_normal_form :
    normalizeIp "::1" = normalizeIp "127.0.0.1" ∧
    (handle (bannedState "::1") 1000 (mkReq "::1" .GET "/api/balance")).2 =
      { stage := .checkBan, resp := some forbiddenResponse } ∧
    ((handle (bannedState "::1") 1000 (mkReq "127.0.0.1" .GET "/api/balance")).2.stage =
      .handler .balance) ∧
    ((handle (bannedState "::1") 1000 (mkReq "127.0.0.1" .GET "/api/balance")).2.resp.map
      Response.status = some 200) := by
  decide

/-! ### Frame lemmas -/

theorem blocked_ne_banned (a b : String) : blockedKey a ≠ bannedKey b :=
  fun h => banned_ne_blocked b a h.symm

theorem rate_ne_banned (a b : String) : rateKey a ≠ bannedKey b :=
  fun h => banned_ne_rate b a h.symm

theorem rate_ne_blocked (a b : String) : rateKey a ≠ blockedKey b :=
  fun h => blocked_ne_rate b a h.symm

theorem fail_ne_banned (a b : String) : failKey a ≠ bannedKey b :=
  fun h => banned_ne_fail b a h.symm

theorem fail_ne_blocked (a b : String) : failKey a ≠ blockedKey b :=
  fun h => blocked_ne_fail b a h.symm

theorem fail_ne_rate (a b : String) : failKey a ≠ rateKey b :=
  fun h => rate_ne_fail b a h.symm

theorem session_ne_banned (a b : String) : sessionKey a ≠ bannedKey b :=
  fun h => banned_ne_session b a h.symm

theorem session_ne_blocked (a b : String) : sessionKey a ≠ blockedKey b :=
  fun h => blocked_ne_session b a h.symm

theorem session_ne_rate (a b : String) : sessionKey a ≠ rateKey b :=
  fun h => rate_ne_session b a h.symm

theorem session_ne_fail (a b : String) : sessionKey a ≠ failKey b :=
  fun h => fail_ne_session b a h.symm


theorem mem_keysOf {k ip : String} :
    k ∈ keysOf ip ↔ k = bannedKey ip ∨ k = blockedKey ip ∨ k = rateKey ip ∨ k = failKey ip ∨
      k = sessionKey ip := by
  simp [keysOf]

theorem Store.raw_incr_of_ne {s s' : Store} {now : Nat} {k k' : String} {c : Int}
    (h : s.incr now k = some (s', c)) (hne : k ≠ k') : s'.raw k' = s.raw k' := by
  unfold Store.incr at h
  split at h
  · simp only [Option.some.injEq, Prod.mk.injEq] at h
    rw [← h.1, Store.raw_put]; simp [hne]
  · split at h
    · cases h
    · split at h
      · cases h
      · simp only [Option.some.injEq, Prod.mk.injEq] at h
        rw [← h.1, Store.raw_put]; simp [hne]

theorem Store.raw_expire_of_ne (s : Store) (now ttl : Nat) {k k' : String} (hne : k ≠ k') :
    (s.expire now k ttl).raw k' = s.raw k' := by
  unfold Store.expire
  split
  · rfl
  · rw [Store.raw_put]; simp [hne]

theorem rateLimiter_frame (st : State) (now : Nat) (req : Request) {k : String}
    (h1 : rateKey req.ip ≠ k) (h2 : blockedKey req.ip ≠ k) :
    (rateLimiter st now req).state.redis.raw k = st.redis.raw k := by
  unfold rateLimiter
  split
  · rfl
  · simp only
    split
    · rfl
    · cases hincr : st.redis.incr now (rateKey req.ip) with
      | none => rfl
      | some p =>
        obtain ⟨r1, c⟩ := p
        have hr1 := Store.raw_incr_of_ne hincr h1
        simp only
        split <;> split <;> (try split) <;>
          simp [Step.state, Store.raw_set, Store.raw_expire_of_ne, h1, h2, hr1]

theorem rateLimiter_logs (st : State) (now : Nat) (req : Request) :
    (rateLimiter st now req).state.logs = st.logs := by
  unfold rateLimiter
  split
  · rfl
  · simp only
    split
    · rfl
    · cases hincr : st.redis.incr now (rateKey req.ip) with
      | none => rfl
      | some p =>
        obtain ⟨r1, c⟩ := p
        simp only
        split <;> split <;> (try split) <;> simp [Step.state]

theorem unbanCore_raw (st : State) (ip : String) (filter : Except String (String → Bool))
    (k : String) :
    (unbanCore st ip filter).1.redis.raw k = if k ∈ keysOf ip then none else st.redis.raw k := by
  have hr : (unbanCore st ip filter).1.redis
      = ((((st.redis.del (bannedKey ip)).del (blockedKey ip)).del (rateKey ip)).del
          (failKey ip)).del (sessionKey ip) := by
    unfold unbanCore
    cases filter <;> rfl
  rw [hr]
  simp only [Store.raw_del, mem_keysOf]
  by_cases h1 : sessionKey ip = k
  · simp [h1.symm]
  by_cases h2 : failKey ip = k
  · simp [h2.symm]
  by_cases h3 : rateKey ip = k
  · simp [h3.symm]
  by_cases h4 : blockedKey ip = k
  · simp [h4.symm]
  by_cases h5 : bannedKey ip = k
  · simp [h5.symm]
  simp [h1, h2, h3, h4, h5, Ne.symm h1, Ne.symm h2, Ne.symm h3, Ne.symm h4, Ne.symm h5]

/-- An unban request that names no address changes nothing. -/
theorem unbanIpHandler_no_target {st : State} {req : Request} (h : req.unbanTarget = none) :
    (unbanIpHandler st req).1 = st := by
  unfold Request.unbanTarget at h
  unfold unbanIpHandler
  cases hb : req.body with
  | none => rfl
  | some b =>
    rw [hb] at h
    simp only at h ⊢
    cases hv : b.ip with
    | undefined => rfl
    | str ip =>
      rw [hv] at h
      simp only at h ⊢
      by_cases hne : ip = ""
      · simp [hne]
      · simp [hne] at h
    | other v =>
      rw [hv] at h
      simp only at h ⊢
      by_cases ht : v.truthy = true
      · simp only [ht, Bool.not_true, Bool.false_eq_true, if_false] at h ⊢
        cases hx : v.text with
        | error msg => rfl
        | ok ip => rw [hx] at h; cases h
      · simp [ht]

/-- An unban request that names an address runs the deletions for it. -/
theorem unbanIpHandler_target {st : State} {req : Request} {ip : String}
    (h : req.unbanTarget = some ip) :
    ∃ filter, unbanIpHandler st req = unbanCore st ip filter := by
  unfold Request.unbanTarget at h
  unfold unbanIpHandler
  cases hb : req.body with
  | none => rw [hb] at h; cases h
  | some b =>
    rw [hb] at h
    simp only at h ⊢
    cases hv : b.ip with
    | undefined => rw [hv] at h; cases h
    | str ip' =>
      rw [hv] at h
      simp only at h ⊢
      by_cases hne : ip' = ""
      · simp [hne] at h
      · simp only [hne, if_false, Option.some.injEq] at h ⊢
        subst h
        exact ⟨_, rfl⟩
    | other v =>
      rw [hv] at h
      simp only at h ⊢
      by_cases ht : v.truthy = true
      · simp only [ht, Bool.not_true, Bool.false_eq_true, if_false] at h ⊢
        cases hx : v.text with
        | error msg => rw [hx] at h; cases h
        | ok ip' =>
          rw [hx] at h
          simp only [Option.some.injEq] at h
          subst h
          exact ⟨_, rfl⟩
      · simp [ht] at h

/-- The address named by a non-empty string. -/
theorem unbanTarget_str {req : Request} {b : ReqBody} {ip : String} (hb : req.body = some b)
    (hip : b.ip = .str ip) (hne : ip ≠ "") : req.unbanTarget = some ip := by
  simp [Request.unbanTarget, hb, hip, hne]

theorem unbanIpHandler_str {st : State} {req : Request} {b : ReqBody} {ip : String}
    (hb : req.body = some b) (hip : b.ip = .str ip) (hne : ip ≠ "") :
    unbanIpHandler st req = unbanCore st ip (.ok (fun a => a == ip)) := by
  simp [unbanIpHandler, hb, hip, hne]

theorem unbanIpHandler_raw (st : State) (req : Request) (ip : String)
    (hip : req.unbanTarget = some ip) (k : String) :
    (unbanIpHandler st req).1.redis.raw k = if k ∈ keysOf ip then none else st.redis.raw k := by
  obtain ⟨filter, h⟩ := @unbanIpHandler_target st req ip hip
  rw [h, unbanCore_raw]

theorem loginHandler_frame (st : State) (now : Nat) (req : Request) {k : String}
    (h1 : failKey req.ip ≠ k) (h2 : blockedKey req.ip ≠ k) :
    (loginHandler st now req).1.redis.raw k = st.redis.raw k := by
  unfold loginHandler
  simp only
  split
  · simp [Store.raw_set, h2]
  · cases req.body with
    | none => rfl
    | some b =>
      simp only
      split
      · simp [Store.raw_del, h1, h2]
      · cases hincr : st.redis.incr now (failKey req.ip) with
        | none => rfl
        | some p =>
          obtain ⟨r1, c⟩ := p
          have hr1 := Store.raw_incr_of_ne hincr h1
          simp only
          split <;> simp [Store.raw_expire_of_ne, h1, hr1]

theorem dispatch_frame (st : State) (now : Nat) (req : Request) {k : String}
    (hk : k ∉ keysOf req.ip) (hreset : routeOf req ≠ .resetRedis)
    (hunban : routeOf req = .unbanIp → ∀ ip, req.unbanTarget = some ip → k ∉ keysOf ip) :
    (dispatch st now req).1.redis.raw k = st.redis.raw k := by
  simp only [mem_keysOf, not_or] at hk
  obtain ⟨hk1, hk2, hk3, hk4, hk5⟩ := hk
  unfold dispatch
  cases hroute : routeOf req with
  | resetRedis => exact absurd hroute hreset
  | stats => rfl
  | bannedIps => rfl
  | unbanIp =>
    simp only
    cases hb : req.unbanTarget with
    | none => rw [unbanIpHandler_no_target hb]
    | some ip =>
      rw [unbanIpHandler_raw st req ip hb]
      simp [hunban hroute ip hb]
  | login => exact loginHandler_frame st now req (Ne.symm hk4) (Ne.symm hk2)
  | balance => simp [balanceHandler, Store.raw_set, Ne.symm hk5]
  | transaction =>
    simp only [transactionHandler]
    split <;> simp [Store.raw_set, Ne.symm hk1]
  | unrouted => rfl

theorem gates_state (st : State) (now : Nat) (req : Request) :
    (gates st now req).2.state = (rateLimiter st now req).state ∨
      (gates st now req).2.state = st := by
  unfold gates
  split
  · rename_i st1 r h
    right
    split at h
    · rw [checkBan_eq] at h
      split at h <;> simp at h
      simp [Step.state, h.1]
    · cases h
  · rename_i st1 h
    split at h
    · rw [checkBan_eq] at h
      split at h <;> cases h
    · cases h
  · rename_i st1 h
    left
    split at h
    · rw [checkBan_eq] at h
      split at h <;> simp at h
      rw [h]
    · simp at h; rw [h]

theorem gates_frame (st : State) (now : Nat) (req : Request) {k : String}
    (h1 : rateKey req.ip ≠ k) (h2 : blockedKey req.ip ≠ k) :
    (gates st now req).2.state.redis.raw k = st.redis.raw k := by
  rcases gates_state st now req with h | h
  · rw [h]; exact rateLimiter_frame st now req h1 h2
  · rw [h]

theorem handle_redis (st : State) (now : Nat) (req : Request) :
    (handle st now req).1.redis =
      match (gates st now req).2 with
      | .next st1 => (dispatch st1 now req).1.redis
      | .respond st1 _ => st1.redis
      | .rejected st1 => st1.redis := by
  unfold handle
  cases hg : gates st now req with
  | mk stg step =>
    cases step with
    | next st1 => simp only; cases hroute : routeOf req <;> simp [logged]
    | respond st1 r => simp [logged]
    | rejected st1 => simp

/-- A request changes no key other than those of its own address (and, for an unban, of the
address named in its body), unless it flushes the store. -/
theorem handle_frame (st : State) (now : Nat) (req : Request) {k : String}
    (hk : k ∉ keysOf req.ip) (hreset : routeOf req ≠ .resetRedis)
    (hunban : routeOf req = .unbanIp → ∀ ip, req.unbanTarget = some ip → k ∉ keysOf ip) :
    (handle st now req).1.redis.raw k = st.redis.raw k := by
  have hk' := hk
  simp only [mem_keysOf, not_or] at hk'
  have hg : (gates st now req).2.state.redis.raw k = st.redis.raw k :=
    gates_frame st now req (Ne.symm hk'.2.2.1) (Ne.symm hk'.2.1)
  rw [handle_redis]
  cases hstep : (gates st now req).2 with
  | next st1 =>
    rw [hstep] at hg
    simp only [Step.state] at hg ⊢
    rw [dispatch_frame st1 now req hk hreset hunban, hg]
  | respond st1 r => rw [hstep] at hg; exact hg
  | rejected st1 => rw [hstep] at hg; exact hg

/-! ### Replies depend on the keys of the requesting address -/

theorem Store.incr_count_congr {s s' : Store} {now : Nat} {k k' : String}
    (h : s.find now k = s'.find now k') :
    (s.incr now k).map Prod.snd = (s'.incr now k').map Prod.snd := by
  unfold Store.incr
  rw [← h]
  cases s.find now k with
  | none => rfl
  | some e =>
    obtain ⟨v, exp⟩ := e
    cases v with
    | flag => rfl
    | int n => simp only; split <;> rfl

theorem rateLimiter_reply_congr {st st' : State} {now : Nat} {req req' : Request}
    (hpath : req'.path = req.path)
    (hb : st.redis.find now (blockedKey req.ip) = st'.redis.find now (blockedKey req'.ip))
    (hr : st.redis.find now (rateKey req.ip) = st'.redis.find now (rateKey req'.ip)) :
    (rateLimiter st now req).reply = (rateLimiter st' now req').reply := by
  have hc := Store.incr_count_congr hr
  unfold rateLimiter
  rw [hpath]
  split
  · rfl
  · simp only [Store.truthy_get, hb]
    split
    · rfl
    · cases h1 : st.redis.incr now (rateKey req.ip) with
      | none =>
        cases h2 : st'.redis.incr now (rateKey req'.ip) with
        | none => rfl
        | some p => rw [h1, h2] at hc; cases hc
      | some p =>
        cases h2 : st'.redis.incr now (rateKey req'.ip) with
        | none => rw [h1, h2] at hc; cases hc
        | some p' =>
          obtain ⟨r1, c⟩ := p
          obtain ⟨r1', c'⟩ := p'
          rw [h1, h2] at hc
          simp only [Option.map_some', Option.some.injEq] at hc
          subst hc
          simp only
          split
          · split <;> rfl
          · rfl

theorem loginHandler_resp_congr {st st' : State} {now : Nat} {req req' : Request}
    (hbody : req'.body = req.body)
    (hf : st.redis.find now (failKey req.ip) = st'.redis.find now (failKey req'.ip)) :
    (loginHandler st now req).2 = (loginHandler st' now req').2 := by
  have hc := Store.incr_count_congr hf
  unfold loginHandler
  simp only [Store.get, hf, hbody]
  split
  · rfl
  · cases req.body with
    | none => rfl
    | some b =>
      simp only
      split
      · rfl
      · cases h1 : st.redis.incr now (failKey req.ip) with
        | none =>
          cases h2 : st'.redis.incr now (failKey req'.ip) with
          | none => rfl
          | some p => rw [h1, h2] at hc; cases hc
        | some p =>
          cases h2 : st'.redis.incr now (failKey req'.ip) with
          | none => rw [h1, h2] at hc; cases hc
          | some p' =>
            obtain ⟨r1, c⟩ := p
            obtain ⟨r1', c'⟩ := p'
            rw [h1, h2] at hc
            simp only [Option.map_some', Option.some.injEq] at hc
            subst hc
            rfl

theorem unbanCore_resp (st st' : State) (ip : String)
    (filter : Except String (String → Bool)) :
    (unbanCore st ip filter).2 = (unbanCore st' ip filter).2 := by
  unfold unbanCore
  cases filter <;> rfl

theorem unbanIpHandler_resp_congr {st st' : State} {req req' : Request}
    (hbody : req'.body = req.body) :
    (unbanIpHandler st req).2 = (unbanIpHandler st' req').2 := by
  unfold unbanIpHandler
  rw [hbody]
  cases req.body with
  | none => rfl
  | some b =>
    simp only
    cases b.ip with
    | undefined => rfl
    | str ip => simp only; split; rfl; exact unbanCore_resp _ _ _ _
    | other v =>
      simp only
      split
      · rfl
      · cases v.text with
        | error msg => rfl
        | ok ip => exact unbanCore_resp _ _ _ _

theorem transactionHandler_resp_congr {st st' : State} {now : Nat} {req req' : Request}
    (hs : st.redis.find now (sessionKey req.ip) = st'.redis.find now (sessionKey req'.ip)) :
    (transactionHandler st now req).2 = (transactionHandler st' now req').2 := by
  unfold transactionHandler
  simp only [Store.get, hs]
  split <;> rfl

theorem filter_erase_keys (s : Store) (k : String) (P P' : String → Bool)
    (hk : P k = false) (hP : ∀ x, x ≠ k → P' x = P x) :
    ((s.erase k).map Prod.fst).filter P' = (s.map Prod.fst).filter P := by
  induction s with
  | nil => rfl
  | cons p rest ih =>
    obtain ⟨a, e⟩ := p
    simp only [Store.erase] at ih
    by_cases ha : a = k
    · subst ha
      simp [Store.erase, List.filter_cons, hk, ih]
    · simp [Store.erase, List.filter_cons, ha, hP a ha, ih]

theorem Store.keys_put_of_not_prefix (s : Store) (now : Nat) (k : String) (e : Entry)
    (pfx : String) (h : pfx.data.isPrefixOf k.data = false) :
    (s.put k e).keys now pfx = s.keys now pfx := by
  unfold Store.keys
  congr 1
  have := filter_erase_keys s k
    (fun x => pfx.data.isPrefixOf x.data && (s.find now x).isSome)
    (fun x => pfx.data.isPrefixOf x.data && ((s.put k e).find now x).isSome)
    (by simp [h]) (by intro x hx; simp [Store.find_put_of_ne s now e (Ne.symm hx)])
  simp only [Store.put, List.map_cons, List.filter_cons, h, Bool.false_and]
  simpa [Store.put] using this

theorem Store.keys_incr {s s' : Store} {now : Nat} {k : String} {c : Int} (pfx : String)
    (h : s.incr now k = some (s', c)) (hp : pfx.data.isPrefixOf k.data = false) :
    s'.keys now pfx = s.keys now pfx := by
  unfold Store.incr at h
  split at h
  · simp only [Option.some.injEq, Prod.mk.injEq] at h
    rw [← h.1, Store.keys_put_of_not_prefix _ _ _ _ _ hp]
  · split at h
    · cases h
    · split at h
      · cases h
      · simp only [Option.some.injEq, Prod.mk.injEq] at h
        rw [← h.1, Store.keys_put_of_not_prefix _ _ _ _ _ hp]

theorem Store.keys_expire (s : Store) (now ttl : Nat) (k : String) (pfx : String)
    (hp : pfx.data.isPrefixOf k.data = false) :
    (s.expire now k ttl).keys now pfx = s.keys now pfx := by
  unfold Store.expire
  split
  · rfl
  · rw [Store.keys_put_of_not_prefix _ _ _ _ _ hp]

theorem banned_not_prefix_rate (ip : String) :
    "banned:".data.isPrefixOf (rateKey ip).data = false := by
  simp [rateKey, String.data_append, List.isPrefixOf]

theorem blocked_not_prefix_rate (ip : String) :
    "blocked:".data.isPrefixOf (rateKey ip).data = false := by
  simp [rateKey, String.data_append, List.isPrefixOf]

theorem rateLimiter_next {st st1 : State} {now : Nat} {req : Request}
    (h : rateLimiter st now req = .next st1) :
    st1.alerts = st.alerts ∧ st1.logs = st.logs ∧
    st1.redis.keys now "banned:" = st.redis.keys now "banned:" ∧
    st1.redis.keys now "blocked:" = st.redis.keys now "blocked:" := by
  unfold rateLimiter at h
  split at h
  · cases h; exact ⟨rfl, rfl, rfl, rfl⟩
  · simp only at h
    split at h
    · cases h
    · cases hincr : st.redis.incr now (rateKey req.ip) with
      | none => rw [hincr] at h; cases h
      | some p =>
        obtain ⟨r1, c⟩ := p
        rw [hincr] at h
        simp only at h
        have k1 := Store.keys_incr "banned:" hincr (banned_not_prefix_rate req.ip)
        have k2 := Store.keys_incr "blocked:" hincr (blocked_not_prefix_rate req.ip)
        split at h
        · split at h <;> cases h
        · cases h
          refine ⟨rfl, rfl, ?_, ?_⟩
          · simp only
            split
            · rw [Store.keys_expire _ _ _ _ _ (banned_not_prefix_rate req.ip), k1]
            · exact k1
          · simp only
            split
            · rw [Store.keys_expire _ _ _ _ _ (blocked_not_prefix_rate req.ip), k2]
            · exact k2

theorem routeOf_congr {req req' : Request} (hm : req'.method = req.method)
    (hp : req'.path = req.path) : routeOf req' = routeOf req := by
  simp [routeOf, hm, hp]

theorem handle_reply (st : State) (now : Nat) (req : Request) :
    (handle st now req).2 =
      match gates st now req with
      | (stg, .respond _ r) => { stage := stg, resp := some r }
      | (stg, .rejected _) => { stage := stg, resp := some rejectedResponse }
      | (_, .next st1) =>
        { stage := .handler (routeOf req), resp := some (dispatch st1 now req).2 } := by
  unfold handle
  cases hg : gates st now req with
  | mk stg step =>
    cases step with
    | next st1 => simp only; cases hroute : routeOf req <;> simp
    | respond st1 r => simp
    | rejected st1 => simp

theorem dispatch_resp_congr {st st' : State} {now : Nat} {req req' : Request}
    (hm : req'.method = req.method) (hpath : req'.path = req.path)
    (hbody : req'.body = req.body)
    (h4 : st.redis.find now (failKey req.ip) = st'.redis.find now (failKey req'.ip))
    (h5 : st.redis.find now (sessionKey req.ip) = st'.redis.find now (sessionKey req'.ip))
    (hglob : routeOf req = .stats ∨ routeOf req = .bannedIps →
      st'.logs = st.logs ∧ st'.alerts = st.alerts ∧
      st'.redis.keys now "banned:" = st.redis.keys now "banned:" ∧
      st'.redis.keys now "blocked:" = st.redis.keys now "blocked:") :
    (dispatch st now req).2 = (dispatch st' now req').2 := by
  unfold dispatch
  rw [routeOf_congr hm hpath]
  cases hroute : routeOf req with
  | resetRedis => rfl
  | stats =>
    obtain ⟨hl, ha, -, -⟩ := hglob (Or.inl hroute)
    simp [statsHandler, hl, ha]
  | bannedIps =>
    obtain ⟨-, -, hk1, hk2⟩ := hglob (Or.inr hroute)
    simp [bannedIpsHandler, hk1, hk2]
  | unbanIp => exact unbanIpHandler_resp_congr hbody
  | login => exact loginHandler_resp_congr hbody h4
  | balance => rfl
  | transaction => exact transactionHandler_resp_congr h5
  | unrouted => rfl

theorem flagged_congr {st st' : State} {now : Nat} {ip ip' : String}
    (h1 : st.redis.find now (bannedKey ip) = st'.redis.find now (bannedKey ip'))
    (h2 : st.redis.find now (blockedKey ip) = st'.redis.find now (blockedKey ip')) :
    flagged st now ip = flagged st' now ip' := by
  simp [flagged, h1, h2]

/-- The reply to a request is determined by the request's method, path and body and by the
live entries of the five keys of its address (for the two listing endpoints also by the
collections and the listed keys). -/
theorem handle_reply_congr {st st' : State} {now : Nat} {req req' : Request}
    (hm : req'.method = req.method) (hpath : req'.path = req.path)
    (hbody : req'.body = req.body)
    (h1 : st.redis.find now (bannedKey req.ip) = st'.redis.find now (bannedKey req'.ip))
    (h2 : st.redis.find now (blockedKey req.ip) = st'.redis.find now (blockedKey req'.ip))
    (h3 : st.redis.find now (rateKey req.ip) = st'.redis.find now (rateKey req'.ip))
    (h4 : st.redis.find now (failKey req.ip) = st'.redis.find now (failKey req'.ip))
    (h5 : st.redis.find now (sessionKey req.ip) = st'.redis.find now (sessionKey req'.ip))
    (hglob : routeOf req = .stats ∨ routeOf req = .bannedIps →
      st'.logs = st.logs ∧ st'.alerts = st.alerts ∧
      st'.redis.keys now "banned:" = st.redis.keys now "banned:" ∧
      st'.redis.keys now "blocked:" = st.redis.keys now "blocked:") :
    (handle st now req).2 = (handle st' now req').2 := by
  have hfl := flagged_congr h1 h2
  by_cases hgate : mounted "/api" req.path = true ∧ flagged st now req.ip = true
  · have hgate' : mounted "/api" req'.path = true ∧ flagged st' now req'.ip = true := by
      rw [hpath, ← hfl]; exact hgate
    rw [handle_flagged hgate.1 hgate.2, handle_flagged hgate'.1 hgate'.2]
  · have hg : gates st now req = (.rateLimiter, rateLimiter st now req) := by
      by_cases hmnt : mounted "/api" req.path = true
      · exact gates_of_not_flagged (by simpa [hmnt] using hgate)
      · exact gates_of_not_mounted (by simpa using hmnt)
    have hg' : gates st' now req' = (.rateLimiter, rateLimiter st' now req') := by
      by_cases hmnt : mounted "/api" req.path = true
      · exact gates_of_not_flagged (by rw [← hfl]; simpa [hmnt] using hgate)
      · exact gates_of_not_mounted (by rw [hpath]; simpa using hmnt)
    have hrep := rateLimiter_reply_congr hpath h2 h3
    rw [handle_reply, handle_reply, hg, hg', routeOf_congr hm hpath]
    cases hs : rateLimiter st now req with
    | respond s1 r =>
      cases hs' : rateLimiter st' now req' with
      | respond s1' r' =>
        rw [hs, hs'] at hrep
        simp only [Step.reply, Option.some.injEq] at hrep
        simp [hrep]
      | rejected s1' => rw [hs, hs'] at hrep; simp [Step.reply] at hrep
      | next s1' => rw [hs, hs'] at hrep; simp [Step.reply] at hrep
    | rejected s1 =>
      cases hs' : rateLimiter st' now req' with
      | respond s1' r' => rw [hs, hs'] at hrep; simp [Step.reply] at hrep
      | rejected s1' => rfl
      | next s1' => rw [hs, hs'] at hrep; simp [Step.reply] at hrep
    | next s1 =>
      cases hs' : rateLimiter st' now req' with
      | respond s1' r' => rw [hs, hs'] at hrep; simp [Step.reply] at hrep
      | rejected s1' => rw [hs, hs'] at hrep; simp [Step.reply] at hrep
      | next s1' =>
        simp only
        have f4 := rateLimiter_frame st now req (rate_ne_fail req.ip req.ip)
          (blocked_ne_fail req.ip req.ip)
        have f5 := rateLimiter_frame st now req (rate_ne_session req.ip req.ip)
          (blocked_ne_session req.ip req.ip)
        have f4' := rateLimiter_frame st' now req' (rate_ne_fail req'.ip req'.ip)
          (blocked_ne_fail req'.ip req'.ip)
        have f5' := rateLimiter_frame st' now req' (rate_ne_session req'.ip req'.ip)
          (blocked_ne_session req'.ip req'.ip)
        rw [hs] at f4 f5
        rw [hs'] at f4' f5'
        simp only [Step.state] at f4 f5 f4' f5'
        have n := rateLimiter_next hs
        have n' := rateLimiter_next hs'
        have e : (dispatch s1 now req).2 = (dispatch s1' now req').2 := by
          apply dispatch_resp_congr hm hpath hbody
          · rw [Store.find_congr now f4, Store.find_congr now f4', h4]
          · rw [Store.find_congr now f5, Store.find_congr now f5', h5]
          · intro hr
            obtain ⟨g1, g2, g3, g4⟩ := hglob hr
            rw [n.1, n.2.1, n.2.2.1, n.2.2.2, n'.1, n'.2.1, n'.2.2.1, n'.2.2.2]
            exact ⟨g1, g2, g3, g4⟩
        rw [e]

theorem keysOf_disjoint {a b k : String} (hab : a ≠ b) (hk : k ∈ keysOf a) : k ∉ keysOf b := by
  simp only [mem_keysOf] at hk ⊢
  rcases hk with h | h | h | h | h <;> subst h <;>
    simp [bannedKey_inj, blockedKey_inj, rateKey_inj, failKey_inj, sessionKey_inj, hab,
      banned_ne_blocked, banned_ne_rate, banned_ne_fail, banned_ne_session,
      blocked_ne_banned, blocked_ne_rate, blocked_ne_fail, blocked_ne_session,
      rate_ne_banned, rate_ne_blocked, rate_ne_fail, rate_ne_session,
      fail_ne_banned, fail_ne_blocked, fail_ne_rate, fail_ne_session,
      session_ne_banned, session_ne_blocked, session_ne_rate, session_ne_fail]

theorem dispatch_logs (st : State) (now : Nat) (req : Request) :
    (dispatch st now req).1.logs = st.logs := by
  unfold dispatch
  cases hroute : routeOf req with
  | resetRedis => rfl
  | stats => rfl
  | bannedIps => rfl
  | unbanIp =>
    simp only
    cases hb : req.unbanTarget with
    | none => rw [unbanIpHandler_no_target hb]
    | some ip =>
      obtain ⟨filter, h⟩ := @unbanIpHandler_target st req ip hb
      rw [h]
      unfold unbanCore
      cases filter <;> rfl
  | login =>
    simp only [loginHandler]
    split
    · rfl
    · cases req.body with
      | none => rfl
      | some b =>
        simp only
        split
        · rfl
        · cases st.redis.incr now (failKey req.ip) <;> rfl
  | balance => rfl
  | transaction => simp only [transactionHandler]; split <;> rfl
  | unrouted => rfl

theorem gates_logs (st : State) (now : Nat) (req : Request) :
    (gates st now req).2.state.logs = st.logs := by
  rcases gates_state st now req with h | h
  · rw [h]; exact rateLimiter_logs st now req
  · rw [h]

/-- The access log grows by at most the entry of the request, which carries the normal form
of the address. -/
theorem handle_logs (st : State) (now : Nat) (req : Request) :
    (handle st now req).1.logs = st.logs ∨
      ∃ r, (handle st now req).1.logs = st.logs ++ [logEntry now req r] := by
  have hg := gates_logs st now req
  unfold handle
  cases hgt : gates st now req with
  | mk stg step =>
    rw [hgt] at hg
    cases step with
    | next st1 =>
      simp only [Step.state] at hg
      simp only
      cases hroute : routeOf req <;>
        simp [logged, dispatch_logs, hg]
    | respond st1 r =>
      simp only [Step.state] at hg
      right; exact ⟨r, by simp [logged, hg]⟩
    | rejected st1 =>
      simp only [Step.state] at hg
      left; simpa using hg

/-! ### Unban -/

theorem handle_unban {st : State} {now : Nat} {req : Request} {b : ReqBody} {ip : String}
    (hmeth : req.method = .POST) (hpath : req.path = "/dashboard/unban-ip")
    (hb : req.body = some b) (hip : b.ip = .str ip) (hne : ip ≠ "") :
    (handle st now req).1.redis = (unbanIpHandler st req).1.redis ∧
    (handle st now req).1.alerts = st.alerts.filter (fun a => !(a.ip == ip)) := by
  have hadm : req.path ∈ adminPaths := by rw [hpath]; decide
  have hroute : routeOf req = .unbanIp := by
    simp only [routeOf, hmeth, hpath]; decide
  have hga : gates st now req = (.rateLimiter, .next st) := gates_admin hadm
  have h := handle_of_next hga
  rw [h.2.1, h.2.2]
  simp [dispatch, hroute, unbanIpHandler_str hb hip hne, unbanCore]

/-- C7. After `POST /dashboard/unban-ip` naming a non-empty string `ip`, in every store state: the
five keys of `ip` are absent and no alert of `ip` remains; every other key and the alerts of
every other address are unchanged; and the reply to the next request of `ip` is the reply
that the same request would get from an address none of whose keys is live. -/
theorem unban_resets_identity (st : State) (now : Nat) (req : Request) (b : ReqBody)
    (ip : String) (hmeth : req.method = .POST) (hpath : req.path = "/dashboard/unban-ip")
    (hb : req.body = some b) (hip : b.ip = .str ip) (hne : ip ≠ "") :
    (∀ k ∈ keysOf ip, ∀ t, (handle st now req).1.redis.raw k = none ∧
        (handle st now req).1.redis.get t k = none) ∧
    (∀ a ∈ (handle st now req).1.alerts, a.ip ≠ ip) ∧
    (∀ k, k ∉ keysOf ip → (handle st now req).1.redis.raw k = st.redis.raw k) ∧
    (∀ ip', ip' ≠ ip → ∀ k ∈ keysOf ip', (handle st now req).1.redis.raw k = st.redis.raw k) ∧
    ((handle st now req).1.alerts = st.alerts.filter (fun a => decide (a.ip ≠ ip))) ∧
    (∀ (t : Nat) (nxt fresh : Request), nxt.ip = ip →
        fresh.method = nxt.method → fresh.path = nxt.path → fresh.body = nxt.body →
        (∀ k ∈ keysOf fresh.ip, (handle st now req).1.redis.find t k = none) →
        (handle (handle st now req).1 t nxt).2 = (handle (handle st now req).1 t fresh).2) := by
  obtain ⟨hr, ha⟩ := @handle_unban st now req b ip hmeth hpath hb hip hne
  have hraw : ∀ k, (handle st now req).1.redis.raw k =
      if k ∈ keysOf ip then none else st.redis.raw k := by
    intro k; rw [hr]; exact unbanIpHandler_raw st req ip (unbanTarget_str hb hip hne) k
  have habsent : ∀ k ∈ keysOf ip, ∀ t, (handle st now req).1.redis.find t k = none := by
    intro k hk t
    exact Store.find_of_raw_none t (by rw [hraw k]; simp [hk])
  refine ⟨?_, ?_, ?_, ?_, ?_, ?_⟩
  · intro k hk t
    exact ⟨by rw [hraw k]; simp [hk], Store.get_of_find_none (habsent k hk t)⟩
  · intro a hmem
    rw [ha] at hmem
    simpa using (List.mem_filter.mp hmem).2
  · intro k hk
    rw [hraw k]; simp [hk]
  · intro ip' hne' k hk
    rw [hraw k]; simp [keysOf_disjoint hne' hk]
  · rw [ha]
    congr 1
    funext a
    by_cases h : a.ip = ip <;> simp [h]
  · intro t nxt fresh hnxt hm hp hbody hfresh
    have hk : ∀ k ∈ keysOf nxt.ip, (handle st now req).1.redis.find t k = none := by
      rw [hnxt]; exact fun k hk => habsent k hk t
    apply handle_reply_congr hm hp hbody
    · rw [hk _ (by simp [keysOf]), hfresh _ (by simp [keysOf])]
    · rw [hk _ (by simp [keysOf]), hfresh _ (by simp [keysOf])]
    · rw [hk _ (by simp [keysOf]), hfresh _ (by simp [keysOf])]
    · rw [hk _ (by simp [keysOf]), hfresh _ (by simp [keysOf])]
    · rw [hk _ (by simp [keysOf]), hfresh _ (by simp [keysOf])]
    · intro _; exact ⟨rfl, rfl, rfl, rfl⟩

/-- C7, witness: unbanning `10.0.0.9` in a state that also holds keys of `10.0.0.7`. -/
theorem unban_resets_identity_witness :
    (unbanReq "10.0.0.1" "10.0.0.9").method = .POST ∧
    (unbanReq "10.0.0.1" "10.0.0.9").path = "/dashboard/unban-ip" ∧
    (∀ k ∈ keysOf "10.0.0.9", ∀ t,
      (handle busyState 1000 (unbanReq "10.0.0.1" "10.0.0.9")).1.redis.raw k = none ∧
      (handle busyState 1000 (unbanReq "10.0.0.1" "10.0.0.9")).1.redis.get t k = none) ∧
    (handle busyState 1000 (unbanReq "10.0.0.1" "10.0.0.9")).1.redis.raw (bannedKey "10.0.0.7")
      = some { val := .flag, expiresAt := some 3600000 } :=
  ⟨rfl, rfl,
   (unban_resets_identity busyState 1000 (unbanReq "10.0.0.1" "10.0.0.9")
      { username := .undefined, password := .undefined, ip := .str "10.0.0.9" } "10.0.0.9"
      rfl rfl rfl rfl (by decide)).1,
   by decide⟩

/-! ### Raw addresses -/

/-- C9, amended. Every gate accounts by the raw address `req.ip`. A request changes no key of
a different raw address `b` (unless it is a flush, or an unban naming `b`); its reply depends
only on the live entries of the keys of `req.ip` itself (listing endpoints apart); and the
normal form of the address appears only in the access-log entry of the request. This holds
also when `b` and `req.ip` have the same normal form. -/
theorem gates_key_by_raw_address (st st' : State) (now : Nat) (req : Request) :
    (∀ b, b ≠ req.ip → routeOf req ≠ .resetRedis →
      (routeOf req = .unbanIp → req.unbanTarget ≠ some b) →
      ∀ k ∈ keysOf b, (handle st now req).1.redis.raw k = st.redis.raw k) ∧
    ((∀ k ∈ keysOf req.ip, st'.redis.find now k = st.redis.find now k) →
      routeOf req ≠ .stats → routeOf req ≠ .bannedIps →
      (handle st' now req).2 = (handle st now req).2) ∧
    ((handle st now req).1.logs = st.logs ∨
      ∃ r, (handle st now req).1.logs = st.logs ++ [logEntry now req r] ∧
        (logEntry now req r).ip = normalizeIp req.ip) := by
  refine ⟨?_, ?_, ?_⟩
  · intro b hb hreset hunban k hk
    apply handle_frame st now req (keysOf_disjoint hb hk) hreset
    intro hroute ip hip
    have hne : b ≠ ip := by
      intro h; subst h; exact hunban hroute hip
    exact keysOf_disjoint hne hk
  · intro hv hs hbi
    apply handle_reply_congr rfl rfl rfl
    · exact hv _ (by simp [keysOf])
    · exact hv _ (by simp [keysOf])
    · exact hv _ (by simp [keysOf])
    · exact hv _ (by simp [keysOf])
    · exact hv _ (by simp [keysOf])
    · intro h; rcases h with h | h
      · exact absurd h hs
      · exact absurd h hbi
  · rcases handle_logs st now req with h | ⟨r, h⟩
    · exact Or.inl h
    · exact Or.inr ⟨r, h, rfl⟩

/-- C9, witness: a flow violation of `127.0.0.1` leaves the keys of `::1` as they were. -/
theorem gates_key_by_raw_address_witness :
    normalizeIp "::1" = normalizeIp "127.0.0.1" ∧
    (∀ k ∈ keysOf "::1",
      (handle (bannedState "::1") 1000 (mkReq "127.0.0.1" .POST "/api/transaction")).1.redis.raw k
        = (bannedState "::1").redis.raw k) :=
  ⟨by decide,
   (gates_key_by_raw_address (bannedState "::1") (bannedState "::1") 1000
      (mkReq "127.0.0.1" .POST "/api/transaction")).1 "::1" (by decide) (by decide)
      (by decide)⟩

/-! ### The login guard -/

theorem rightLogin_body {req : Request} (h : rightLogin req = true) :
    ∃ b, req.body = some b ∧ credentialsOk b = true := by
  unfold rightLogin at h
  cases hb : req.body with
  | none => rw [hb] at h; cases h
  | some b => rw [hb] at h; exact ⟨b, rfl, h⟩

theorem wrongLogin_body {req : Request} (h : wrongLogin req = true) :
    ∃ b, req.body = some b ∧ credentialsOk b = false := by
  unfold wrongLogin at h
  cases hb : req.body with
  | none => rw [hb] at h; cases h
  | some b => rw [hb] at h; exact ⟨b, rfl, by simpa using h⟩

theorem loginHandler_over {st : State} {now : Nat} {req : Request} {n : Int} {exp : Option Nat}
    (hf : st.redis.find now (failKey req.ip) = some { val := .int n, expiresAt := exp })
    (hn : 5 ≤ n) :
    loginHandler st now req =
      ({ st with redis := st.redis.set now (blockedKey req.ip) .flag 600
                 alerts := st.alerts ++ [bruteAlert req.ip now] },
       tooManyAttemptsResponse) := by
  simp [loginHandler, Store.get, hf, overThreshold, parseInt, hn, bruteAlert,
    tooManyAttemptsResponse]

/-- A login whose body was left `undefined`, below the threshold: the destructuring throws
and the `catch` answers 500; nothing is counted. -/
theorem loginHandler_no_body {st : State} {now : Nat} {req : Request}
    (hf : overThreshold (st.redis.get now (failKey req.ip)) = false) (hb : req.body = none) :
    loginHandler st now req = (st, { status := 500, body := .text "Server Error" }) := by
  simp [loginHandler, hf, hb]

theorem loginHandler_ok {st : State} {now : Nat} {req : Request}
    (hf : overThreshold (st.redis.get now (failKey req.ip)) = false)
    (hc : rightLogin req = true) :
    loginHandler st now req =
      ({ st with redis := (st.redis.del (failKey req.ip)).del (blockedKey req.ip) },
       loginOkResponse) := by
  obtain ⟨b, hb, hcb⟩ := rightLogin_body hc
  simp [loginHandler, hf, hb, hcb, loginOkResponse]

theorem loginHandler_fail_first {st : State} {now : Nat} {req : Request}
    (hf : st.redis.find now (failKey req.ip) = none) (hc : wrongLogin req = true) :
    loginHandler st now req =
      ({ st with redis :=
          ((st.redis.put (failKey req.ip) { val := .int 1, expiresAt := none }).put
            (failKey req.ip) (failEntry 1 now)) },
       attemptResponse 1) := by
  obtain ⟨b, hb, hcb⟩ := wrongLogin_body hc
  simp [loginHandler, Store.get, hf, overThreshold, hb, hcb, Store.incr_absent hf,
    Store.expire_put_live, Entry.live, attemptResponse, failEntry]

theorem loginHandler_fail_count {st : State} {now : Nat} {req : Request} {n : Int}
    {exp : Option Nat}
    (hf : st.redis.find now (failKey req.ip) = some { val := .int n, expiresAt := exp })
    (h1 : 1 ≤ n) (h5 : n < 5) (hc : wrongLogin req = true) :
    loginHandler st now req =
      ({ st with redis := (st.redis.put (failKey req.ip) { val := .int (n + 1), expiresAt := exp }) },
       attemptResponse (n + 1)) := by
  have hn : n + 1 ≤ 9223372036854775807 := by omega
  have hne : ¬ (n + 1 = 1) := by omega
  have hne' : ¬ (n = 0) := by omega
  have h5' : ¬ (5 ≤ n) := by omega
  obtain ⟨b, hb, hcb⟩ := wrongLogin_body hc
  simp [loginHandler, Store.get, hf, overThreshold, parseInt, h5', hb, hcb,
    Store.incr_int hf hn, hne', attemptResponse]

theorem Store.find_of_raw_live {s : Store} {k : String} {now t : Nat} {v : RVal}
    (h : s.raw k = some { val := v, expiresAt := some t }) (hlt : now < t) :
    s.find now k = some { val := v, expiresAt := some t } := by
  simp [Store.find, h, Entry.live, hlt]

theorem Store.find_of_raw_dead {s : Store} {k : String} {now t : Nat} {v : RVal}
    (h : s.raw k = some { val := v, expiresAt := some t }) (hle : t ≤ now) :
    s.find now k = none := by
  have : ¬ now < t := by omega
  simp [Store.find, h, Entry.live, this]

theorem loginRun_failures (ip : String) (e : Nat) :
    ∀ (evs : List Event) (st : State) (n : Int),
      st.redis.raw (failKey ip) = some { val := .int n, expiresAt := some e } →
      1 ≤ n → n + evs.length ≤ 5 →
      (∀ ev ∈ evs, ev.2.ip = ip ∧ wrongLogin ev.2 = true ∧ ev.1 < e) →
      (loginRun st evs).2 = (List.range evs.length).map (fun (i : Nat) => attemptResponse (n + 1 + (i : Int))) ∧
      (loginRun st evs).1.redis.raw (failKey ip)
        = some { val := .int (n + evs.length), expiresAt := some e } ∧
      (loginRun st evs).1.alerts = st.alerts ∧
      ∀ k, k ≠ failKey ip → (loginRun st evs).1.redis.raw k = st.redis.raw k := by
  intro evs
  induction evs with
  | nil => intro st n h _ _ _; simp [loginRun, h]
  | cons ev rest ih =>
    intro st n h h1 h5 hall
    obtain ⟨now, req⟩ := ev
    have hev := hall (now, req) (List.mem_cons_self _ _)
    simp only at hev
    obtain ⟨hip, hbad, hlt⟩ := hev
    simp only [List.length_cons, Nat.cast_add, Nat.cast_one] at h5
    have hfind : st.redis.find now (failKey req.ip)
        = some { val := .int n, expiresAt := some e } := by
      rw [hip]; exact Store.find_of_raw_live h hlt
    have hstep := loginHandler_fail_count hfind h1 (by omega) hbad
    have hraw : (loginHandler st now req).1.redis.raw (failKey ip)
        = some { val := .int (n + 1), expiresAt := some e } := by
      rw [hstep, hip]; simp [Store.raw_put]
    obtain ⟨i1, i2, i3, i4⟩ := ih (loginHandler st now req).1 (n + 1) hraw (by omega) (by omega)
      (fun ev' hmem => hall ev' (List.mem_cons_of_mem _ hmem))
    refine ⟨?_, ?_, ?_, ?_⟩
    · simp only [loginRun, List.length_cons, List.range_succ_eq_map, List.map_cons, List.map_map]
      rw [i1, hstep]
      simp only [List.cons.injEq]
      refine ⟨by simp, ?_⟩
      apply List.map_congr_left
      intro i _
      simp only [Function.comp, Nat.cast_succ]
      congr 1
      ring
    · simp only [loginRun, List.length_cons]
      rw [i2]
      simp only [Nat.cast_add, Nat.cast_one]
      congr 3
      ring
    · simp only [loginRun]
      rw [i3, hstep]
    · intro k hk
      simp only [loginRun]
      rw [i4 k hk, hstep, hip]
      simp [Store.raw_put, Ne.symm hk]

theorem attemptResponses_eq :
    (List.range 4).map (fun (i : Nat) => attemptResponse (1 + 1 + (i : Int)))
      = fiveAttemptResponses.tail := by
  decide

theorem loginRun_five {st : State} {ip : String} {t1 : Nat} {r1 : Request} {rest : List Event}
    (hlen : rest.length = 4) (hip : r1.ip = ip) (hbad : wrongLogin r1 = true)
    (hfresh : st.redis.find t1 (failKey ip) = none)
    (hrest : ∀ ev ∈ rest, ev.2.ip = ip ∧ wrongLogin ev.2 = true ∧ ev.1 < t1 + 600 * 1000) :
    (loginRun st ((t1, r1) :: rest)).2 = fiveAttemptResponses ∧
    (loginRun st ((t1, r1) :: rest)).1.redis.raw (failKey ip) = some (failEntry 5 t1) ∧
    (loginRun st ((t1, r1) :: rest)).1.alerts = st.alerts ∧
    ∀ k, k ≠ failKey ip → (loginRun st ((t1, r1) :: rest)).1.redis.raw k = st.redis.raw k := by
  subst hip
  have hstep := loginHandler_fail_first hfresh hbad
  have hraw : (loginHandler st t1 r1).1.redis.raw (failKey r1.ip)
      = some { val := .int 1, expiresAt := some (t1 + 600 * 1000) } := by
    rw [hstep]; simp [Store.raw_put, failEntry]
  obtain ⟨i1, i2, i3, i4⟩ := loginRun_failures r1.ip (t1 + 600 * 1000) rest
    (loginHandler st t1 r1).1 1 hraw (by omega) (by rw [hlen]; norm_num) hrest
  refine ⟨?_, ?_, ?_, ?_⟩
  · simp only [loginRun]
    rw [i1, hlen, attemptResponses_eq, hstep]
    rfl
  · simp only [loginRun]
    rw [i2, hlen]
    rfl
  · simp only [loginRun]
    rw [i3, hstep]
  · intro k hk
    simp only [loginRun]
    rw [i4 k hk, hstep]
    simp [Store.raw_put, Ne.symm hk]

/-- C2. Login guard threshold. Starting with no live `login_failures` counter, five
wrong-credential logins of one address, the later ones within 600 s of the first, are answered
401 with "Invalid credentials. Attempt k/5" for k = 1..5. The sixth login within the window,
whatever its credentials, is answered 429 "Too many failed attempts...", appends exactly one
"Brute Force Attempt"/"High" alert, sets the blocked key with a 600-second expiry and leaves
the `login_failures` counter as it was. -/
theorem login_guard_threshold (st : State) (ip : String) (t1 t6 : Nat) (r1 r6 : Request)
    (rest : List Event) (hlen : rest.length = 4)
    (h1 : r1.ip = ip ∧ wrongLogin r1 = true)
    (hrest : ∀ ev ∈ rest, ev.2.ip = ip ∧ wrongLogin ev.2 = true ∧ ev.1 < t1 + 600 * 1000)
    (h6 : r6.ip = ip ∧ t6 < t1 + 600 * 1000)
    (hfresh : st.redis.find t1 (failKey ip) = none) :
    (loginRun st ((t1, r1) :: rest)).2 = fiveAttemptResponses ∧
    (loginHandler (loginRun st ((t1, r1) :: rest)).1 t6 r6).2 = tooManyAttemptsResponse ∧
    (loginHandler (loginRun st ((t1, r1) :: rest)).1 t6 r6).1.alerts
      = st.alerts ++ [bruteAlert ip t6] ∧
    (loginHandler (loginRun st ((t1, r1) :: rest)).1 t6 r6).1.redis.raw (blockedKey ip)
      = some { val := .flag, expiresAt := some (t6 + 600 * 1000) } ∧
    (loginRun st ((t1, r1) :: rest)).1.redis.raw (failKey ip) = some (failEntry 5 t1) ∧
    (loginHandler (loginRun st ((t1, r1) :: rest)).1 t6 r6).1.redis.raw (failKey ip)
      = some (failEntry 5 t1) ∧
    (∀ r6' : Request, r6'.ip = ip →
      loginHandler (loginRun st ((t1, r1) :: rest)).1 t6 r6'
        = loginHandler (loginRun st ((t1, r1) :: rest)).1 t6 r6) := by
  obtain ⟨hip1, hbad1⟩ := h1
  obtain ⟨hip6, hlt6⟩ := h6
  obtain ⟨f1, f2, f3, f4⟩ := loginRun_five hlen hip1 hbad1 hfresh hrest
  have hover : ∀ r : Request, r.ip = ip →
      loginHandler (loginRun st ((t1, r1) :: rest)).1 t6 r =
        ({ (loginRun st ((t1, r1) :: rest)).1 with
            redis := (loginRun st ((t1, r1) :: rest)).1.redis.set t6 (blockedKey ip) .flag 600
            alerts := (loginRun st ((t1, r1) :: rest)).1.alerts ++ [bruteAlert ip t6] },
         tooManyAttemptsResponse) := by
    intro r hr
    have hfind : (loginRun st ((t1, r1) :: rest)).1.redis.find t6 (failKey r.ip)
        = some { val := .int 5, expiresAt := some (t1 + 600 * 1000) } := by
      rw [hr]; exact Store.find_of_raw_live f2 hlt6
    rw [loginHandler_over hfind (by omega), hr]
  refine ⟨f1, ?_, ?_, ?_, f2, ?_, ?_⟩
  · rw [hover r6 hip6]
  · rw [hover r6 hip6, f3]
  · rw [hover r6 hip6]; simp [Store.raw_set]
  · rw [hover r6 hip6]; simp [Store.raw_set, f2, blocked_ne_fail]
  · intro r6' hr; rw [hover r6' hr, hover r6 hip6]

/-- C2, witness: five failed logins from the empty state, then a sixth attempt with the
correct credentials. -/
theorem login_guard_threshold_witness :
    (loginRun State.empty ((0, loginReq "10.0.0.9" "admin" "letmein") :: fourMoreFailures)).2
      = fiveAttemptResponses ∧
    (loginHandler
      (loginRun State.empty ((0, loginReq "10.0.0.9" "admin" "letmein") :: fourMoreFailures)).1
      599999 (loginReq "10.0.0.9" "admin" "password123")).2 = tooManyAttemptsResponse :=
  ⟨(login_guard_threshold State.empty "10.0.0.9" 0 599999
      (loginReq "10.0.0.9" "admin" "letmein") (loginReq "10.0.0.9" "admin" "password123")
      fourMoreFailures (by decide) (by decide) (by decide) (by decide) (by decide)).1,
   (login_guard_threshold State.empty "10.0.0.9" 0 599999
      (loginReq "10.0.0.9" "admin" "letmein") (loginReq "10.0.0.9" "admin" "password123")
      fourMoreFailures (by decide) (by decide) (by decide) (by decide) (by decide)).2.1⟩

/-- C6. Failure counter reset. With between 1 and 4 recorded login failures, a login with the
correct credentials returns success with the token and deletes the `login_failures` counter
and the blocked flag; a wrong-credential login that finds the counter as the success left it
is answered "Attempt 1/5" and creates the counter at 1 with a fresh 600-second expiry,
whatever the count was before the success. -/
theorem login_success_resets_counter (st : State) (now : Nat) (req : Request) (n : Int)
    (exp : Option Nat)
    (hf : st.redis.find now (failKey req.ip) = some { val := .int n, expiresAt := exp })
    (hn : 1 ≤ n ∧ n ≤ 4) (hc : rightLogin req = true) :
    (loginHandler st now req).2 = loginOkResponse ∧
    (loginHandler st now req).1.redis.raw (failKey req.ip) = none ∧
    (loginHandler st now req).1.redis.raw (blockedKey req.ip) = none ∧
    (loginHandler st now req).1.alerts = st.alerts ∧
    (∀ (st2 : State) (now' : Nat) (req' : Request), req'.ip = req.ip →
      wrongLogin req' = true →
      st2.redis.raw (failKey req.ip) = (loginHandler st now req).1.redis.raw (failKey req.ip) →
      (loginHandler st2 now' req').2
        = { status := 401, body := errorBody "Invalid credentials. Attempt 1/5" } ∧
      (loginHandler st2 now' req').1.redis.raw (failKey req.ip)
        = some { val := .int 1, expiresAt := some (now' + 600 * 1000) }) := by
  have hover : overThreshold (st.redis.get now (failKey req.ip)) = false := by
    have : ¬ (5 ≤ n) := by omega
    simp [Store.get, hf, overThreshold, parseInt, this]
  have hstep := loginHandler_ok hover hc
  have hraw : (loginHandler st now req).1.redis.raw (failKey req.ip) = none := by
    rw [hstep]; simp [Store.raw_del, blocked_ne_fail]
  refine ⟨by rw [hstep], hraw, ?_, by rw [hstep], ?_⟩
  · rw [hstep]; simp [Store.raw_del]
  · intro st2 now' req' hip hbad hsame
    rw [hraw] at hsame
    have hnone : st2.redis.find now' (failKey req'.ip) = none := by
      rw [hip]; exact Store.find_of_raw_none now' hsame
    rw [loginHandler_fail_first hnone hbad, hip]
    refine ⟨rfl, ?_⟩
    simp [Store.raw_put, failEntry]

/-- C6, witness: a correct login after three recorded failures. -/
theorem login_success_resets_counter_witness :
    (loginHandler threeFailuresState 5000 (loginReq "10.0.0.9" "admin" "password123")).2
      = loginOkResponse ∧
    (loginHandler threeFailuresState 5000
      (loginReq "10.0.0.9" "admin" "password123")).1.redis.raw (failKey "10.0.0.9") = none :=
  ⟨(login_success_resets_counter threeFailuresState 5000
      (loginReq "10.0.0.9" "admin" "password123") 3 (some 600000) (by decide) (by decide)
      (by decide)).1,
   (login_success_resets_counter threeFailuresState 5000
      (loginReq "10.0.0.9" "admin" "password123") 3 (some 600000) (by decide) (by decide)
      (by decide)).2.1⟩

/-! ### Routing -/

theorem isPrefixOf_append_left (p l : List Char) : (p.isPrefixOf (p ++ l)) = true := by
  induction p with
  | nil => simp
  | cons c p ih => simp [List.isPrefixOf, ih]

theorem mounted_of_routeMatches {route path : String}
    (hr : routeMatches route path = true) (hp : ("/api".data ++ ['/']).isPrefixOf route.data = true) :
    mounted "/api" path = true := by
  simp only [routeMatches, Bool.or_eq_true, beq_iff_eq] at hr
  obtain ⟨l, hl⟩ := List.isPrefixOf_iff_prefix.mp hp
  simp only [mounted, Bool.or_eq_true, beq_iff_eq]
  right
  rcases hr with h | h
  · rw [h, ← hl]; exact isPrefixOf_append_left _ _
  · rw [h, ← hl, List.append_assoc]; exact isPrefixOf_append_left _ _

theorem routeOf_login {req : Request} (h : routeOf req = .login) :
    routeMatches "/api/login" req.path = true := by
  unfold routeOf at h
  split at h
  · cases h
  · split at h
    · cases h
    · split at h
      · cases h
      · split at h
        · cases h
        · split at h
          · rename_i h5; simp only [Bool.and_eq_true] at h5; exact h5.2
          · split at h
            · cases h
            · split at h <;> cases h

theorem mounted_of_login {req : Request} (h : routeOf req = .login) :
    mounted "/api" req.path = true :=
  mounted_of_routeMatches (routeOf_login h) (by decide)

theorem routeOf_balance {req : Request} (h : routeOf req = .balance) :
    routeMatches "/api/balance" req.path = true := by
  unfold routeOf at h
  split at h
  · cases h
  · split at h
    · cases h
    · split at h
      · cases h
      · split at h
        · cases h
        · split at h
          · cases h
          · split at h
            · rename_i h6; simp only [Bool.and_eq_true] at h6; exact h6.2
            · split at h <;> cases h

theorem routeOf_transaction {req : Request} (h : routeOf req = .transaction) :
    routeMatches "/api/transaction" req.path = true := by
  unfold routeOf at h
  split at h
  · cases h
  · split at h
    · cases h
    · split at h
      · cases h
      · split at h
        · cases h
        · split at h
          · cases h
          · split at h
            · cases h
            · split at h
              · rename_i h7; simp only [Bool.and_eq_true] at h7; exact h7.2
              · cases h

theorem mounted_of_balance {req : Request} (h : routeOf req = .balance) :
    mounted "/api" req.path = true :=
  mounted_of_routeMatches (routeOf_balance h) (by decide)

theorem mounted_of_transaction {req : Request} (h : routeOf req = .transaction) :
    mounted "/api" req.path = true :=
  mounted_of_routeMatches (routeOf_transaction h) (by decide)

/-- A path routed to one of the three API handlers lies under `/api`. -/
theorem mounted_of_api_route {req : Request}
    (h : routeOf req = .login ∨ routeOf req = .balance ∨ routeOf req = .transaction) :
    mounted "/api" req.path = true := by
  rcases h with h | h | h
  · exact mounted_of_login h
  · exact mounted_of_balance h
  · exact mounted_of_transaction h

theorem rateExempt_of_mounted {path : String} (h : mounted "/api" path = true) :
    rateExempt path = false := by
  simp only [mounted, Bool.or_eq_true, beq_iff_eq] at h
  have hhead : (lowerPath path).take 2 = ['/', 'a'] := by
    rcases h with h | h
    · rw [h]; rfl
    · obtain ⟨l, hl⟩ := List.isPrefixOf_iff_prefix.mp h
      rw [← hl]; rfl
  simp only [rateExempt, Bool.or_eq_false_iff]
  constructor
  · cases hp : "/dashboard".data.isPrefixOf path.data with
    | false => rfl
    | true =>
      obtain ⟨l, hl⟩ := List.isPrefixOf_iff_prefix.mp hp
      rw [lowerPath, ← hl] at hhead
      simp at hhead
  · cases hp : path == "/reset-redis" with
    | false => rfl
    | true =>
      have : path = "/reset-redis" := by simpa using hp
      rw [this] at hhead
      simp [lowerPath] at hhead

/-! ### Block persistence -/

theorem flagged_of_blocked_raw {st : State} {now t : Nat} {ip : String}
    (h : st.redis.raw (blockedKey ip) = some { val := .flag, expiresAt := some t })
    (hlt : now < t) : flagged st now ip = true := by
  simp [flagged, Store.find_of_raw_live h hlt]

theorem flagged_of_banned_raw {st : State} {now t : Nat} {ip : String}
    (h : st.redis.raw (bannedKey ip) = some { val := .flag, expiresAt := some t })
    (hlt : now < t) : flagged st now ip = true := by
  simp [flagged, Store.find_of_raw_live h hlt]

/-- A login with the correct credentials from an address with no live ban, block, rate
counter or failure counter passes both gates and succeeds. -/
theorem handle_login_clean {st : State} {now : Nat} {req : Request}
    (hroute : routeOf req = .login) (hc : rightLogin req = true)
    (h1 : st.redis.find now (bannedKey req.ip) = none)
    (h2 : st.redis.find now (blockedKey req.ip) = none)
    (h3 : st.redis.find now (rateKey req.ip) = none)
    (h4 : st.redis.find now (failKey req.ip) = none) :
    (handle st now req).2 = { stage := .handler .login, resp := some loginOkResponse } := by
  have hm := mounted_of_login hroute
  have hfl : flagged st now req.ip = false := by simp [flagged, h1, h2]
  have hg : gates st now req = (.rateLimiter, rateLimiter st now req) :=
      gates_of_not_flagged hfl
  rw [rateLimiter_first (rateExempt_of_mounted hm) h2 h3] at hg
  rw [(handle_of_next hg).1, hroute]
  simp only [dispatch, hroute]
  rw [loginHandler_ok _ hc]
  simp only [Store.get]
  rw [@Store.find_congr st.redis _ _ now]
  · simp [h4, overThreshold]
  · simp [Store.raw_put, rate_ne_fail]

/-- C5. Block persistence after login overflow. After five failed logins (the first at `t1`)
and a sixth attempt at `t6` within the window: the blocked key expires at `t6 + 600 s` and the
failure counter at `t1 + 600 s`, which is not later. While the blocked key is still stored and
live, every login request of the address is answered 403 by the ban gate and changes neither
the store nor the alerts. Once `t6 + 600 s` is reached, a login with the correct credentials
finds no live failure counter: the handler returns success, and so does the whole pipeline
when the address has no live ban or rate counter. -/
theorem block_persists_after_login_overflow (st : State) (ip : String) (t1 t6 : Nat)
    (r1 r6 : Request) (rest : List Event) (hlen : rest.length = 4)
    (h1 : r1.ip = ip ∧ wrongLogin r1 = true)
    (hrest : ∀ ev ∈ rest, ev.2.ip = ip ∧ wrongLogin ev.2 = true ∧ ev.1 < t1 + 600 * 1000)
    (h6 : r6.ip = ip ∧ t1 ≤ t6 ∧ t6 < t1 + 600 * 1000)
    (hfresh : st.redis.find t1 (failKey ip) = none) :
    (loginHandler (loginRun st ((t1, r1) :: rest)).1 t6 r6).1.redis.raw (blockedKey ip)
      = some { val := .flag, expiresAt := some (t6 + 600 * 1000) } ∧
    (loginHandler (loginRun st ((t1, r1) :: rest)).1 t6 r6).1.redis.raw (failKey ip)
      = some { val := .int 5, expiresAt := some (t1 + 600 * 1000) } ∧
    t1 + 600 * 1000 ≤ t6 + 600 * 1000 ∧
    (∀ (st' : State) (t : Nat) (req : Request), req.ip = ip → routeOf req = .login →
      st'.redis.raw (blockedKey ip)
        = (loginHandler (loginRun st ((t1, r1) :: rest)).1 t6 r6).1.redis.raw (blockedKey ip) →
      t < t6 + 600 * 1000 →
      handle st' t req =
        (logged st' t req forbiddenResponse,
          { stage := .checkBan, resp := some forbiddenResponse })) ∧
    (∀ (st' : State) (t : Nat) (req : Request), req.ip = ip → rightLogin req = true →
      (st'.redis.raw (failKey ip)
          = (loginHandler (loginRun st ((t1, r1) :: rest)).1 t6 r6).1.redis.raw (failKey ip) ∨
        st'.redis.raw (failKey ip) = none) →
      t6 + 600 * 1000 ≤ t →
      (loginHandler st' t req).2 = loginOkResponse ∧
      (routeOf req = .login →
        (st'.redis.raw (blockedKey ip)
          = (loginHandler (loginRun st ((t1, r1) :: rest)).1 t6 r6).1.redis.raw (blockedKey ip) ∨
          st'.redis.raw (blockedKey ip) = none) →
        st'.redis.find t (bannedKey ip) = none → st'.redis.find t (rateKey ip) = none →
        (handle st' t req).2 = { stage := .handler .login, resp := some loginOkResponse })) := by
  obtain ⟨hip1, hbad1⟩ := h1
  obtain ⟨hip6, hle6, hlt6⟩ := h6
  obtain ⟨_, f2, _, _⟩ := loginRun_five hlen hip1 hbad1 hfresh hrest
  have hfind : (loginRun st ((t1, r1) :: rest)).1.redis.find t6 (failKey r6.ip)
      = some { val := .int 5, expiresAt := some (t1 + 600 * 1000) } := by
    rw [hip6]; exact Store.find_of_raw_live f2 hlt6
  have hstep := loginHandler_over hfind (by omega)
  have hblk : (loginHandler (loginRun st ((t1, r1) :: rest)).1 t6 r6).1.redis.raw (blockedKey ip)
      = some { val := .flag, expiresAt := some (t6 + 600 * 1000) } := by
    rw [hstep, hip6]; simp [Store.raw_set]
  have hfail : (loginHandler (loginRun st ((t1, r1) :: rest)).1 t6 r6).1.redis.raw (failKey ip)
      = some { val := .int 5, expiresAt := some (t1 + 600 * 1000) } := by
    rw [hstep, hip6]; simp [Store.raw_set, blocked_ne_fail]; exact f2
  refine ⟨hblk, hfail, by omega, ?_, ?_⟩
  · intro st' t req hip hroute hsame hlt
    rw [hblk] at hsame
    apply handle_flagged (mounted_of_login hroute)
    rw [hip]; exact flagged_of_blocked_raw hsame hlt
  · intro st' t req hip hc hsame hge
    rw [hfail] at hsame
    have hnone : st'.redis.find t (failKey req.ip) = none := by
      rw [hip]
      rcases hsame with h | h
      · exact Store.find_of_raw_dead h (by omega)
      · exact Store.find_of_raw_none t h
    refine ⟨?_, ?_⟩
    · rw [loginHandler_ok (by simp [Store.get, hnone, overThreshold]) hc]
    · intro hroute hb hban hrate
      rw [hblk] at hb
      have hbnone : st'.redis.find t (blockedKey req.ip) = none := by
        rw [hip]
        rcases hb with h | h
        · exact Store.find_of_raw_dead h (by omega)
        · exact Store.find_of_raw_none t h
      exact handle_login_clean hroute hc (by rw [hip]; exact hban) hbnone
        (by rw [hip]; exact hrate) hnone

/-- C5, witness: the block set by the sixth attempt at 599999 ms. -/
theorem block_persists_after_login_overflow_witness :
    (loginHandler
      (loginRun State.empty ((0, loginReq "10.0.0.9" "admin" "letmein") :: fourMoreFailures)).1
      599999 (loginReq "10.0.0.9" "admin" "password123")).1.redis.raw (blockedKey "10.0.0.9")
      = some { val := .flag, expiresAt := some (599999 + 600 * 1000) } :=
  (block_persists_after_login_overflow State.empty "10.0.0.9" 0 599999
      (loginReq "10.0.0.9" "admin" "letmein") (loginReq "10.0.0.9" "admin" "password123")
      fourMoreFailures (by decide) (by decide) (by decide) (by decide) (by decide)).1

/-! ### The flow sequence enforcer -/

theorem transactionHandler_violation {st : State} {now : Nat} {req : Request}
    (hs : st.redis.find now (sessionKey req.ip) = none) :
    transactionHandler st now req =
      ({ st with redis := st.redis.set now (bannedKey req.ip) .flag 3600
                 alerts := st.alerts ++ [flowAlert req.ip now] },
       flowViolationResponse) := by
  simp [transactionHandler, Store.get, hs, truthy, flowAlert, flowViolationResponse]

theorem transactionHandler_ok {st : State} {now : Nat} {req : Request} {e : Entry}
    (hs : st.redis.find now (sessionKey req.ip) = some e) :
    transactionHandler st now req = (st, transactionOkResponse) := by
  simp [transactionHandler, Store.get, hs, truthy, transactionOkResponse]

theorem mounted_of_apiRoute {req : Request} (h : apiRoute req = true) :
    mounted "/api" req.path = true := by
  apply mounted_of_api_route
  simpa [apiRoute, or_assoc] using h

/-- C3, counterexample. After a hundred requests within one window the address `10.0.0.9` is
neither banned nor blocked and has no checkpoint flag. Its commit request is then answered 429
by the rate limiter, which runs before the route: the banned key is not set and no
"Unusual Access Order" alert is recorded. -/
theorem commit_stopped_by_rate_limiter :
    runState State.empty hundredPings = fullWindowState ∧
    flagged fullWindowState 1000 "10.0.0.9" = false ∧
    fullWindowState.redis.find 1000 (sessionKey "10.0.0.9") = none ∧
    (handle fullWindowState 1000 (mkReq "10.0.0.9" .POST "/api/transaction")).2
      = { stage := .rateLimiter, resp := some tooManyRequestsResponse } ∧
    tooManyRequestsResponse.status = 429 ∧
    (handle fullWindowState 1000 (mkReq "10.0.0.9" .POST "/api/transaction")).1.redis.raw
        (bannedKey "10.0.0.9") = none ∧
    (handle fullWindowState 1000 (mkReq "10.0.0.9" .POST "/api/transaction")).1.alerts
      = [rateAlert "10.0.0.9" 1000] := by
  refine ⟨by decide!, by decide, by decide, by decide, by decide, by decide, by decide⟩

/-- C3, amended. Flow violation ban. The commit handler, when it finds no live checkpoint
flag, appends exactly one "Unusual Access Order"/"Critical" alert, sets the banned key with a
3600-second expiry and answers 403; a commit request of an address that is not banned or
blocked and has no live checkpoint flag gets this answer through the whole pipeline whenever
the rate limiter passes the request on. From then on, as long as the
banned key is still stored and 3600 s have not elapsed, every checkpoint, commit or login
request of the address is answered 403 by the ban gate and changes neither the store nor the
alerts; once the key is deleted or has expired, the ban gate no longer answers on its
account. -/
theorem flow_violation_ban (st : State) (now : Nat) (req : Request)
    (hroute : routeOf req = .transaction)
    (hs : st.redis.find now (sessionKey req.ip) = none) :
    transactionHandler st now req =
      ({ st with redis := st.redis.set now (bannedKey req.ip) .flag 3600
                 alerts := st.alerts ++ [flowAlert req.ip now] },
       flowViolationResponse) ∧
    flowViolationResponse.status = 403 ∧
    (transactionHandler st now req).1.redis.raw (bannedKey req.ip)
      = some { val := .flag, expiresAt := some (now + 3600 * 1000) } ∧
    (∀ st1, flagged st now req.ip = false → rateLimiter st now req = .next st1 →
      (handle st now req).2
        = { stage := .handler .transaction, resp := some flowViolationResponse } ∧
      (handle st now req).1.alerts = st.alerts ++ [flowAlert req.ip now] ∧
      (handle st now req).1.redis.raw (bannedKey req.ip)
        = some { val := .flag, expiresAt := some (now + 3600 * 1000) }) ∧
    (∀ (st' : State) (t : Nat) (req' : Request), req'.ip = req.ip → apiRoute req' = true →
      st'.redis.raw (bannedKey req.ip)
        = some { val := .flag, expiresAt := some (now + 3600 * 1000) } →
      t < now + 3600 * 1000 →
      handle st' t req' =
          (logged st' t req' forbiddenResponse,
            { stage := .checkBan, resp := some forbiddenResponse }) ∧
      (handle st' t req').1.redis = st'.redis ∧ (handle st' t req').1.alerts = st'.alerts) ∧
    (∀ (st' : State) (t : Nat) (req' : Request), req'.ip = req.ip →
      ((st'.redis.raw (bannedKey req.ip)
          = some { val := .flag, expiresAt := some (now + 3600 * 1000) } ∧
          now + 3600 * 1000 ≤ t) ∨
        st'.redis.raw (bannedKey req.ip) = none) →
      st'.redis.find t (blockedKey req.ip) = none →
      (handle st' t req').2.stage ≠ .checkBan) := by
  have hstep := transactionHandler_violation hs
  have hraw : (transactionHandler st now req).1.redis.raw (bannedKey req.ip)
      = some { val := .flag, expiresAt := some (now + 3600 * 1000) } := by
    rw [hstep]; simp [Store.raw_set]
  refine ⟨hstep, rfl, hraw, ?_, ?_, ?_⟩
  · intro st1 hfl hrl
    have hg : gates st now req = (.rateLimiter, rateLimiter st now req) :=
      gates_of_not_flagged hfl
    rw [hrl] at hg
    obtain ⟨g1, g2, g3⟩ := handle_of_next hg
    have hfr := rateLimiter_frame st now req (rate_ne_session req.ip req.ip)
      (blocked_ne_session req.ip req.ip)
    rw [hrl] at hfr
    simp only [Step.state] at hfr
    have hs1 : st1.redis.find now (sessionKey req.ip) = none := by
      rw [Store.find_congr now hfr]; exact hs
    have hd : dispatch st1 now req = transactionHandler st1 now req := by
      simp [dispatch, hroute]
    rw [g1, g2, g3, hd, hroute, transactionHandler_violation hs1]
    refine ⟨rfl, ?_, ?_⟩
    · simp [(rateLimiter_next hrl).1]
    · simp [Store.raw_set]
  · intro st' t req' hip hapi hsame hlt
    have hfl : flagged st' t req'.ip = true := by
      rw [hip]; exact flagged_of_banned_raw hsame hlt
    have h := handle_flagged (mounted_of_apiRoute hapi) hfl
    rw [h]
    exact ⟨rfl, rfl, rfl⟩
  · intro st' t req' hip hgone hblk
    apply handle_stage_of_not_flagged
    have hban : st'.redis.find t (bannedKey req.ip) = none := by
      rcases hgone with ⟨h, hle⟩ | h
      · exact Store.find_of_raw_dead h hle
      · exact Store.find_of_raw_none t h
    rw [hip]
    simp [flagged, hban, hblk]

/-- C3, witness: a commit of a fresh address at 1000 ms, which the rate limiter counts as
the first request of a window and passes on. -/
theorem flow_violation_ban_witness :
    routeOf (mkReq "10.0.0.9" .POST "/api/transaction") = .transaction ∧
    State.empty.redis.find 1000 (sessionKey "10.0.0.9") = none ∧
    flagged State.empty 1000 "10.0.0.9" = false ∧
    rateLimiter State.empty 1000 (mkReq "10.0.0.9" .POST "/api/transaction")
      = .next firstCountedState ∧
    (handle State.empty 1000 (mkReq "10.0.0.9" .POST "/api/transaction")).2
      = { stage := .handler .transaction, resp := some flowViolationResponse } ∧
    (handle State.empty 1000 (mkReq "10.0.0.9" .POST "/api/transaction")).1.redis.raw
        (bannedKey "10.0.0.9")
      = some { val := .flag, expiresAt := some (1000 + 3600 * 1000) } :=
  ⟨by decide, by decide, by decide, by decide,
   ((flow_violation_ban State.empty 1000
      (mkReq "10.0.0.9" .POST "/api/transaction") (by decide) (by decide)).2.2.2.1
        firstCountedState (by decide) (by decide)).1,
   ((flow_violation_ban State.empty 1000
      (mkReq "10.0.0.9" .POST "/api/transaction") (by decide) (by decide)).2.2.2.1
        firstCountedState (by decide) (by decide)).2.2⟩

/-! ### The rate limiter over a sequence of requests -/

theorem quiet_balance {req : Request} (h : routeOf req = .balance) : Quiet req := by
  intro st now k hk
  simp only [List.mem_cons, List.mem_singleton, List.not_mem_nil, or_false] at hk
  simp only [dispatch, h, balanceHandler, Store.raw_set]
  rcases hk with hk | hk | hk <;> subst hk <;>
    simp [session_ne_banned, session_ne_blocked, session_ne_rate]

theorem quiet_unrouted {req : Request} (h : routeOf req = .unrouted) : Quiet req := by
  intro st now k _
  simp [dispatch, h]

/-- A counted request: the gates let it through and only the rate counter moves. -/
theorem handle_quiet_count {st : State} {now : Nat} {req : Request} {n : Int} {exp : Option Nat}
    (hex : rateExempt req.path = false) (hq : Quiet req)
    (hban : st.redis.find now (bannedKey req.ip) = none)
    (hblk : st.redis.find now (blockedKey req.ip) = none)
    (hr : st.redis.find now (rateKey req.ip) = some { val := .int n, expiresAt := exp })
    (h1 : 1 ≤ n) (h2 : n < 100) :
    (handle st now req).2.stage = .handler (routeOf req) ∧
    (handle st now req).1.redis.raw (rateKey req.ip)
      = some { val := .int (n + 1), expiresAt := exp } ∧
    (handle st now req).1.redis.raw (bannedKey req.ip) = st.redis.raw (bannedKey req.ip) ∧
    (handle st now req).1.redis.raw (blockedKey req.ip) = st.redis.raw (blockedKey req.ip) := by
  have hfl : flagged st now req.ip = false := by simp [flagged, hban, hblk]
  have hg : gates st now req = (.rateLimiter, rateLimiter st now req) := gates_of_not_flagged hfl
  rw [rateLimiter_count hex hblk hr h1 h2] at hg
  obtain ⟨g1, g2, _⟩ := handle_of_next hg
  rw [g1, g2, hq _ now _ (by simp), hq _ now _ (by simp), hq _ now _ (by simp)]
  simp [Store.raw_put, rate_ne_banned, rate_ne_blocked]

/-- The first counted request creates the counter with a 60-second expiry. -/
theorem handle_quiet_first {st : State} {now : Nat} {req : Request}
    (hex : rateExempt req.path = false) (hq : Quiet req)
    (hban : st.redis.find now (bannedKey req.ip) = none)
    (hblk : st.redis.find now (blockedKey req.ip) = none)
    (hr : st.redis.find now (rateKey req.ip) = none) :
    (handle st now req).2.stage = .handler (routeOf req) ∧
    (handle st now req).1.redis.raw (rateKey req.ip)
      = some { val := .int 1, expiresAt := some (now + 60 * 1000) } ∧
    (handle st now req).1.redis.raw (bannedKey req.ip) = st.redis.raw (bannedKey req.ip) ∧
    (handle st now req).1.redis.raw (blockedKey req.ip) = st.redis.raw (blockedKey req.ip) := by
  have hfl : flagged st now req.ip = false := by simp [flagged, hban, hblk]
  have hg : gates st now req = (.rateLimiter, rateLimiter st now req) := gates_of_not_flagged hfl
  rw [rateLimiter_first hex hblk hr] at hg
  obtain ⟨g1, g2, _⟩ := handle_of_next hg
  rw [g1, g2, hq _ now _ (by simp), hq _ now _ (by simp), hq _ now _ (by simp)]
  simp [Store.raw_put, rate_ne_banned, rate_ne_blocked]

/-- The request that finds the counter at 100 is answered 429 by the rate limiter, which sets
the block and raises the alert. -/
theorem handle_overflow {st : State} {now : Nat} {req : Request} {exp : Option Nat}
    (hex : rateExempt req.path = false)
    (hban : st.redis.find now (bannedKey req.ip) = none)
    (hblk : st.redis.find now (blockedKey req.ip) = none)
    (hr : st.redis.find now (rateKey req.ip) = some { val := .int 100, expiresAt := exp }) :
    (handle st now req).2 = { stage := .rateLimiter, resp := some tooManyRequestsResponse } ∧
    (handle st now req).1.alerts = st.alerts ++ [rateAlert req.ip now] ∧
    (handle st now req).1.redis.raw (blockedKey req.ip)
      = some { val := .flag, expiresAt := some (now + 60 * 1000) } := by
  have hfl : flagged st now req.ip = false := by simp [flagged, hban, hblk]
  have hg : gates st now req = (.rateLimiter, rateLimiter st now req) := gates_of_not_flagged hfl
  rw [rateLimiter_overflow hex hblk hr] at hg
  simp [handle, hg, logged, Store.raw_set]

/-- A request of a blocked address to a counted path is answered 403 by one of the two gates
and changes neither the store nor the alerts. -/
theorem handle_blocked {st : State} {now : Nat} {req : Request}
    (hex : rateExempt req.path = false)
    (hblk : (st.redis.find now (blockedKey req.ip)).isSome = true) :
    ((handle st now req).2 = { stage := .checkBan, resp := some forbiddenResponse } ∨
      (handle st now req).2 = { stage := .rateLimiter, resp := some blockedByTrafficResponse }) ∧
    (handle st now req).1.redis = st.redis ∧ (handle st now req).1.alerts = st.alerts := by
  by_cases hm : mounted "/api" req.path = true
  · have hfl : flagged st now req.ip = true := by simp [flagged, hblk]
    rw [handle_flagged hm hfl]
    exact ⟨Or.inl rfl, rfl, rfl⟩
  · have hg : gates st now req = (.rateLimiter, rateLimiter st now req) :=
      gates_of_not_mounted (by simpa using hm)
    rw [rateLimiter_blocked hex hblk] at hg
    simp [handle, hg, logged]

theorem run_counted (ip : String) (e : Nat) :
    ∀ (evs : List Event) (st : State) (n : Int),
      st.redis.raw (rateKey ip) = some { val := .int n, expiresAt := some e } →
      1 ≤ n → n + evs.length ≤ 100 →
      (∀ ev ∈ evs, ev.2.ip = ip ∧ rateExempt ev.2.path = false ∧ Quiet ev.2 ∧ ev.1 < e ∧
        st.redis.find ev.1 (bannedKey ip) = none ∧ st.redis.find ev.1 (blockedKey ip) = none) →
      (∀ rep ∈ (run st evs).2, ∃ route, rep.stage = .handler route) ∧
      (run st evs).1.redis.raw (rateKey ip)
        = some { val := .int (n + evs.length), expiresAt := some e } ∧
      (run st evs).1.redis.raw (bannedKey ip) = st.redis.raw (bannedKey ip) ∧
      (run st evs).1.redis.raw (blockedKey ip) = st.redis.raw (blockedKey ip) := by
  intro evs
  induction evs with
  | nil => intro st n h _ _ _; simp [run, h]
  | cons ev rest ih =>
    intro st n h h1 hle hall
    obtain ⟨now, req⟩ := ev
    obtain ⟨hip, hex, hq, hlt, hban, hblk⟩ := hall (now, req) (List.mem_cons_self _ _)
    simp only at hip hex hq hlt hban hblk
    simp only [List.length_cons, Nat.cast_add, Nat.cast_one] at hle
    subst hip
    have hfind := Store.find_of_raw_live h hlt
    obtain ⟨s1, s2, s3, s4⟩ := handle_quiet_count hex hq hban hblk hfind h1 (by omega)
    obtain ⟨i1, i2, i3, i4⟩ := ih (handle st now req).1 (n + 1) s2 (by omega) (by omega)
      (fun ev' hmem => by
        obtain ⟨a, b, c, d, f, g⟩ := hall ev' (List.mem_cons_of_mem _ hmem)
        exact ⟨a, b, c, d, by rw [Store.find_congr _ s3]; exact f,
          by rw [Store.find_congr _ s4]; exact g⟩)
    refine ⟨?_, ?_, ?_, ?_⟩
    · intro rep hrep
      simp only [run, List.mem_cons] at hrep
      rcases hrep with hrep | hrep
      · exact ⟨routeOf req, by rw [hrep]; exact s1⟩
      · exact i1 rep hrep
    · simp only [run, List.length_cons, Nat.cast_add, Nat.cast_one]
      rw [i2]
      congr 3
      ring
    · simp only [run]; rw [i3, s3]
    · simp only [run]; rw [i4, s4]

theorem run_blocked (ip : String) (e : Nat) :
    ∀ (evs : List Event) (st : State),
      st.redis.raw (blockedKey ip) = some { val := .flag, expiresAt := some e } →
      (∀ ev ∈ evs, ev.2.ip = ip ∧ rateExempt ev.2.path = false ∧ ev.1 < e) →
      (∀ rep ∈ (run st evs).2,
        rep = { stage := .checkBan, resp := some forbiddenResponse } ∨
        rep = { stage := .rateLimiter, resp := some blockedByTrafficResponse }) ∧
      (run st evs).1.redis = st.redis ∧ (run st evs).1.alerts = st.alerts := by
  intro evs
  induction evs with
  | nil => intro st _ _; simp [run]
  | cons ev rest ih =>
    intro st h hall
    obtain ⟨now, req⟩ := ev
    obtain ⟨hip, hex, hlt⟩ := hall (now, req) (List.mem_cons_self _ _)
    simp only at hip hex hlt
    subst hip
    have hfind : (st.redis.find now (blockedKey req.ip)).isSome = true := by
      rw [Store.find_of_raw_live h hlt]; rfl
    obtain ⟨s1, s2, s3⟩ := handle_blocked hex hfind
    obtain ⟨i1, i2, i3⟩ := ih (handle st now req).1 (by rw [s2]; exact h)
      (fun ev' hmem => hall ev' (List.mem_cons_of_mem _ hmem))
    refine ⟨?_, ?_, ?_⟩
    · intro rep hrep
      simp only [run, List.mem_cons] at hrep
      rcases hrep with hrep | hrep
      · rw [hrep]; exact s1
      · exact i1 rep hrep
    · simp only [run]; rw [i2, s2]
    · simp only [run]; rw [i3, s3]

/-- C1, counterexample. A fresh address sends 102 commit requests within 11 seconds to the
counted route `POST /api/transaction`. The handler of the first request bans the address, so
every later request, the 101st included, is answered 403 by the ban gate: requests 2..100 are
not let through the rate limiter, no request is answered 429 and the only alert is the flow
violation of the first request. -/
theorem rate_limit_claim_fails_on_commit_route :
    rateExempt "/api/transaction" = false ∧
    (run State.empty floodTransactions).2 =
      { stage := .handler .transaction, resp := some flowViolationResponse } ::
        List.replicate 101 { stage := .checkBan, resp := some forbiddenResponse } ∧
    (run State.empty floodTransactions).1.alerts = [flowAlert "10.0.0.9" 0] := by
  decide

/-- C1, amended. An address with no live ban, block or rate counter sends requests to counted
paths, all within 60 s of the first, and the handlers of the first 100 requests leave the
ban, block and rate keys of the address alone. Then each of the first 100 requests passes
both gates and reaches its route handler; the 101st is answered 429 "Too Many Requests" by
the rate limiter, which sets the blocked key with a 60-second expiry and appends exactly one
"Rate Limit Exceeded"/"High" alert; and every further request made before that expiry is
answered 403 by the ban gate or the rate limiter, changing neither the store nor the
alerts. -/
theorem rate_limiter_sequence (st : State) (ip : String) (t1 t101 : Nat) (r1 r101 : Request)
    (rest later : List Event) (hlen : rest.length = 99)
    (hfresh : st.redis.find t1 (bannedKey ip) = none ∧ st.redis.find t1 (blockedKey ip) = none ∧
      st.redis.find t1 (rateKey ip) = none)
    (h1 : r1.ip = ip ∧ rateExempt r1.path = false ∧ Quiet r1)
    (hrest : ∀ ev ∈ rest, ev.2.ip = ip ∧ rateExempt ev.2.path = false ∧ Quiet ev.2 ∧
      t1 ≤ ev.1 ∧ ev.1 < t1 + 60 * 1000)
    (h101 : r101.ip = ip ∧ rateExempt r101.path = false ∧ t1 ≤ t101 ∧ t101 < t1 + 60 * 1000)
    (hlater : ∀ ev ∈ later, ev.2.ip = ip ∧ rateExempt ev.2.path = false ∧
      ev.1 < t101 + 60 * 1000) :
    (∀ rep ∈ (run st ((t1, r1) :: rest)).2, ∃ route, rep.stage = .handler route) ∧
    (handle (runState st ((t1, r1) :: rest)) t101 r101).2
      = { stage := .rateLimiter, resp := some tooManyRequestsResponse } ∧
    (handle (runState st ((t1, r1) :: rest)) t101 r101).1.alerts
      = (runState st ((t1, r1) :: rest)).alerts ++ [rateAlert ip t101] ∧
    (handle (runState st ((t1, r1) :: rest)) t101 r101).1.redis.raw (blockedKey ip)
      = some { val := .flag, expiresAt := some (t101 + 60 * 1000) } ∧
    (∀ rep ∈ (run (handle (runState st ((t1, r1) :: rest)) t101 r101).1 later).2,
      rep = { stage := .checkBan, resp := some forbiddenResponse } ∨
      rep = { stage := .rateLimiter, resp := some blockedByTrafficResponse }) ∧
    forbiddenResponse.status = 403 ∧ blockedByTrafficResponse.status = 403 ∧
    (runState (handle (runState st ((t1, r1) :: rest)) t101 r101).1 later).redis
      = (handle (runState st ((t1, r1) :: rest)) t101 r101).1.redis ∧
    (runState (handle (runState st ((t1, r1) :: rest)) t101 r101).1 later).alerts
      = (handle (runState st ((t1, r1) :: rest)) t101 r101).1.alerts := by
  obtain ⟨hban, hblk, hrate⟩ := hfresh
  obtain ⟨hip1, hex1, hq1⟩ := h1
  obtain ⟨hip101, hex101, hle101, hlt101⟩ := h101
  subst hip1
  obtain ⟨s1, s2, s3, s4⟩ := handle_quiet_first hex1 hq1 hban hblk hrate
  have hbanT : ∀ t, t1 ≤ t → ∀ s : State, s.redis.raw (bannedKey r1.ip)
      = st.redis.raw (bannedKey r1.ip) → s.redis.find t (bannedKey r1.ip) = none := by
    intro t ht s hs
    rw [Store.find_congr t hs]; exact Store.find_none_mono ht hban
  have hblkT : ∀ t, t1 ≤ t → ∀ s : State, s.redis.raw (blockedKey r1.ip)
      = st.redis.raw (blockedKey r1.ip) → s.redis.find t (blockedKey r1.ip) = none := by
    intro t ht s hs
    rw [Store.find_congr t hs]; exact Store.find_none_mono ht hblk
  obtain ⟨i1, i2, i3, i4⟩ := run_counted r1.ip (t1 + 60 * 1000) rest (handle st t1 r1).1 1 s2
    (by omega) (by rw [hlen]; norm_num)
    (fun ev hmem => by
      obtain ⟨a, b, c, d, f⟩ := hrest ev hmem
      exact ⟨a, b, c, f, hbanT _ d _ s3, hblkT _ d _ s4⟩)
  have hrun : runState st ((t1, r1) :: rest) = (run (handle st t1 r1).1 rest).1 := rfl
  have h100 : (runState st ((t1, r1) :: rest)).redis.raw (rateKey r1.ip)
      = some { val := .int 100, expiresAt := some (t1 + 60 * 1000) } := by
    rw [hrun, i2, hlen]; norm_num
  have hban100 := hbanT t101 hle101 (runState st ((t1, r1) :: rest))
    (by rw [hrun, i3, s3])
  have hblk100 := hblkT t101 hle101 (runState st ((t1, r1) :: rest))
    (by rw [hrun, i4, s4])
  rw [← hip101] at hban100 hblk100 h100
  obtain ⟨o1, o2, o3⟩ := handle_overflow hex101 hban100 hblk100
    (Store.find_of_raw_live h100 hlt101)
  rw [hip101] at o2 o3
  obtain ⟨b1, b2, b3⟩ := run_blocked r1.ip (t101 + 60 * 1000) later
    (handle (runState st ((t1, r1) :: rest)) t101 r101).1 o3 hlater
  refine ⟨?_, o1, o2, o3, b1, rfl, rfl, b2, b3⟩
  intro rep hrep
  simp only [run, List.mem_cons] at hrep
  rcases hrep with hrep | hrep
  · exact ⟨routeOf r1, by rw [hrep]; exact s1⟩
  · exact i1 rep hrep

theorem balanceFlood_spec :
    ∀ ev ∈ balanceFlood, ev.2.ip = "10.0.0.9" ∧ rateExempt ev.2.path = false ∧ Quiet ev.2 ∧
      0 ≤ ev.1 ∧ ev.1 < 0 + 60 * 1000 := by
  intro ev hev
  simp only [balanceFlood, List.mem_map, List.mem_range] at hev
  obtain ⟨i, hi, rfl⟩ := hev
  have hex : rateExempt (mkReq "10.0.0.9" .GET "/api/balance").path = false := by decide
  have hroute : routeOf (mkReq "10.0.0.9" .GET "/api/balance") = .balance := by decide
  refine ⟨rfl, hex, quiet_balance hroute, Nat.zero_le _, ?_⟩
  simp only
  omega

/-- C1, witness: 100 checkpoint requests within 10 s, then the 101st. -/
theorem rate_limiter_sequence_witness :
    (handle (runState State.empty ((0, mkReq "10.0.0.9" .GET "/api/balance") :: balanceFlood))
        10000 (mkReq "10.0.0.9" .GET "/api/balance")).2
      = { stage := .rateLimiter, resp := some tooManyRequestsResponse } :=
  (rate_limiter_sequence State.empty "10.0.0.9" 0 10000 (mkReq "10.0.0.9" .GET "/api/balance")
      (mkReq "10.0.0.9" .GET "/api/balance") balanceFlood
      [(10100, mkReq "10.0.0.9" .GET "/api/balance")] (by decide)
      ⟨by decide, by decide, by decide⟩ ⟨rfl, by decide, quiet_balance (by decide)⟩
      balanceFlood_spec ⟨rfl, by decide, by decide, by decide⟩ (by decide)).2.1

/-! ### The checkpoint window -/

theorem dispatch_session (st : State) (now : Nat) (req : Request) (ip : String) :
    (dispatch st now req).1.redis.raw (sessionKey ip) =
      match routeOf req with
      | .balance => if req.ip = ip then some (checkpointEntry now) else st.redis.raw (sessionKey ip)
      | .resetRedis => none
      | .unbanIp =>
        if req.unbanTarget = some ip then none else st.redis.raw (sessionKey ip)
      | _ => st.redis.raw (sessionKey ip) := by
  unfold dispatch
  cases hroute : routeOf req with
  | resetRedis => simp [resetRedisHandler, Store.flushDb, Store.raw]
  | stats => rfl
  | bannedIps => rfl
  | unbanIp =>
    simp only
    cases hb : req.unbanTarget with
    | none => simp [unbanIpHandler_no_target hb]
    | some ip' =>
      rw [unbanIpHandler_raw st req ip' hb]
      by_cases hip : ip' = ip
      · subst hip; simp [keysOf]
      · have hnot : sessionKey ip ∉ keysOf ip' :=
          keysOf_disjoint (Ne.symm hip) (by simp [keysOf])
        simp [hnot, hip]
  | login =>
    simp only
    exact loginHandler_frame st now req (fail_ne_session _ _) (blocked_ne_session _ _)
  | balance =>
    simp only [balanceHandler, Store.raw_set, sessionKey_inj, checkpointEntry]
  | transaction =>
    simp only [transactionHandler]
    split <;> simp [Store.raw_set, banned_ne_session]
  | unrouted => rfl

theorem handle_session (st : State) (now : Nat) (req : Request) (ip : String) (prev : Option Nat)
    (h : st.redis.raw (sessionKey ip) = prev.map checkpointEntry) :
    (handle st now req).1.redis.raw (sessionKey ip)
      = (checkpointAfter ip prev now req (handle st now req).2).map checkpointEntry := by
  have hg : (gates st now req).2.state.redis.raw (sessionKey ip) = st.redis.raw (sessionKey ip) :=
    gates_frame st now req (rate_ne_session _ _) (blocked_ne_session _ _)
  have hstage : (gates st now req).1 = .checkBan ∨ (gates st now req).1 = .rateLimiter := by
    unfold gates
    split <;> simp
  rw [handle_redis, handle_reply]
  cases hgt : gates st now req with
  | mk stg step =>
    rw [hgt] at hg hstage
    simp only at hstage
    cases step with
    | respond s1 r =>
      simp only [Step.state] at hg
      rcases hstage with hs | hs <;> subst hs <;> simp [checkpointAfter, hg, h]
    | rejected s1 =>
      simp only [Step.state] at hg
      rcases hstage with hs | hs <;> subst hs <;> simp [checkpointAfter, hg, h]
    | next s1 =>
      simp only [Step.state] at hg
      simp only [checkpointAfter]
      rw [dispatch_session, hg, h]
      cases hroute : routeOf req <;> simp <;> split <;> simp_all

theorem run_session (ip : String) :
    ∀ (evs : List Event) (st : State) (prev : Option Nat),
      st.redis.raw (sessionKey ip) = prev.map checkpointEntry →
      (run st evs).1.redis.raw (sessionKey ip)
        = (lastCheckpoint ip st evs prev).map checkpointEntry := by
  intro evs
  induction evs with
  | nil => intro st prev h; simpa [run, lastCheckpoint] using h
  | cons ev rest ih =>
    intro st prev h
    obtain ⟨now, req⟩ := ev
    simp only [run, lastCheckpoint]
    exact ih _ _ (handle_session st now req ip prev h)

theorem gates_pass {st : State} {now : Nat} {req : Request}
    (h : (gates st now req).2.reply = none) :
    ∃ st1, gates st now req = (.rateLimiter, .next st1) ∧ rateLimiter st now req = .next st1 := by
  unfold gates at h ⊢
  split at h
  · simp [Step.reply] at h
  · simp [Step.reply] at h
  · rename_i st1 heq
    have hst : st1 = st := by
      split at heq
      · rw [checkBan_eq] at heq
        split at heq <;> simp at heq
        exact heq.symm
      · simp at heq; exact heq.symm
    subst hst
    simp only at h
    cases hr : rateLimiter st1 now req with
    | next s2 => exact ⟨s2, rfl, rfl⟩
    | respond s2 r => rw [hr] at h; simp [Step.reply] at h
    | rejected s2 => rw [hr] at h; simp [Step.reply] at h

/-- C4. Checkpoint validity window. Over any run of requests from a state without a
checkpoint key for `ip`, a commit of `ip` at time `t` that passes the ban gate and the rate
limiter succeeds if and only if the latest checkpoint of `ip` not cleared since (by an unban
or a flush) was made at a time `tc` with `t < tc + 300 s`. A successful commit raises no
alert, sets no ban and leaves the checkpoint key in place. Any other commit, whether the
checkpoint is more than 300 s old or was never made, is answered with the flow violation:
one Critical alert and the banned key with a 3600-second expiry. -/
theorem checkpoint_validity_window (st0 : State) (evs : List Event) (ip : String) (t : Nat)
    (req : Request) (h0 : st0.redis.raw (sessionKey ip) = none) (hip : req.ip = ip)
    (hroute : routeOf req = .transaction)
    (hpass : (gates (runState st0 evs) t req).2.reply = none) :
    ((handle (runState st0 evs) t req).2
        = { stage := .handler .transaction, resp := some transactionOkResponse } ↔
      ∃ tc, lastCheckpoint ip st0 evs none = some tc ∧ t < tc + 300 * 1000) ∧
    ((∃ tc, lastCheckpoint ip st0 evs none = some tc ∧ t < tc + 300 * 1000) →
      (handle (runState st0 evs) t req).1.alerts = (runState st0 evs).alerts ∧
      (handle (runState st0 evs) t req).1.redis.raw (bannedKey ip)
        = (runState st0 evs).redis.raw (bannedKey ip) ∧
      (handle (runState st0 evs) t req).1.redis.raw (sessionKey ip)
        = (runState st0 evs).redis.raw (sessionKey ip)) ∧
    ((¬ ∃ tc, lastCheckpoint ip st0 evs none = some tc ∧ t < tc + 300 * 1000) →
      (handle (runState st0 evs) t req).2
        = { stage := .handler .transaction, resp := some flowViolationResponse } ∧
      (handle (runState st0 evs) t req).1.alerts
        = (runState st0 evs).alerts ++ [flowAlert ip t] ∧
      (handle (runState st0 evs) t req).1.redis.raw (bannedKey ip)
        = some { val := .flag, expiresAt := some (t + 3600 * 1000) }) := by
  subst hip
  obtain ⟨st1, hg, hrl⟩ := gates_pass hpass
  obtain ⟨g1, g2, g3⟩ := handle_of_next hg
  have hd : dispatch st1 t req = transactionHandler st1 t req := by simp [dispatch, hroute]
  have hsess : (runState st0 evs).redis.raw (sessionKey req.ip)
      = (lastCheckpoint req.ip st0 evs none).map checkpointEntry :=
    run_session req.ip evs st0 none (by simpa using h0)
  have hfr : ∀ k, rateKey req.ip ≠ k → blockedKey req.ip ≠ k →
      st1.redis.raw k = (runState st0 evs).redis.raw k := by
    intro k h1 h2
    have := rateLimiter_frame (runState st0 evs) t req h1 h2
    rw [hrl] at this
    exact this
  have hs1 : st1.redis.raw (sessionKey req.ip)
      = (lastCheckpoint req.ip st0 evs none).map checkpointEntry := by
    rw [hfr _ (rate_ne_session _ _) (blocked_ne_session _ _), hsess]
  have hal : st1.alerts = (runState st0 evs).alerts := (rateLimiter_next hrl).1
  rw [g1, g2, g3, hd, hroute]
  by_cases hex : ∃ tc, lastCheckpoint req.ip st0 evs none = some tc ∧ t < tc + 300 * 1000
  · obtain ⟨tc, htc, hlt⟩ := hex
    have hfind : st1.redis.find t (sessionKey req.ip) = some (checkpointEntry tc) := by
      rw [htc] at hs1
      exact Store.find_of_raw_live hs1 hlt
    rw [transactionHandler_ok hfind]
    refine ⟨⟨fun _ => ⟨tc, htc, hlt⟩, fun _ => rfl⟩, fun _ => ⟨hal, ?_, ?_⟩, ?_⟩
    · exact hfr _ (rate_ne_banned _ _) (blocked_ne_banned _ _)
    · exact hfr _ (rate_ne_session _ _) (blocked_ne_session _ _)
    · intro hno; exact absurd ⟨tc, htc, hlt⟩ hno
  · have hfind : st1.redis.find t (sessionKey req.ip) = none := by
      cases hl : lastCheckpoint req.ip st0 evs none with
      | none =>
        rw [hl] at hs1
        exact Store.find_of_raw_none t hs1
      | some tc =>
        rw [hl] at hs1
        have hge : tc + 300 * 1000 ≤ t := by
          by_contra hcon
          exact hex ⟨tc, hl, by omega⟩
        exact Store.find_of_raw_dead hs1 hge
    rw [transactionHandler_violation hfind]
    refine ⟨⟨fun h => ?_, fun h => absurd h hex⟩, fun h => absurd h hex, fun _ => ⟨rfl, ?_, ?_⟩⟩
    · simp [flowViolationResponse, transactionOkResponse] at h
    · simp [hal]
    · simp [Store.raw_set]

/-- C4, witness: a checkpoint at 0 ms, then a commit just inside and one just outside the
300-second window. -/
theorem checkpoint_validity_window_witness :
    (handle (runState State.empty [(0, mkReq "10.0.0.9" .GET "/api/balance")]) 299999
        (mkReq "10.0.0.9" .POST "/api/transaction")).2
      = { stage := .handler .transaction, resp := some transactionOkResponse } ∧
    (handle (runState State.empty [(0, mkReq "10.0.0.9" .GET "/api/balance")]) 300001
        (mkReq "10.0.0.9" .POST "/api/transaction")).2
      = { stage := .handler .transaction, resp := some flowViolationResponse } :=
  ⟨((checkpoint_validity_window State.empty [(0, mkReq "10.0.0.9" .GET "/api/balance")]
      "10.0.0.9" 299999 (mkReq "10.0.0.9" .POST "/api/transaction") (by decide) rfl
      (by decide) (by decide)).1).2 ⟨0, by decide, by decide⟩,
   ((checkpoint_validity_window State.empty [(0, mkReq "10.0.0.9" .GET "/api/balance")]
      "10.0.0.9" 300001 (mkReq "10.0.0.9" .POST "/api/transaction") (by decide) rfl
      (by decide) (by decide)).2.2 (by decide)).1⟩

/-! ### Fixed windows -/

theorem Store.raw_incr_live {s s' : Store} {now : Nat} {k : String} {c n : Int}
    {exp : Option Nat}
    (hf : s.find now k = some { val := .int n, expiresAt := exp })
    (h : s.incr now k = some (s', c)) :
    c = n + 1 ∧ s'.raw k = some { val := .int (n + 1), expiresAt := exp } := by
  unfold Store.incr at h
  rw [hf] at h
  simp only at h
  split at h
  · cases h
  · simp only [Option.some.injEq, Prod.mk.injEq] at h
    exact ⟨h.2.symm, by rw [← h.1]; simp [Store.raw_put]⟩

theorem Store.raw_of_find {s : Store} {now : Nat} {k : String} {e : Entry}
    (h : s.find now k = some e) : s.raw k = some e := by
  unfold Store.find at h
  cases hr : s.raw k with
  | none => rw [hr] at h; cases h
  | some e' =>
    rw [hr] at h
    simp only at h
    split at h
    · simpa using h
    · cases h

/-- The rate limiter leaves a live counter of the requesting address as it is or increments
it, keeping its expiry. -/
theorem rateLimiter_rate_raw {st : State} {now : Nat} {req : Request} {n : Int}
    {exp : Option Nat}
    (hf : st.redis.find now (rateKey req.ip) = some { val := .int n, expiresAt := exp })
    (hn : 1 ≤ n) :
    (rateLimiter st now req).state.redis.raw (rateKey req.ip)
        = some { val := .int n, expiresAt := exp } ∨
    (rateLimiter st now req).state.redis.raw (rateKey req.ip)
        = some { val := .int (n + 1), expiresAt := exp } := by
  have hraw := Store.raw_of_find hf
  unfold rateLimiter
  split
  · left; exact hraw
  · simp only
    split
    · left; exact hraw
    · cases hincr : st.redis.incr now (rateKey req.ip) with
      | none => left; exact hraw
      | some p =>
        obtain ⟨r1, c⟩ := p
        obtain ⟨hc, hr1⟩ := Store.raw_incr_live hf hincr
        have hne : ¬ (c = 1) := by omega
        right
        simp only [hne, if_false]
        split
        · split
          · simp [Step.state, Store.raw_set, blocked_ne_rate, hr1]
          · simp [Step.state, hr1]
        · simp [Step.state, hr1]

/-- No route handler writes a rate counter: it stays or is deleted. -/
theorem dispatch_rate_raw (st : State) (now : Nat) (req : Request) (ip : String) :
    (dispatch st now req).1.redis.raw (rateKey ip) = st.redis.raw (rateKey ip) ∨
    (dispatch st now req).1.redis.raw (rateKey ip) = none := by
  unfold dispatch
  cases hroute : routeOf req with
  | resetRedis => right; simp [resetRedisHandler, Store.flushDb, Store.raw]
  | stats => left; rfl
  | bannedIps => left; rfl
  | unbanIp =>
    simp only
    cases hb : req.unbanTarget with
    | none => left; rw [unbanIpHandler_no_target hb]
    | some ip' =>
      rw [unbanIpHandler_raw st req ip' hb]
      by_cases hk : rateKey ip ∈ keysOf ip'
      · right; simp [hk]
      · left; simp [hk]
  | login =>
    left
    exact loginHandler_frame st now req (fail_ne_rate _ _) (blocked_ne_rate _ _)
  | balance => left; simp [balanceHandler, Store.raw_set, session_ne_rate]
  | transaction =>
    left
    simp only [transactionHandler]
    split <;> simp [Store.raw_set, banned_ne_rate]
  | unrouted => left; rfl

/-- The login handler leaves a live failure counter of the requesting address as it is,
deletes it, or increments it keeping its expiry. -/
theorem loginHandler_fail_raw {st : State} {now : Nat} {req : Request} {n : Int}
    {exp : Option Nat}
    (hf : st.redis.find now (failKey req.ip) = some { val := .int n, expiresAt := exp })
    (hn : 1 ≤ n) :
    (loginHandler st now req).1.redis.raw (failKey req.ip) = none ∨
    (loginHandler st now req).1.redis.raw (failKey req.ip)
        = some { val := .int n, expiresAt := exp } ∨
    (loginHandler st now req).1.redis.raw (failKey req.ip)
        = some { val := .int (n + 1), expiresAt := exp } := by
  have hraw := Store.raw_of_find hf
  unfold loginHandler
  simp only
  split
  · right; left; simp [Store.raw_set, blocked_ne_fail, hraw]
  · cases req.body with
    | none => right; left; exact hraw
    | some b =>
      simp only
      split
      · left; simp [Store.raw_del, blocked_ne_fail]
      · cases hincr : st.redis.incr now (failKey req.ip) with
        | none => right; left; exact hraw
        | some p =>
          obtain ⟨r1, c⟩ := p
          obtain ⟨hc, hr1⟩ := Store.raw_incr_live hf hincr
          have hne : ¬ (c = 1) := by omega
          right; right
          simp [hne, hr1]

/-- A route handler leaves the failure counter of an address as it is or deletes it, unless
it is the login handler serving that address. -/
theorem dispatch_fail_raw (st : State) (now : Nat) (req : Request) (ip : String)
    (h : routeOf req = .login → req.ip ≠ ip) :
    (dispatch st now req).1.redis.raw (failKey ip) = st.redis.raw (failKey ip) ∨
    (dispatch st now req).1.redis.raw (failKey ip) = none := by
  unfold dispatch
  cases hroute : routeOf req with
  | resetRedis => right; simp [resetRedisHandler, Store.flushDb, Store.raw]
  | stats => left; rfl
  | bannedIps => left; rfl
  | unbanIp =>
    simp only
    cases hb : req.unbanTarget with
    | none => left; rw [unbanIpHandler_no_target hb]
    | some ip' =>
      · rw [unbanIpHandler_raw st req ip' hb]
        by_cases hk : failKey ip ∈ keysOf ip'
        · right; simp [hk]
        · left; simp [hk]
  | login =>
    left
    have hne := h hroute
    exact loginHandler_frame st now req (by simpa [failKey_inj] using hne) (blocked_ne_fail _ _)
  | balance => left; simp [balanceHandler, Store.raw_set, session_ne_fail]
  | transaction =>
    left
    simp only [transactionHandler]
    split <;> simp [Store.raw_set, banned_ne_fail]
  | unrouted => left; rfl

theorem handle_redis_cases (st : State) (now : Nat) (req : Request) :
    (handle st now req).1.redis = (gates st now req).2.state.redis ∨
    (handle st now req).1.redis = (dispatch (gates st now req).2.state now req).1.redis := by
  rw [handle_redis]
  cases (gates st now req).2 with
  | next s1 => right; rfl
  | respond s1 r => left; rfl
  | rejected s1 => left; rfl

/-- C11. Fixed-window TTL invariant. For any request and any address: a live rate counter
(value at least 1) is, after the request, either deleted or still stored with the same expiry,
its value kept or incremented by one; the same holds for a live `login_failures` counter. The
expiry is set when the increment creates the counter at 1: to 60 s ahead by the rate limiter,
to 600 s ahead by the login handler. -/
theorem fixed_window_ttl (st : State) (now : Nat) (req : Request) (ip : String) (n : Int)
    (exp : Option Nat) (hn : 1 ≤ n) :
    (st.redis.find now (rateKey ip) = some { val := .int n, expiresAt := exp } →
      (handle st now req).1.redis.raw (rateKey ip) = none ∨
      (handle st now req).1.redis.raw (rateKey ip) = some { val := .int n, expiresAt := exp } ∨
      (handle st now req).1.redis.raw (rateKey ip)
        = some { val := .int (n + 1), expiresAt := exp }) ∧
    (st.redis.find now (failKey ip) = some { val := .int n, expiresAt := exp } →
      (handle st now req).1.redis.raw (failKey ip) = none ∨
      (handle st now req).1.redis.raw (failKey ip) = some { val := .int n, expiresAt := exp } ∨
      (handle st now req).1.redis.raw (failKey ip)
        = some { val := .int (n + 1), expiresAt := exp }) ∧
    (rateExempt req.path = false → st.redis.find now (blockedKey req.ip) = none →
      st.redis.find now (rateKey req.ip) = none →
      (rateLimiter st now req).state.redis.raw (rateKey req.ip)
        = some { val := .int 1, expiresAt := some (now + 60 * 1000) }) ∧
    (wrongLogin req = true → st.redis.find now (failKey req.ip) = none →
      (loginHandler st now req).1.redis.raw (failKey req.ip)
        = some { val := .int 1, expiresAt := some (now + 600 * 1000) }) := by
  refine ⟨?_, ?_, ?_, ?_⟩
  · intro hf
    have hraw := Store.raw_of_find hf
    have hgate : (gates st now req).2.state.redis.raw (rateKey ip)
          = some { val := .int n, expiresAt := exp } ∨
        (gates st now req).2.state.redis.raw (rateKey ip)
          = some { val := .int (n + 1), expiresAt := exp } := by
      by_cases hip : req.ip = ip
      · subst hip
        rcases gates_state st now req with h | h
        · rw [h]; exact rateLimiter_rate_raw hf hn
        · rw [h]; exact Or.inl hraw
      · left
        rw [gates_frame st now req (by simpa [rateKey_inj] using hip) (blocked_ne_rate _ _)]
        exact hraw
    rcases handle_redis_cases st now req with h | h
    · rw [h]; exact Or.inr hgate
    · rw [h]
      rcases dispatch_rate_raw (gates st now req).2.state now req ip with hd | hd
      · rw [hd]; exact Or.inr hgate
      · exact Or.inl hd
  · intro hf
    have hraw := Store.raw_of_find hf
    have hgate : (gates st now req).2.state.redis.raw (failKey ip) = st.redis.raw (failKey ip) :=
      gates_frame st now req (rate_ne_fail _ _) (blocked_ne_fail _ _)
    rcases handle_redis_cases st now req with h | h
    · rw [h, hgate]; exact Or.inr (Or.inl hraw)
    · rw [h]
      by_cases hlogin : routeOf req = .login ∧ req.ip = ip
      · obtain ⟨hroute, hip⟩ := hlogin
        subst hip
        have hd : dispatch (gates st now req).2.state now req
            = loginHandler (gates st now req).2.state now req := by
          simp [dispatch, hroute]
        rw [hd]
        apply loginHandler_fail_raw _ hn
        rw [Store.find_congr now hgate]; exact hf
      · rcases dispatch_fail_raw (gates st now req).2.state now req ip
            (fun hr hip => hlogin ⟨hr, hip⟩) with hd | hd
        · rw [hd, hgate]; exact Or.inr (Or.inl hraw)
        · exact Or.inl hd
  · intro hex hblk hrate
    rw [rateLimiter_first hex hblk hrate]
    simp [Step.state, Store.raw_put]
  · intro hbad hfail
    rw [loginHandler_fail_first hfail hbad]
    simp [Store.raw_put, failEntry]

/-- C11, witness: a counted request of an address whose rate counter stands at 7. -/
theorem fixed_window_ttl_witness :
    (handle countingState 1000 (mkReq "10.0.0.9" .GET "/api/balance")).1.redis.raw
        (rateKey "10.0.0.9") = none ∨
    (handle countingState 1000 (mkReq "10.0.0.9" .GET "/api/balance")).1.redis.raw
        (rateKey "10.0.0.9") = some { val := .int 7, expiresAt := some 60000 } ∨
    (handle countingState 1000 (mkReq "10.0.0.9" .GET "/api/balance")).1.redis.raw
        (rateKey "10.0.0.9") = some { val := .int (7 + 1), expiresAt := some 60000 } :=
  (fixed_window_ttl countingState 1000 (mkReq "10.0.0.9" .GET "/api/balance") "10.0.0.9" 7
    (some 60000) (by decide)).1 (by decide)

/-! ### Malformed input -/

/-- The unban handler validates its field: a body whose `ip` is absent, the empty string or
another falsy value is answered 400 with the state untouched (line 174). -/
theorem unban_requires_ip (st : State) (req : Request) (b : ReqBody)
    (hb : req.body = some b)
    (hip : b.ip = .undefined ∨ b.ip = .str "" ∨ ∃ v, b.ip = .other v ∧ v.truthy = false) :
    unbanIpHandler st req = (st, ipRequiredResponse) := by
  rcases hip with h | h | ⟨v, h, hv⟩
  · simp [unbanIpHandler, hb, h, ipRequiredResponse]
  · simp [unbanIpHandler, hb, h, ipRequiredResponse]
  · simp [unbanIpHandler, hb, h, hv, ipRequiredResponse]

/-- The login handler has no such check: a body in which `username` or `password` is absent
is a wrong login like any other. With no live counter it is answered "Attempt 1/5" and creates
the counter; with a live counter `n` below 5 it is answered "Attempt n+1/5" and increments
it. -/
theorem login_has_no_validation (st : State) (now : Nat) (req : Request) (b : ReqBody)
    (hb : req.body = some b) (h : b.username = .undefined ∨ b.password = .undefined) :
    wrongLogin req = true ∧
    (st.redis.find now (failKey req.ip) = none →
      (loginHandler st now req).2 = attemptResponse 1 ∧
      (loginHandler st now req).1.redis.raw (failKey req.ip)
        = some { val := .int 1, expiresAt := some (now + 600 * 1000) }) ∧
    (∀ n exp, st.redis.find now (failKey req.ip) = some { val := .int n, expiresAt := exp } →
      1 ≤ n → n < 5 →
      (loginHandler st now req).2 = attemptResponse (n + 1) ∧
      (loginHandler st now req).1.redis.raw (failKey req.ip)
        = some { val := .int (n + 1), expiresAt := exp }) := by
  have hbad : wrongLogin req = true := by
    rcases h with h | h <;> simp [wrongLogin, hb, credentialsOk, JsVal.isStr, h]
  refine ⟨hbad, ?_, ?_⟩
  · intro hf
    rw [loginHandler_fail_first hf hbad]
    exact ⟨rfl, by simp [Store.raw_put, failEntry]⟩
  · intro n exp hf h1 h5
    rw [loginHandler_fail_count hf h1 h5 hbad]
    exact ⟨rfl, by simp [Store.raw_put]⟩

/-- C12, evaluation at the failing input. A login request whose body is the empty object (no
`username`, no `password`), sent by a fresh address to the empty server, is not rejected
before the store is touched: the handler reads the `login_failures` counter, creates it at 1
with a 600-second expiry and answers 401 "Attempt 1/5" as for a wrong password; five such
requests exhaust the attempts and the sixth gets the address blocked. The unban handler
answers the same empty body with 400 and leaves the state as it was. -/
theorem login_without_credentials_is_counted :
    (mkReq "10.0.0.9" .POST "/api/login").body = some emptyBody ∧
    State.empty.redis.raw (failKey "10.0.0.9") = none ∧
    (handle State.empty 0 (mkReq "10.0.0.9" .POST "/api/login")).2 =
      { stage := .handler .login,
        resp := some { status := 401, body := errorBody "Invalid credentials. Attempt 1/5" } } ∧
    (handle State.empty 0 (mkReq "10.0.0.9" .POST "/api/login")).1.redis.raw
        (failKey "10.0.0.9") = some { val := .int 1, expiresAt := some 600000 } ∧
    (run State.empty emptyLogins).2.map (fun rep => rep.resp.map Response.status)
      = [some 401, some 401, some 401, some 401, some 401, some 429] ∧
    ((run State.empty emptyLogins).1.redis.find 6000 (blockedKey "10.0.0.9")).isSome = true ∧
    unbanIpHandler busyState (mkReq "10.0.0.1" .POST "/dashboard/unban-ip")
      = (busyState, ipRequiredResponse) :=
  ⟨rfl, by decide, by decide, by decide, by decide, by decide,
   unban_requires_ip busyState (mkReq "10.0.0.1" .POST "/dashboard/unban-ip") emptyBody rfl
     (Or.inl rfl)⟩

/-! ### Store failures -/

theorem tryCatch_ok {body : StoreM Response} {onError : String → Response} {flt : Faults}
    {i i' : Nat} {st st' : State} {r : Response} (h : body flt i st = .ok r i' st') :
    tryCatch body onError flt i st = .ok r i' st' := by
  simp [tryCatch, h]

theorem tryCatch_failed {body : StoreM Response} {onError : String → Response} {flt : Faults}
    {i i' : Nat} {st st' : State} (h : body flt i st = .failed i' st') :
    tryCatch body onError flt i st = .ok (onError flt.message) i' st' := by
  simp [tryCatch, h]

theorem StoreM.bind_apply {α β : Type} (m : StoreM α) (f : α → StoreM β) (flt : Faults)
    (i : Nat) (st : State) :
    (m >>= f) flt i st =
      match m flt i st with
      | .ok a i' st' => f a flt i' st'
      | .failed i' st' => .failed i' st' := rfl

theorem StoreM.pure_apply {α : Type} (a : α) (flt : Faults) (i : Nat) (st : State) :
    (pure a : StoreM α) flt i st = .ok a i st := rfl

theorem storeOp_noFaults {α : Type} (f : State → Option (α × State)) (i : Nat) (st : State) :
    storeOp f noFaults i st =
      match f st with
      | some (a, st') => .ok a (i + 1) st'
      | none => .failed (i + 1) st := by
  simp [storeOp, noFaults]

theorem checkBanM_noFaults (st : State) (now i : Nat) (req : Request) :
    (checkBanM now req noFaults i st).asStep = checkBan st now req := by
  simp only [checkBanM, getM, StoreM.bind_apply, storeOp_noFaults, checkBan]
  split <;> simp [StoreM.pure_apply, Outcome.asStep]

theorem rateLimiterM_noFaults (st : State) (now i : Nat) (req : Request) :
    (rateLimiterM now req noFaults i st).asStep = rateLimiter st now req := by
  unfold rateLimiterM rateLimiter
  split
  · rfl
  · simp only [getM, incrM, expireM, setM, StoreM.bind_apply, storeOp_noFaults]
    split
    · rfl
    · cases hincr : st.redis.incr now (rateKey req.ip) with
      | none => simp [StoreM.bind_apply, storeOp_noFaults, hincr, Outcome.asStep]
      | some p =>
        obtain ⟨r1, c⟩ := p
        by_cases h1 : c = 1
        · subst h1
          simp [StoreM.bind_apply, StoreM.pure_apply, storeOp_noFaults, hincr, Outcome.asStep]
        · by_cases h100 : c > 100
          · by_cases h101 : c = 101
            · subst h101
              simp [StoreM.bind_apply, StoreM.pure_apply, storeOp_noFaults, hincr, Outcome.asStep,
                saveAlert]
            · simp [h1, h100, h101, StoreM.bind_apply, StoreM.pure_apply, storeOp_noFaults, hincr,
                Outcome.asStep]
          · simp [h1, h100, StoreM.bind_apply, StoreM.pure_apply, storeOp_noFaults, hincr,
              Outcome.asStep]

theorem loginHandlerM_noFaults (st : State) (now i : Nat) (req : Request) :
    (loginHandlerM now req noFaults i st).value?
      = some ((loginHandler st now req).2, (loginHandler st now req).1) := by
  by_cases hov : overThreshold (st.redis.get now (failKey req.ip)) = true
  · simp [loginHandlerM, loginBody, loginHandler, tryCatch, getM, saveAlert, setM,
      StoreM.bind_apply, StoreM.pure_apply, storeOp_noFaults, hov, Outcome.value?]
  · cases hb : req.body with
    | none =>
      simp [loginHandlerM, loginBody, loginHandler, tryCatch, getM,
        StoreM.bind_apply, StoreM.pure_apply, storeOp_noFaults, hov, hb, Outcome.value?]
    | some b =>
      by_cases hc : credentialsOk b = true
      · simp [loginHandlerM, loginBody, loginHandler, tryCatch, getM, delM,
          StoreM.bind_apply, StoreM.pure_apply, storeOp_noFaults, hov, hb, hc, Outcome.value?]
      · cases hincr : st.redis.incr now (failKey req.ip) with
        | none =>
          simp [loginHandlerM, loginBody, loginHandler, tryCatch, getM, incrM,
            StoreM.bind_apply, storeOp_noFaults, hov, hb, hc, hincr, Outcome.value?]
        | some p =>
          obtain ⟨r1, c⟩ := p
          by_cases h1 : c = 1
          · subst h1
            simp [loginHandlerM, loginBody, loginHandler, tryCatch, getM, incrM,
              expireM, StoreM.bind_apply, StoreM.pure_apply, storeOp_noFaults, hov, hb, hc,
              hincr, Outcome.value?]
          · simp [loginHandlerM, loginBody, loginHandler, tryCatch, getM, incrM,
              expireM, StoreM.bind_apply, StoreM.pure_apply, storeOp_noFaults, hov, hb, hc,
              hincr, h1, Outcome.value?]

theorem unbanCoreM_noFaults (st : State) (i : Nat) (ip : String)
    (filter : Except String (String → Bool)) :
    (unbanCoreM ip filter noFaults i st).value?
      = some ((unbanCore st ip filter).2, (unbanCore st ip filter).1) := by
  cases filter <;>
    simp [unbanCoreM, unbanCore, delM, deleteAlerts, StoreM.bind_apply, StoreM.pure_apply,
      storeOp_noFaults, Outcome.value?]

theorem tryCatch_value_ok {body : StoreM Response} {onError : String → Response}
    {flt : Faults} {i : Nat} {st : State} {out : Response × State}
    (h : (body flt i st).value? = some out) :
    (tryCatch body onError flt i st).value? = some out := by
  unfold tryCatch
  cases hb : body flt i st with
  | ok r i' st' => rw [hb] at h; exact h
  | failed i' st' => rw [hb] at h; cases h

theorem dispatchM_noFaults (st : State) (now i : Nat) (req : Request) :
    (dispatchM now req noFaults i st).value?
      = some ((dispatch st now req).2, (dispatch st now req).1) := by
  unfold dispatchM dispatch
  cases hroute : routeOf req with
  | resetRedis =>
    simp [resetRedisHandlerM, resetRedisBody, tryCatch, flushDbM, StoreM.bind_apply,
      StoreM.pure_apply, storeOp_noFaults, resetRedisHandler, Outcome.value?]
  | stats => rfl
  | bannedIps =>
    simp [bannedIpsHandlerM, bannedIpsBody, tryCatch, keysM, StoreM.bind_apply,
      StoreM.pure_apply, storeOp_noFaults, bannedIpsHandler, Outcome.value?]
  | unbanIp =>
    simp only [unbanIpHandlerM]
    apply tryCatch_value_ok
    unfold unbanIpBody unbanIpHandler
    cases req.body with
    | none => rfl
    | some b =>
      simp only
      cases b.ip with
      | undefined => rfl
      | str ip =>
        simp only
        split
        · rfl
        · exact unbanCoreM_noFaults st i ip _
      | other v =>
        simp only
        split
        · rfl
        · cases v.text with
          | error msg => rfl
          | ok ip => exact unbanCoreM_noFaults st i ip _
  | login => exact loginHandlerM_noFaults st now i req
  | balance =>
    simp [balanceHandlerM, balanceBody, tryCatch, setM, StoreM.bind_apply,
      StoreM.pure_apply, storeOp_noFaults, balanceHandler, Outcome.value?]
  | transaction =>
    by_cases hs : truthy (st.redis.get now (sessionKey req.ip)) = true
    · simp [transactionHandlerM, transactionBody, transactionHandler, tryCatch,
        getM, StoreM.bind_apply, StoreM.pure_apply, storeOp_noFaults, hs, Outcome.value?]
    · simp [transactionHandlerM, transactionBody, transactionHandler, tryCatch,
        getM, saveAlert, setM, StoreM.bind_apply, StoreM.pure_apply, storeOp_noFaults, hs, Outcome.value?]
  | unrouted => rfl

/-- Without faults the fallible pipeline is the pipeline. -/
theorem handleF_noFaults (st : State) (now : Nat) (req : Request) :
    handleF noFaults st now req = handle st now req := by
  unfold handleF handleT handle gates
  by_cases hm : mounted "/api" req.path = true
  · simp only [hm, if_true, checkBanM_noFaults]
    cases hcb : checkBan st now req with
    | respond s1 r => rfl
    | rejected s1 => rfl
    | next s1 =>
      simp only [rateLimiterM_noFaults]
      cases hrl : rateLimiter s1 now req with
      | respond s2 r => rfl
      | rejected s2 => rfl
      | next s2 =>
        simp only
        have hd := dispatchM_noFaults s2 now
          (rateLimiterM now req noFaults
            (checkBanM now req noFaults 0 st).position s1).position req
        cases ho : dispatchM now req noFaults
            (rateLimiterM now req noFaults
              (checkBanM now req noFaults 0 st).position s1).position s2 with
        | failed i3 s3 => rw [ho] at hd; cases hd
        | ok r i3 s3 =>
          rw [ho] at hd
          simp only [Outcome.value?, Option.some.injEq, Prod.mk.injEq] at hd
          obtain ⟨hr, hs⟩ := hd
          subst hr; subst hs
          cases hroute : routeOf req <;> rfl
  · have e : (Outcome.ok (none : Option Response) 0 st).asStep = Step.next st := rfl
    simp only [hm, Bool.false_eq_true, if_false, StoreM.pure_apply, e, rateLimiterM_noFaults]
    cases hrl : rateLimiter st now req with
    | respond s2 r => rfl
    | rejected s2 => rfl
    | next s2 =>
      simp only
      have hd := dispatchM_noFaults s2 now
        (rateLimiterM now req noFaults (Outcome.ok (none : Option Response) 0 st).position
          st).position req
      cases ho : dispatchM now req noFaults
          (rateLimiterM now req noFaults (Outcome.ok (none : Option Response) 0 st).position
            st).position s2 with
      | failed i3 s3 => rw [ho] at hd; cases hd
      | ok r i3 s3 =>
        rw [ho] at hd
        simp only [Outcome.value?, Option.some.injEq, Prod.mk.injEq] at hd
        obtain ⟨hr, hs⟩ := hd
        subst hr; subst hs
        cases hroute : routeOf req <;> rfl

theorem Sound.of_pure {α : Type} (a : α) : Sound (pure a : StoreM α) := by
  intro flt i st
  refine ⟨Nat.le_refl i, ?_⟩
  intro j h1 h2 _
  simp only [StoreM.pure_apply, Outcome.position] at h2
  omega

theorem Sound.of_storeOp {α : Type} (f : State → Option (α × State)) : Sound (storeOp f) := by
  intro flt i st
  have hpos : (storeOp f flt i st).position = i + 1 := by
    unfold storeOp
    split
    · rfl
    · split <;> rfl
  refine ⟨by omega, ?_⟩
  intro j h1 h2 hf
  rw [hpos] at h2
  have hj : j = i := by omega
  subst hj
  refine ⟨hpos, ?_⟩
  simp [storeOp, hf, Outcome.value?]

theorem Sound.of_bind {α β : Type} {m : StoreM α} {f : α → StoreM β} (hm : Sound m)
    (hf : ∀ a, Sound (f a)) : Sound (m >>= f) := by
  intro flt i st
  obtain ⟨m1, m2⟩ := hm flt i st
  rw [StoreM.bind_apply]
  cases ho : m flt i st with
  | ok a i' st' =>
    rw [ho] at m1 m2
    simp only [Outcome.position] at m1 m2
    obtain ⟨f1, f2⟩ := hf a flt i' st'
    simp only
    refine ⟨by omega, ?_⟩
    intro j h1 h2 hfail
    by_cases hlt : j < i'
    · have := (m2 j h1 hlt hfail).2
      simp [Outcome.value?] at this
    · exact f2 j (by omega) h2 hfail
  | failed i' st' =>
    rw [ho] at m1 m2
    simp only
    exact ⟨m1, fun j h1 h2 hfail => ⟨(m2 j h1 h2 hfail).1, rfl⟩⟩

theorem saveAlert_sound (a : Alert) : Sound (saveAlert a) := by
  intro flt i st
  refine ⟨Nat.le_refl i, ?_⟩
  intro j h1 h2 _
  simp only [saveAlert, Outcome.position] at h2
  omega

theorem deleteAlerts_sound (p : String → Bool) : Sound (deleteAlerts p) := by
  intro flt i st
  refine ⟨Nat.le_refl i, ?_⟩
  intro j h1 h2 _
  simp only [deleteAlerts, Outcome.position] at h2
  omega

theorem getM_sound (now : Nat) (key : String) : Sound (getM now key) := Sound.of_storeOp _
theorem setM_sound (now : Nat) (key : String) (v : RVal) (ttl : Nat) :
    Sound (setM now key v ttl) := Sound.of_storeOp _
theorem delM_sound (key : String) : Sound (delM key) := Sound.of_storeOp _
theorem incrM_sound (now : Nat) (key : String) : Sound (incrM now key) := Sound.of_storeOp _
theorem expireM_sound (now : Nat) (key : String) (ttl : Nat) :
    Sound (expireM now key ttl) := Sound.of_storeOp _
theorem flushDbM_sound : Sound flushDbM := Sound.of_storeOp _
theorem keysM_sound (now : Nat) (pfx : String) : Sound (keysM now pfx) := Sound.of_storeOp _

theorem checkBanM_sound (now : Nat) (req : Request) : Sound (checkBanM now req) := by
  unfold checkBanM
  refine Sound.of_bind (getM_sound _ _) (fun isBanned => ?_)
  refine Sound.of_bind (getM_sound _ _) (fun isBlocked => ?_)
  split <;> exact Sound.of_pure _

theorem rateLimiterM_sound (now : Nat) (req : Request) : Sound (rateLimiterM now req) := by
  unfold rateLimiterM
  split
  · exact Sound.of_pure _
  · refine Sound.of_bind (getM_sound _ _) (fun isBlocked => ?_)
    split
    · exact Sound.of_pure _
    · refine Sound.of_bind (incrM_sound _ _) (fun count => ?_)
      have hrest : Sound (if count > 100 then
          if count = 101 then do
            setM now (blockedKey req.ip) .flag 60
            saveAlert { ip := req.ip, type := "Rate Limit Exceeded", severity := "High",
                        timestamp := now }
            Pure.pure (some { status := 429, body := errorBody "Too Many Requests" })
          else
            Pure.pure (some { status := 403, body := errorBody "IP Blocked due to traffic abuse" })
        else (Pure.pure none : StoreM (Option Response))) := by
        split
        · split
          · exact Sound.of_bind (setM_sound _ _ _ _)
              (fun _ => Sound.of_bind (saveAlert_sound _) (fun _ => Sound.of_pure _))
          · exact Sound.of_pure _
        · exact Sound.of_pure _
      simp only
      split
      · exact Sound.of_bind (expireM_sound _ _ _) (fun _ => hrest)
      · exact Sound.of_bind (Sound.of_pure _) (fun _ => hrest)


theorem Caught.of_tryCatch {body : StoreM Response} {onError : String → Response}
    (hb : Sound body) (h500 : ∀ msg, (onError msg).status = 500) :
    Caught (tryCatch body onError) := by
  intro flt i st
  obtain ⟨b1, b2⟩ := hb flt i st
  unfold tryCatch
  cases ho : body flt i st with
  | ok r i' st' =>
    rw [ho] at b1 b2
    refine ⟨b1, ⟨r, st', rfl⟩, ?_⟩
    intro j h1 h2 hfail
    have := (b2 j h1 h2 hfail).2
    simp [Outcome.value?] at this
  | failed i' st' =>
    rw [ho] at b1 b2
    refine ⟨b1, ⟨_, st', rfl⟩, ?_⟩
    intro j h1 h2 hfail
    exact ⟨(b2 j h1 h2 hfail).1, _, st', rfl, h500 _⟩

/-- A handler that issues no store operation. -/
theorem Caught.of_answer (f : State → Response) :
    Caught (fun _ i st => Outcome.ok (f st) i st) := by
  intro flt i st
  refine ⟨Nat.le_refl i, ⟨_, _, rfl⟩, ?_⟩
  intro j h1 h2 _
  simp only [Outcome.position] at h2
  omega

theorem unbanCoreM_sound (ip : String) (filter : Except String (String → Bool)) :
    Sound (unbanCoreM ip filter) := by
  unfold unbanCoreM
  refine Sound.of_bind (delM_sound _) (fun _ => ?_)
  refine Sound.of_bind (delM_sound _) (fun _ => ?_)
  refine Sound.of_bind (delM_sound _) (fun _ => ?_)
  refine Sound.of_bind (delM_sound _) (fun _ => ?_)
  refine Sound.of_bind (delM_sound _) (fun _ => ?_)
  cases filter with
  | error msg => exact Sound.of_pure _
  | ok selects => exact Sound.of_bind (deleteAlerts_sound _) (fun _ => Sound.of_pure _)

theorem unbanIpBody_sound (req : Request) : Sound (unbanIpBody req) := by
  unfold unbanIpBody
  cases req.body with
  | none => exact Sound.of_pure _
  | some b =>
    simp only
    cases b.ip with
    | undefined => exact Sound.of_pure _
    | str ip =>
      simp only
      split
      · exact Sound.of_pure _
      · exact unbanCoreM_sound _ _
    | other v =>
      simp only
      split
      · exact Sound.of_pure _
      · cases v.text with
        | error msg => exact Sound.of_pure _
        | ok ip => exact unbanCoreM_sound _ _

theorem loginBody_sound (now : Nat) (req : Request) : Sound (loginBody now req) := by
  unfold loginBody
  simp only
  refine Sound.of_bind (getM_sound _ _) (fun failures => ?_)
  split
  · exact Sound.of_bind (saveAlert_sound _)
      (fun _ => Sound.of_bind (setM_sound _ _ _ _) (fun _ => Sound.of_pure _))
  · cases req.body with
    | none => exact Sound.of_pure _
    | some b =>
      simp only
      split
      · exact Sound.of_bind (delM_sound _)
          (fun _ => Sound.of_bind (delM_sound _) (fun _ => Sound.of_pure _))
      · refine Sound.of_bind (incrM_sound _ _) (fun currentCount => ?_)
        split
        · exact Sound.of_bind (expireM_sound _ _ _) (fun _ => Sound.of_pure _)
        · exact Sound.of_bind (Sound.of_pure _) (fun _ => Sound.of_pure _)

theorem balanceBody_sound (now : Nat) (req : Request) : Sound (balanceBody now req) := by
  unfold balanceBody
  exact Sound.of_bind (setM_sound _ _ _ _) (fun _ => Sound.of_pure _)

theorem transactionBody_sound (now : Nat) (req : Request) :
    Sound (transactionBody now req) := by
  unfold transactionBody
  simp only
  refine Sound.of_bind (getM_sound _ _) (fun hasCheckedBalance => ?_)
  split
  · exact Sound.of_bind (saveAlert_sound _)
      (fun _ => Sound.of_bind (setM_sound _ _ _ _) (fun _ => Sound.of_pure _))
  · exact Sound.of_pure _

theorem resetRedisBody_sound : Sound resetRedisBody := by
  unfold resetRedisBody
  exact Sound.of_bind flushDbM_sound (fun _ => Sound.of_pure _)

theorem bannedIpsBody_sound (now : Nat) : Sound (bannedIpsBody now) := by
  unfold bannedIpsBody
  exact Sound.of_bind (keysM_sound _ _)
    (fun _ => Sound.of_bind (keysM_sound _ _) (fun _ => Sound.of_pure _))

/-- Every route handler answers, and answers 500 when a store operation it issues fails:
each one runs its store operations inside `try`/`catch` (the statistics handler and the 404
answer issue none). -/
theorem dispatchM_caught (now : Nat) (req : Request) : Caught (dispatchM now req) := by
  unfold dispatchM
  cases routeOf req with
  | resetRedis => exact Caught.of_tryCatch resetRedisBody_sound (fun _ => rfl)
  | stats => exact Caught.of_answer (fun st => (statsHandler st).2)
  | bannedIps => exact Caught.of_tryCatch (bannedIpsBody_sound now) (fun _ => rfl)
  | unbanIp => exact Caught.of_tryCatch (unbanIpBody_sound req) (fun _ => rfl)
  | login => exact Caught.of_tryCatch (loginBody_sound now req) (fun _ => rfl)
  | balance => exact Caught.of_tryCatch (balanceBody_sound now req) (fun _ => rfl)
  | transaction => exact Caught.of_tryCatch (transactionBody_sound now req) (fun _ => rfl)
  | unrouted => exact Caught.of_answer (fun _ => { status := 404, body := .notFound })

theorem banGateM_sound (now : Nat) (req : Request) :
    Sound (if mounted "/api" req.path then checkBanM now req else pure none) := by
  split
  · exact checkBanM_sound now req
  · exact Sound.of_pure _


/-- C13. State-store failure fails the single request with a server error. For every request
and every fault plan: when a store operation issued for the request fails, whether by
`checkBan`, by `rateLimiter` or by a route handler (login, checkpoint, commit, unban, reset,
listing), the request is answered with status 500; the failed operation is the last store
operation issued for the request; and the request ends in the stage that issued it, so that no
later gate and no route handler runs after a failure in a gate. -/
theorem store_failure_fails_request (flt : Faults) (st : State) (now : Nat) (req : Request)
    (j : Nat) (hj : j < (handleT flt st now req).ops) (hf : flt.fails j = true) :
    (handleT flt st now req).ops = j + 1 ∧
    (∃ r, (handleT flt st now req).reply.resp = some r ∧ r.status = 500) ∧
    (handleT flt st now req).reply.stage = (handleT flt st now req).stageOf req j := by
  obtain ⟨a1, a2⟩ := banGateM_sound now req flt 0 st
  unfold handleT at hj ⊢
  simp only at hj ⊢
  generalize (if mounted "/api" req.path then checkBanM now req else pure none) flt 0 st = o1
    at a1 a2 hj ⊢
  cases o1 with
  | failed i1 st1 =>
    simp only [Outcome.asStep, Outcome.position] at a1 a2 hj ⊢
    refine ⟨(a2 j (Nat.zero_le j) hj hf).1, ⟨_, rfl, rfl⟩, ?_⟩
    simp [Trace.stageOf, hj]
  | ok v i1 st1 =>
    simp only [Outcome.position] at a1 a2
    have hge1 : i1 ≤ j := by
      by_contra hcon
      have := (a2 j (Nat.zero_le j) (by omega) hf).2
      simp [Outcome.value?] at this
    cases v with
    | some r =>
      simp only [Outcome.asStep, Outcome.position] at hj
      omega
    | none =>
      simp only [Outcome.asStep, Outcome.position] at hj ⊢
      obtain ⟨b1, b2⟩ := rateLimiterM_sound now req flt i1 st1
      generalize rateLimiterM now req flt i1 st1 = o2 at b1 b2 hj ⊢
      cases o2 with
      | failed i2 st2 =>
        simp only [Outcome.position] at b1 b2 hj ⊢
        refine ⟨(b2 j hge1 hj hf).1, ⟨_, rfl, rfl⟩, ?_⟩
        have hn : ¬ j < i1 := by omega
        simp [Trace.stageOf, hj, hn]
      | ok w i2 st2 =>
        simp only [Outcome.position] at b1 b2
        have hge2 : i2 ≤ j := by
          by_contra hcon
          have := (b2 j hge1 (by omega) hf).2
          simp [Outcome.value?] at this
        cases w with
        | some r =>
          simp only [Outcome.position] at hj
          omega
        | none =>
          simp only [Outcome.position] at hj ⊢
          obtain ⟨c1, c2, c3⟩ := dispatchM_caught now req flt i2 st2
          generalize dispatchM now req flt i2 st2 = o3 at c1 c2 c3 hj ⊢
          cases o3 with
          | failed i3 st3 =>
            obtain ⟨r, st', hv⟩ := c2
            cases hv
          | ok r i3 st3 =>
            simp only [Outcome.position] at c1 c3
            have hj3 : j < i3 := by
              cases hroute : routeOf req <;> rw [hroute] at hj <;> exact hj
            obtain ⟨e1, r', st', e2, e3⟩ := c3 j hge2 hj3 hf
            simp only [Outcome.value?, Option.some.injEq, Prod.mk.injEq] at e2
            obtain ⟨e4, -⟩ := e2
            subst e4
            have hn1 : ¬ j < i1 := by omega
            have hn2 : ¬ j < i2 := by omega
            cases hroute : routeOf req <;>
              exact ⟨e1, ⟨_, rfl, e3⟩, by simp [Trace.stageOf, hn1, hn2, hroute]⟩

/-- C13, witness: a checkpoint request of `10.0.0.9` whose fourth store operation, the
increment of the rate limiter, fails. -/
theorem store_failure_fails_request_witness :
    3 < (handleT (failAt 3) State.empty 0 probeReq).ops ∧
    (failAt 3).fails 3 = true ∧
    (handleT (failAt 3) State.empty 0 probeReq).ops = 3 + 1 ∧
    (handleT (failAt 3) State.empty 0 probeReq).reply
      = { stage := .rateLimiter, resp := some rejectedResponse } :=
  ⟨by decide, rfl,
   (store_failure_fails_request (failAt 3) State.empty 0 probeReq 3 (by decide) rfl).1,
   by decide⟩

/-! ### Concurrent requests -/

theorem countP_set_add {p : Pc → Bool} {l : List Pc} {i : Nat} {pc pc' : Pc}
    (h : l[i]? = some pc) :
    (l.set i pc').countP p + (if p pc then 1 else 0) = l.countP p + (if p pc' then 1 else 0) := by
  obtain ⟨hi, hget⟩ := List.getElem?_eq_some_iff.mp h
  have h1 := List.countP_set p l i pc' hi
  have h2 := List.boole_getElem_le_countP p l i hi
  rw [hget] at h1 h2
  omega

theorem inv_init (n now : Nat) (ip : String) : Inv n now ip (Sys.init n) := by
  refine ⟨by simp [Sys.init], rfl, fun _ => rfl, fun h => by simp [Sys.init] at h, ?_, ?_, ?_,
    ?_, ?_, ?_, ?_⟩
  · simp [Sys.init, List.countP_replicate, Pc.incremented]
  · simp [Sys.init, List.countP_replicate, Pc.tookBranch]
  · simp [Sys.init, List.countP_replicate]
  · intro h; simp [Sys.init, Store.find, Store.raw] at h
  · intro h; simp [Sys.init, List.countP_replicate] at h
  · simp [Sys.init, List.countP_replicate]
  · intro k hk; simp [Sys.init, List.mem_replicate] at hk

theorem set_same {l : List Pc} {i : Nat} {pc : Pc} (h : l[i]? = some pc) : l.set i pc = l := by
  induction l generalizing i with
  | nil => rfl
  | cons x l ih =>
    cases i with
    | zero => simp at h; simp [h]
    | succ i => simp at h; simp [ih h]

theorem mem_of_getElem? {l : List Pc} {i : Nat} {pc : Pc} (h : l[i]? = some pc) : pc ∈ l := by
  obtain ⟨hi, hget⟩ := List.getElem?_eq_some_iff.mp h
  rw [← hget]; exact List.getElem_mem hi

theorem upTo_succ (c : Nat) : upTo (c + 1) = upTo c ++ [(c : Int) + 1] := by
  simp [upTo, List.range_succ]

theorem countP_pos_of_getElem? {p : Pc → Bool} {l : List Pc} {i : Nat} {pc : Pc}
    (h : l[i]? = some pc) (hp : p pc = true) : 1 ≤ l.countP p := by
  have := List.countP_pos_iff.mpr ⟨pc, mem_of_getElem? h, hp⟩
  omega

/-- A request reads the blocked flag. -/
theorem inv_step_start {n now : Nat} {ip : String} {s : Sys} {i : Nat} (h : Inv n now ip s)
    (hpc : s.pcs[i]? = some .start) : Inv n now ip (s.step now ip i) := by
  have hc := fun (p : Pc → Bool) (pc' : Pc) => @countP_set_add p s.pcs i .start pc' hpc
  by_cases hb : (s.redis.find now (blockedKey ip)).isSome = true
  · have hst : s.step now ip i = { s with pcs := s.pcs.set i .blocked } := by
      simp [Sys.step, hpc, stepPc, Store.truthy_get, hb]
    rw [hst]
    have c1 := hc Pc.incremented .blocked
    have c2 := hc Pc.tookBranch .blocked
    have c3 := hc (· == Pc.limited) .blocked
    have c4 := hc (· == Pc.blocked) .blocked
    have c5 := hc (· == Pc.crashed) .blocked
    simp [Pc.incremented, Pc.tookBranch] at c1 c2 c3 c4 c5
    refine ⟨by simp [h.len], h.counts, h.rate0, h.rate, by simp only; rw [c1]; exact h.incremented,
      by simp only; rw [c2]; exact h.branch, by simp only; rw [c3]; exact h.alerts,
      by simp only; rw [c3]; exact h.flag, ?_, by simp only; rw [c5]; exact h.crashed, ?_⟩
    · intro _; simp only; rw [c3]; exact h.flag hb
    · intro k hk
      rcases List.mem_or_eq_of_mem_set hk with hk | hk
      · exact h.expire k hk
      · cases hk
  · have hst : s.step now ip i = { s with pcs := s.pcs.set i .toIncr } := by
      simp [Sys.step, hpc, stepPc, Store.truthy_get, hb]
    rw [hst]
    have c1 := hc Pc.incremented .toIncr
    have c2 := hc Pc.tookBranch .toIncr
    have c3 := hc (· == Pc.limited) .toIncr
    have c4 := hc (· == Pc.blocked) .toIncr
    have c5 := hc (· == Pc.crashed) .toIncr
    simp [Pc.incremented, Pc.tookBranch] at c1 c2 c3 c4 c5
    refine ⟨by simp [h.len], h.counts, h.rate0, h.rate, by simp only; rw [c1]; exact h.incremented,
      by simp only; rw [c2]; exact h.branch, by simp only; rw [c3]; exact h.alerts,
      by simp only; rw [c3]; exact h.flag, by simp only; rw [c3, c4]; exact h.blocked,
      by simp only; rw [c5]; exact h.crashed, ?_⟩
    intro k hk
    rcases List.mem_or_eq_of_mem_set hk with hk | hk
    · exact h.expire k hk
    · cases hk

/-- The state after an increment performed by the request at position `i`. -/
theorem inv_after_incr {n now : Nat} {ip : String} {s : Sys} {i : Nat} (h : Inv n now ip s)
    (hpc : s.pcs[i]? = some .toIncr) {r1 : Store} {pc' : Pc} {exp : Option Nat}
    (hrate : r1.find now (rateKey ip)
      = some { val := .int ((s.counts.length : Int) + 1), expiresAt := exp })
    (hblk : r1.find now (blockedKey ip) = s.redis.find now (blockedKey ip))
    (hinc : pc'.incremented = true)
    (hbr : pc'.tookBranch = decide (s.counts.length + 1 = 101))
    (hlim : pc' ≠ .limited) (hexp : ∀ k, pc' = .toExpire k → k = 1) :
    Inv n now ip { redis := r1, alerts := s.alerts, pcs := s.pcs.set i pc',
                   counts := s.counts ++ [(s.counts.length : Int) + 1] } := by
  have hc := fun (p : Pc → Bool) => @countP_set_add p s.pcs i .toIncr pc' hpc
  have c1 := hc Pc.incremented
  have c2 := hc Pc.tookBranch
  have c3 := hc (· == Pc.limited)
  have c4 := hc (· == Pc.blocked)
  have c5 := hc (· == Pc.crashed)
  have hnb : pc' ≠ .blocked := by intro hh; rw [hh] at hinc; cases hinc
  have hnc : pc' ≠ .crashed := by intro hh; rw [hh] at hinc; cases hinc
  have e1 : Pc.incremented .toIncr = false := rfl
  have e2 : Pc.tookBranch .toIncr = false := rfl
  simp only [e1, hinc, Bool.false_eq_true, if_false, if_true, Nat.add_zero] at c1
  simp only [e2, hbr, Bool.false_eq_true, if_false, Nat.add_zero, decide_eq_true_eq] at c2
  simp [hlim, hnb, hnc] at c3 c4 c5
  have hb := h.branch
  refine ⟨by simp [h.len], ?_, ?_, ?_, ?_, ?_, ?_, ?_, ?_, ?_, ?_⟩
  · simp only [List.length_append, List.length_singleton]
    rw [upTo_succ, ← h.counts]
  · intro h0; simp at h0
  · intro _
    refine ⟨exp, ?_⟩
    simp only [List.length_append, List.length_singleton, Nat.cast_add, Nat.cast_one]
    exact hrate
  · simp only [List.length_append, List.length_singleton]
    rw [c1, h.incremented]
  · simp only [List.length_append, List.length_singleton]
    by_cases h101 : s.counts.length + 1 = 101
    · simp only [h101, if_true] at c2
      have : ¬ (101 ≤ s.counts.length) := by omega
      simp only [this, if_false] at hb
      simp only [h101, le_refl, if_true]
      omega
    · simp only [h101, if_false] at c2
      by_cases hle : 101 ≤ s.counts.length
      · have : 101 ≤ s.counts.length + 1 := by omega
        simp only [hle, if_true] at hb
        simp only [this, if_true]
        omega
      · have : ¬ (101 ≤ s.counts.length + 1) := by omega
        simp only [hle, if_false] at hb
        simp only [this, if_false]
        omega
  · simp only; rw [c3]; exact h.alerts
  · intro hf
    simp only at hf ⊢
    rw [c3]; exact h.flag (by rw [← hblk]; exact hf)
  · intro hf
    simp only at hf ⊢
    rw [c3]; rw [c4] at hf; exact h.blocked hf
  · simp only; rw [c5]; exact h.crashed
  · intro k hk
    rcases List.mem_or_eq_of_mem_set hk with hk | hk
    · exact h.expire k hk
    · exact hexp k hk.symm

/-- A request performs the increment. -/
theorem inv_step_incr {n now : Nat} {ip : String} {s : Sys} {i : Nat} (h : Inv n now ip s)
    (hn : (n : Int) < 9223372036854775807) (hpc : s.pcs[i]? = some .toIncr) :
    Inv n now ip (s.step now ip i) := by
  have hle : s.counts.length ≤ n := by
    rw [← h.incremented, ← h.len]; exact List.countP_le_length _
  by_cases h0 : s.counts.length = 0
  · have hf := h.rate0 h0
    have hst : s.step now ip i =
        { redis := s.redis.put (rateKey ip) { val := .int 1, expiresAt := none },
          alerts := s.alerts, pcs := s.pcs.set i (.toExpire 1),
          counts := s.counts ++ [(s.counts.length : Int) + 1] } := by
      simp [Sys.step, hpc, stepPc, Store.incr_absent hf, h0]
    rw [hst]
    apply @inv_after_incr n now ip s i h hpc _ _ none
    · rw [Store.find_put_self]; simp [Entry.live, h0]
    · exact Store.find_put_of_ne _ _ _ (rate_ne_blocked ip ip)
    · rfl
    · simp [Pc.tookBranch, h0]
    · intro hh; cases hh
    · intro k hk; cases hk; rfl
  · obtain ⟨exp, hf⟩ := h.rate (by omega)
    have hmax : (s.counts.length : Int) + 1 ≤ 9223372036854775807 := by omega
    have hne1 : ¬ ((s.counts.length : Int) + 1 = 1) := by omega
    have hst : s.step now ip i =
        { redis := s.redis.put (rateKey ip)
            { val := .int ((s.counts.length : Int) + 1), expiresAt := exp },
          alerts := s.alerts, pcs := s.pcs.set i (branch ((s.counts.length : Int) + 1)),
          counts := s.counts ++ [(s.counts.length : Int) + 1] } := by
      simp [Sys.step, hpc, stepPc, Store.incr_int hf hmax, hne1]
    rw [hst]
    have hlive : ({ val := .int (s.counts.length : Int), expiresAt := exp } : Entry).live now
        = true := by
      have := hf
      unfold Store.find at this
      cases hr : s.redis.raw (rateKey ip) with
      | none => rw [hr] at this; cases this
      | some e =>
        rw [hr] at this
        simp only at this
        split at this
        · rename_i hl
          simp only [Option.some.injEq] at this
          rw [this] at hl; exact hl
        · cases this
    apply @inv_after_incr n now ip s i h hpc _ _ exp
    · rw [Store.find_put_self]
      have : ({ val := .int ((s.counts.length : Int) + 1), expiresAt := exp } : Entry).live now
          = true := hlive
      simp [this]
    · exact Store.find_put_of_ne _ _ _ (rate_ne_blocked ip ip)
    · unfold branch; split
      · split <;> rfl
      · rfl
    · unfold branch
      by_cases h101 : s.counts.length + 1 = 101
      · have e : (s.counts.length : Int) + 1 = 101 := by omega
        simp [e, h101, Pc.tookBranch]
      · have e : ¬ ((s.counts.length : Int) + 1 = 101) := by omega
        simp only [e, if_false, h101, decide_False]
        split <;> rfl
    · unfold branch; split
      · split <;> (intro hh; cases hh)
      · intro hh; cases hh
    · intro k hk
      unfold branch at hk
      split at hk
      · split at hk <;> cases hk
      · cases hk

/-- The request that created the counter sets its expiry. -/
theorem inv_step_expire {n now : Nat} {ip : String} {s : Sys} {i : Nat} {k : Int}
    (h : Inv n now ip s) (hpc : s.pcs[i]? = some (.toExpire k)) :
    Inv n now ip (s.step now ip i) := by
  have hk : k = 1 := h.expire k (mem_of_getElem? hpc)
  subst hk
  have hpos : 0 < s.counts.length := by
    have := @countP_pos_of_getElem? Pc.incremented _ _ _ hpc rfl
    rw [h.incremented] at this; omega
  obtain ⟨exp, hf⟩ := h.rate hpos
  have hst : s.step now ip i =
      { s with redis := s.redis.put (rateKey ip)
                 { val := .int s.counts.length, expiresAt := some (now + 60 * 1000) },
               pcs := s.pcs.set i .passed } := by
    simp [Sys.step, hpc, stepPc, Store.expire, hf, branch]
  rw [hst]
  have hc := fun (p : Pc → Bool) => @countP_set_add p s.pcs i (.toExpire 1) .passed hpc
  have c1 := hc Pc.incremented
  have c2 := hc Pc.tookBranch
  have c3 := hc (· == Pc.limited)
  have c4 := hc (· == Pc.blocked)
  have c5 := hc (· == Pc.crashed)
  simp [Pc.incremented, Pc.tookBranch] at c1 c2 c3 c4 c5
  have hrate : (s.redis.put (rateKey ip)
      { val := .int s.counts.length, expiresAt := some (now + 60 * 1000) }).find now (rateKey ip)
      = some { val := .int s.counts.length, expiresAt := some (now + 60 * 1000) } := by
    rw [Store.find_put_self]; simp [Entry.live]
  have hblk : (s.redis.put (rateKey ip)
      { val := .int s.counts.length, expiresAt := some (now + 60 * 1000) }).find now
        (blockedKey ip) = s.redis.find now (blockedKey ip) :=
    Store.find_put_of_ne _ _ _ (rate_ne_blocked ip ip)
  refine ⟨by simp [h.len], h.counts, fun h0 => by simp only at h0; omega,
    fun _ => ⟨_, hrate⟩, by simp only; rw [c1]; exact h.incremented,
    by simp only; rw [c2]; exact h.branch, by simp only; rw [c3]; exact h.alerts,
    ?_, by simp only; rw [c3, c4]; exact h.blocked, by simp only; rw [c5]; exact h.crashed, ?_⟩
  · intro hfl
    simp only at hfl ⊢
    rw [c3]; exact h.flag (by rw [← hblk]; exact hfl)
  · intro k hk
    rcases List.mem_or_eq_of_mem_set hk with hk | hk
    · exact h.expire k hk
    · cases hk

/-- The request that received 101 sets the block and raises the alert. -/
theorem inv_step_block {n now : Nat} {ip : String} {s : Sys} {i : Nat}
    (h : Inv n now ip s) (hpc : s.pcs[i]? = some .toBlock) :
    Inv n now ip (s.step now ip i) := by
  have hst : s.step now ip i =
      { s with redis := s.redis.set now (blockedKey ip) .flag 60,
               alerts := s.alerts ++ [rateAlert ip now],
               pcs := s.pcs.set i .limited } := by
    simp [Sys.step, hpc, stepPc]
  rw [hst]
  have hc := fun (p : Pc → Bool) => @countP_set_add p s.pcs i .toBlock .limited hpc
  have c1 := hc Pc.incremented
  have c2 := hc Pc.tookBranch
  have c3 := hc (· == Pc.limited)
  have c4 := hc (· == Pc.blocked)
  have c5 := hc (· == Pc.crashed)
  simp [Pc.incremented, Pc.tookBranch] at c1 c2 c3 c4 c5
  have hrate : (s.redis.set now (blockedKey ip) .flag 60).find now (rateKey ip)
      = s.redis.find now (rateKey ip) := by
    simp only [Store.set]
    exact Store.find_put_of_ne _ _ _ (blocked_ne_rate ip ip)
  refine ⟨by simp [h.len], h.counts, fun h0 => by simp only at h0 ⊢; rw [hrate]; exact h.rate0 h0,
    fun hp => by simp only at hp ⊢; rw [hrate]; exact h.rate hp,
    by simp only; rw [c1]; exact h.incremented, by simp only; rw [c2]; exact h.branch,
    ?_, ?_, ?_, by simp only; rw [c5]; exact h.crashed, ?_⟩
  · simp only
    rw [c3, List.replicate_succ', ← h.alerts]
  · intro _; simp only; rw [c3]; omega
  · intro _; simp only; rw [c3]; omega
  · intro k hk
    rcases List.mem_or_eq_of_mem_set hk with hk | hk
    · exact h.expire k hk
    · cases hk

/-- A finished request does nothing. -/
theorem step_finished {now : Nat} {ip : String} {s : Sys} {i : Nat} {pc : Pc}
    (hpc : s.pcs[i]? = some pc) (hf : pc.finished = true) : s.step now ip i = s := by
  cases pc <;> simp [Pc.finished] at hf <;> simp [Sys.step, hpc, stepPc, set_same hpc]

/-- Every step of every request preserves the invariant. -/
theorem inv_step {n now : Nat} {ip : String} {s : Sys} (i : Nat) (h : Inv n now ip s)
    (hn : (n : Int) < 9223372036854775807) : Inv n now ip (s.step now ip i) := by
  cases hpc : s.pcs[i]? with
  | none => simp [Sys.step, hpc]; exact h
  | some pc =>
    cases pc with
    | start => exact inv_step_start h hpc
    | toIncr => exact inv_step_incr h hn hpc
    | toExpire k => exact inv_step_expire h hpc
    | toBlock => exact inv_step_block h hpc
    | passed => rw [step_finished hpc rfl]; exact h
    | blocked => rw [step_finished hpc rfl]; exact h
    | over => rw [step_finished hpc rfl]; exact h
    | limited => rw [step_finished hpc rfl]; exact h
    | crashed => rw [step_finished hpc rfl]; exact h

/-- Every interleaving preserves the invariant. -/
theorem inv_exec {n now : Nat} {ip : String} (hn : (n : Int) < 9223372036854775807) :
    ∀ (sched : List Nat) (s : Sys), Inv n now ip s → Inv n now ip (s.exec now ip sched) := by
  intro sched
  induction sched with
  | nil => intro s h; exact h
  | cons i rest ih =>
    intro s h
    exact ih _ (inv_step i h hn)

/-- A single request performing its store calls without interruption is `rateLimiter`. -/
theorem steps_agree_with_rateLimiter (st : State) (now : Nat) (req : Request)
    (hex : rateExempt req.path = false) :
    Sys.toStep st
      (Sys.exec now req.ip { redis := st.redis, alerts := st.alerts, pcs := [.start], counts := [] }
        [0, 0, 0]) = rateLimiter st now req := by
  unfold rateLimiter
  simp only [hex, Bool.false_eq_true, if_false]
  by_cases hb : truthy (st.redis.get now (blockedKey req.ip)) = true
  · simp [Sys.exec, Sys.step, stepPc, hb, Sys.toStep, blockedByTrafficResponse]
  · cases hincr : st.redis.incr now (rateKey req.ip) with
    | none => simp [Sys.exec, Sys.step, stepPc, hb, hincr, Sys.toStep]
    | some p =>
      obtain ⟨r1, c⟩ := p
      by_cases h1 : c = 1
      · subst h1
        simp [Sys.exec, Sys.step, stepPc, hb, hincr, Sys.toStep, branch]
      · by_cases h100 : c > 100
        · by_cases h101 : c = 101
          · subst h101
            simp [Sys.exec, Sys.step, stepPc, hb, hincr, Sys.toStep, branch, rateAlert,
              tooManyRequestsResponse]
          · simp [Sys.exec, Sys.step, stepPc, hb, hincr, Sys.toStep, branch, h1, h100, h101,
              blockedByTrafficResponse]
        · simp [Sys.exec, Sys.step, stepPc, hb, hincr, Sys.toStep, branch, h1, h100]

theorem finished_counts :
    ∀ (l : List Pc), (∀ pc ∈ l, pc.finished = true) →
      l.length = l.countP (· == Pc.blocked) + l.countP Pc.incremented
        + l.countP (· == Pc.crashed) ∧
      l.countP Pc.tookBranch = l.countP (· == Pc.limited) := by
  intro l
  induction l with
  | nil => intro _; simp
  | cons pc rest ih =>
    intro h
    obtain ⟨i1, i2⟩ := ih (fun x hx => h x (List.mem_cons_of_mem _ hx))
    have hf := h pc (List.mem_cons_self _ _)
    cases pc <;> simp [Pc.finished] at hf <;>
      simp [List.countP_cons, Pc.incremented, Pc.tookBranch, i2] <;> omega

theorem getElem?_at_length {α : Type} (l1 : List α) (a : α) (l2 : List α) :
    (l1 ++ a :: l2)[l1.length]? = some a := by
  induction l1 with
  | nil => simp
  | cons x xs ih => simpa using ih

theorem set_at_length {α : Type} (l1 : List α) (a b : α) (l2 : List α) :
    (l1 ++ a :: l2).set l1.length b = l1 ++ b :: l2 := by
  induction l1 with
  | nil => rfl
  | cons x xs ih => simp [ih]

/-- A step of the request that stands right after the requests `done`. -/
theorem Sys.step_at (now : Nat) (ip : String) (redis : Store) (alerts : List Alert)
    (done todo : List Pc) (pc : Pc) (counts : List Int) :
    Sys.step now ip { redis := redis, alerts := alerts, pcs := done ++ pc :: todo,
                      counts := counts } done.length
      = { redis := (stepPc now ip redis alerts pc).1,
          alerts := (stepPc now ip redis alerts pc).2.1,
          pcs := done ++ (stepPc now ip redis alerts pc).2.2.1 :: todo,
          counts := match (stepPc now ip redis alerts pc).2.2.2 with
            | some c => counts ++ [c]
            | none => counts } := by
  simp only [Sys.step, getElem?_at_length, set_at_length]

theorem exec_three (now : Nat) (ip : String) (s : Sys) (i : Nat) :
    Sys.exec now ip s [i, i, i]
      = Sys.step now ip (Sys.step now ip (Sys.step now ip s i) i) i := rfl

theorem oneByOne_succ (k : Nat) : oneByOne (k + 1) = oneByOne k ++ [k, k, k] := by
  simp [oneByOne, List.range_succ, List.flatMap_append]

theorem exec_oneByOne_succ (now : Nat) (ip : String) (s : Sys) (k : Nat) :
    Sys.exec now ip s (oneByOne (k + 1))
      = Sys.exec now ip (Sys.exec now ip s (oneByOne k)) [k, k, k] := by
  rw [oneByOne_succ]; simp [Sys.exec, List.foldl_append]

/-- The first request of the window: it creates the counter at 1, sets the expiry and is
passed on. -/
theorem three_first (now : Nat) (ip : String) (todo : List Pc) :
    Sys.exec now ip { redis := [], alerts := [], pcs := .start :: todo, counts := [] } [0, 0, 0]
      = { redis := seqStore now ip 1, alerts := [], pcs := .passed :: todo, counts := [1] } := by
  rw [exec_three]
  have e1 := Sys.step_at now ip [] [] [] todo .start []
  simp only [List.nil_append, List.length_nil] at e1
  rw [e1]
  have s1 : stepPc now ip [] [] .start = ([], [], .toIncr, none) := by
    simp [stepPc, Store.get, Store.find, Store.raw, truthy]
  rw [s1]
  have e2 := Sys.step_at now ip [] [] [] todo .toIncr []
  simp only [List.nil_append, List.length_nil] at e2
  simp only
  rw [e2]
  have s2 : stepPc now ip [] [] .toIncr
      = ([(rateKey ip, { val := .int 1, expiresAt := none })], [], .toExpire 1, some 1) := by
    simp [stepPc, Store.incr, Store.find, Store.raw, Store.put, Store.erase]
  rw [s2]
  have e3 := Sys.step_at now ip [(rateKey ip, { val := .int 1, expiresAt := none })] [] []
    todo (.toExpire 1) [1]
  simp only [List.nil_append, List.length_nil] at e3
  simp only
  rw [e3]
  have s3 : stepPc now ip [(rateKey ip, { val := .int 1, expiresAt := none })] [] (.toExpire 1)
      = (seqStore now ip 1, [], .passed, none) := by
    simp [stepPc, Store.expire, Store.find, Store.raw, Store.put, Store.erase, Entry.live,
      seqStore, branch]
  rw [s3]


/-- A later request of the window, the counter standing at `k + 1 < 100`: it increments the
counter and is passed on. -/
theorem three_next (now : Nat) (ip : String) (k : Nat) (hk : k + 2 ≤ 100) (done todo : List Pc)
    (counts : List Int) :
    Sys.exec now ip { redis := seqStore now ip (k + 1), alerts := [],
                      pcs := done ++ .start :: todo, counts := counts }
        [done.length, done.length, done.length]
      = { redis := seqStore now ip (k + 2), alerts := [], pcs := done ++ .passed :: todo,
          counts := counts ++ [(k : Int) + 2] } := by
  rw [exec_three, Sys.step_at]
  have s1 : stepPc now ip (seqStore now ip (k + 1)) [] .start
      = (seqStore now ip (k + 1), [], .toIncr, none) := by
    simp [stepPc, Store.get, Store.find, Store.raw, truthy, seqStore, rate_ne_blocked]
  rw [s1]
  simp only
  rw [Sys.step_at]
  have s2 : stepPc now ip (seqStore now ip (k + 1)) [] .toIncr
      = (seqStore now ip (k + 2), [], .passed, some ((k : Int) + 2)) := by
    have h1 : ¬ ((k : Int) + 1 + 1 > 9223372036854775807) := by omega
    have h2 : ¬ ((k : Int) + 1 + 1 = 1) := by omega
    have h3 : ¬ ((k : Int) + 1 + 1 > 100) := by omega
    simp [stepPc, Store.incr, Store.find, Store.raw, Store.put, Store.erase, Entry.live,
      seqStore, branch, h1, h2, h3]
    omega
  rw [s2]
  simp only
  rw [Sys.step_at]
  simp [stepPc]


/-- The request that finds the counter at 100: its increment returns 101, it sets the block,
records the alert and is answered 429. -/
theorem three_overflow (now : Nat) (ip : String) (done todo : List Pc) (counts : List Int) :
    Sys.exec now ip { redis := seqStore now ip 100, alerts := [],
                      pcs := done ++ .start :: todo, counts := counts }
        [done.length, done.length, done.length]
      = { redis := blockedStore now ip 101, alerts := [rateAlert ip now],
          pcs := done ++ .limited :: todo, counts := counts ++ [101] } := by
  rw [exec_three, Sys.step_at]
  have s1 : stepPc now ip (seqStore now ip 100) [] .start
      = (seqStore now ip 100, [], .toIncr, none) := by
    simp [stepPc, Store.get, Store.find, Store.raw, truthy, seqStore, rate_ne_blocked]
  rw [s1]
  simp only
  rw [Sys.step_at]
  have s2 : stepPc now ip (seqStore now ip 100) [] .toIncr
      = (seqStore now ip 101, [], .toBlock, some 101) := by
    simp [stepPc, Store.incr, Store.find, Store.raw, Store.put, Store.erase, Entry.live,
      seqStore, branch]
  rw [s2]
  simp only
  rw [Sys.step_at]
  have s3 : stepPc now ip (seqStore now ip 101) [] .toBlock
      = (blockedStore now ip 101, [rateAlert ip now], .limited, none) := by
    simp [stepPc, Store.set, Store.put, Store.erase, seqStore, blockedStore, rate_ne_blocked]
  rw [s3]

/-- A request that arrives once the block is set: it is rejected at the blocked check without
incrementing. -/
theorem three_blocked (now : Nat) (ip : String) (k : Nat) (alerts : List Alert)
    (done todo : List Pc) (counts : List Int) :
    Sys.exec now ip { redis := blockedStore now ip k, alerts := alerts,
                      pcs := done ++ .start :: todo, counts := counts }
        [done.length, done.length, done.length]
      = { redis := blockedStore now ip k, alerts := alerts,
          pcs := done ++ .blocked :: todo, counts := counts } := by
  rw [exec_three, Sys.step_at]
  have s1 : stepPc now ip (blockedStore now ip k) alerts .start
      = (blockedStore now ip k, alerts, .blocked, none) := by
    simp [stepPc, Store.get, Store.find, Store.raw, truthy, blockedStore, Entry.live]
  rw [s1]
  simp only
  rw [Sys.step_at]
  simp only [stepPc]
  rw [Sys.step_at]
  simp only [stepPc]

/-- The first `k + 1 ≤ 100` requests, run one after the other, are all passed on. -/
theorem oneByOne_window (now : Nat) (ip : String) :
    ∀ (k m : Nat), k + 1 ≤ 100 →
      Sys.exec now ip (Sys.init (k + 1 + m)) (oneByOne (k + 1))
        = { redis := seqStore now ip (k + 1), alerts := [],
            pcs := List.replicate (k + 1) .passed ++ List.replicate m .start,
            counts := upTo (k + 1) } := by
  intro k
  induction k with
  | zero =>
    intro m _
    have h := three_first now ip (List.replicate m .start)
    have e : oneByOne (0 + 1) = [0, 0, 0] := rfl
    rw [e]
    simp only [Sys.init, Nat.zero_add, Nat.add_comm 1 m, List.replicate_succ]
    rw [h]
    rfl
  | succ k ih =>
    intro m hk
    rw [exec_oneByOne_succ]
    have e : k + 1 + 1 + m = k + 1 + (m + 1) := by omega
    rw [e, ih (m + 1) (by omega)]
    have h := three_next now ip k (by omega) (List.replicate (k + 1) .passed)
      (List.replicate m .start) (upTo (k + 1))
    simp only [List.length_replicate] at h
    have r1 : List.replicate (m + 1) Pc.start = Pc.start :: List.replicate m Pc.start := rfl
    have r2 : List.replicate (k + 1 + 1) Pc.passed ++ List.replicate m Pc.start
        = List.replicate (k + 1) Pc.passed ++ Pc.passed :: List.replicate m Pc.start := by
      rw [List.replicate_succ']; simp
    have r3 : ((k + 1 : Nat) : Int) + 1 = (k : Int) + 2 := by omega
    rw [r1, h, upTo_succ (k + 1), r2, r3]


/-- The first 101 requests, run one after the other: 100 are passed on and the 101st sets the
block. -/
theorem oneByOne_overflow (now : Nat) (ip : String) (m : Nat) :
    Sys.exec now ip (Sys.init (101 + m)) (oneByOne 101)
      = { redis := blockedStore now ip 101, alerts := [rateAlert ip now],
          pcs := List.replicate 100 .passed ++ .limited :: List.replicate m .start,
          counts := upTo 101 } := by
  rw [exec_oneByOne_succ]
  have e : 101 + m = 99 + 1 + (m + 1) := by omega
  rw [e, oneByOne_window now ip 99 (m + 1) (by omega)]
  have h := three_overflow now ip (List.replicate 100 .passed) (List.replicate m .start)
    (upTo 100)
  simp only [List.length_replicate] at h
  have r1 : List.replicate (m + 1) Pc.start = Pc.start :: List.replicate m Pc.start := rfl
  rw [r1, h, upTo_succ 100]
  rfl

/-- Requests run one after the other beyond the 101st are rejected at the blocked check. -/
theorem oneByOne_beyond (now : Nat) (ip : String) :
    ∀ (j m : Nat),
      Sys.exec now ip (Sys.init (101 + j + m)) (oneByOne (101 + j))
        = { redis := blockedStore now ip 101, alerts := [rateAlert ip now],
            pcs := List.replicate 100 .passed ++ .limited ::
              (List.replicate j .blocked ++ List.replicate m .start),
            counts := upTo 101 } := by
  intro j
  induction j with
  | zero => intro m; simpa using oneByOne_overflow now ip m
  | succ j ih =>
    intro m
    have e1 : 101 + (j + 1) = 101 + j + 1 := by omega
    have e2 : 101 + j + 1 + m = 101 + j + (m + 1) := by omega
    rw [e1, exec_oneByOne_succ, e2, ih (m + 1)]
    have h := three_blocked now ip 101 [rateAlert ip now]
      (List.replicate 100 .passed ++ .limited :: List.replicate j .blocked)
      (List.replicate m .start) (upTo 101)
    have hl : (List.replicate 100 Pc.passed ++ Pc.limited :: List.replicate j Pc.blocked).length
        = 101 + j := by
      rw [List.length_append, List.length_replicate, List.length_cons, List.length_replicate]
      omega
    rw [hl] at h
    have r1 : List.replicate (m + 1) Pc.start = Pc.start :: List.replicate m Pc.start := rfl
    have r2 : List.replicate 100 Pc.passed ++ Pc.limited ::
          (List.replicate j Pc.blocked ++ Pc.start :: List.replicate m Pc.start)
        = (List.replicate 100 Pc.passed ++ Pc.limited :: List.replicate j Pc.blocked)
            ++ Pc.start :: List.replicate m Pc.start := by
      simp only [List.append_assoc, List.cons_append]
    have r3 : List.replicate 100 Pc.passed ++ Pc.limited ::
          (List.replicate (j + 1) Pc.blocked ++ List.replicate m Pc.start)
        = (List.replicate 100 Pc.passed ++ Pc.limited :: List.replicate j Pc.blocked)
            ++ Pc.blocked :: List.replicate m Pc.start := by
      have q : List.replicate (j + 1) Pc.blocked = List.replicate j Pc.blocked ++ [Pc.blocked] :=
        List.replicate_succ' j Pc.blocked
      rw [q]
      simp only [List.append_assoc, List.cons_append, List.singleton_append, List.nil_append]
    rw [r1, r2, h, r3]

/-- C14, counterexample. One interleaving of 200 simultaneous requests against an empty
store: the requests perform their store calls one request after the other. The increments
return 1..101 only; the requests 102..200 read the blocked flag set by the 101st and are
rejected without incrementing. -/
theorem concurrent_counts_stop_at_block :
    ((Sys.exec 0 "10.0.0.9" (Sys.init 200) (oneByOne 200)).counts,
      (Sys.exec 0 "10.0.0.9" (Sys.init 200) (oneByOne 200)).pcs)
      = (upTo 101,
         List.replicate 100 Pc.passed ++ Pc.limited :: List.replicate 99 Pc.blocked) := by
  have h := oneByOne_beyond 0 "10.0.0.9" 99 0
  rw [h]
  simp only [List.replicate_zero, List.append_nil]

/-- C14, amended. For 200 simultaneous requests of one address against an empty store, under
every interleaving of their store calls: the increments performed so far have returned
`1, 2, ..., k` in this order, each value once, with `k ≤ 200`; at most one request has taken
the count-equals-101 branch and at most one alert is recorded. Once all requests have
finished, `k ≥ 101`, the 200 requests are the `k` that incremented and those rejected at the
blocked check, exactly one request took the count-equals-101 branch and answered 429, and
exactly one alert is recorded. -/
theorem concurrent_overflow (sched : List Nat) (now : Nat) (ip : String) :
    (Sys.exec now ip (Sys.init 200) sched).counts
      = upTo (Sys.exec now ip (Sys.init 200) sched).counts.length ∧
    (Sys.exec now ip (Sys.init 200) sched).counts.length ≤ 200 ∧
    (Sys.exec now ip (Sys.init 200) sched).pcs.countP Pc.tookBranch ≤ 1 ∧
    (Sys.exec now ip (Sys.init 200) sched).alerts.length ≤ 1 ∧
    ((∀ pc ∈ (Sys.exec now ip (Sys.init 200) sched).pcs, pc.finished = true) →
      101 ≤ (Sys.exec now ip (Sys.init 200) sched).counts.length ∧
      (Sys.exec now ip (Sys.init 200) sched).counts.length
        + (Sys.exec now ip (Sys.init 200) sched).pcs.countP (· == Pc.blocked) = 200 ∧
      (Sys.exec now ip (Sys.init 200) sched).pcs.countP Pc.tookBranch = 1 ∧
      (Sys.exec now ip (Sys.init 200) sched).pcs.countP (· == Pc.limited) = 1 ∧
      (Sys.exec now ip (Sys.init 200) sched).alerts = [rateAlert ip now]) := by
  have h : Inv 200 now ip (Sys.exec now ip (Sys.init 200) sched) :=
    inv_exec (by norm_num) sched _ (inv_init 200 now ip)
  have hle : (Sys.exec now ip (Sys.init 200) sched).counts.length ≤ 200 := by
    rw [← h.incremented]
    have : List.countP Pc.incremented (Sys.exec now ip (Sys.init 200) sched).pcs
        ≤ (Sys.exec now ip (Sys.init 200) sched).pcs.length := List.countP_le_length _
    rw [h.len] at this; exact this
  have hbr := h.branch
  have hbr1 : (Sys.exec now ip (Sys.init 200) sched).pcs.countP Pc.tookBranch ≤ 1 := by
    rw [hbr]; split <;> omega
  have hlim : (Sys.exec now ip (Sys.init 200) sched).pcs.countP (· == Pc.limited)
      ≤ (Sys.exec now ip (Sys.init 200) sched).pcs.countP Pc.tookBranch := by
    apply List.countP_mono_left
    intro pc _ hpc
    have : pc = Pc.limited := by simpa using hpc
    rw [this]; rfl
  refine ⟨h.counts, hle, hbr1, ?_, ?_⟩
  · rw [h.alerts, List.length_replicate]; omega
  · intro hfin
    obtain ⟨f1, f2⟩ := finished_counts _ hfin
    rw [h.len, h.incremented, h.crashed] at f1
    have hge : 101 ≤ (Sys.exec now ip (Sys.init 200) sched).counts.length := by
      by_contra hlt
      simp only [hlt, if_false] at hbr
      rw [hbr] at f2
      have hb := h.blocked
      rw [← f2] at hb
      omega
    simp only [hge, if_true] at hbr
    rw [hbr] at f2
    refine ⟨hge, by omega, hbr, f2.symm, ?_⟩
    rw [h.alerts, ← f2]
    rfl

/-! ### Bounded counters -/

theorem RateInv.mono {st : State} {T t : Nat} {ip : String} (h : RateInv st T ip) (hle : T ≤ t) :
    RateInv st t ip := by
  intro e he
  obtain ⟨n, x, h1, h2, h3, h4, h5⟩ := h e he
  exact ⟨n, x, h1, h2, h3, by omega, h5⟩

theorem RateInv.congr {st st' : State} {T : Nat} {ip : String} (h : RateInv st T ip)
    (hr : st'.redis.raw (rateKey ip) = st.redis.raw (rateKey ip))
    (hb : st'.redis.raw (blockedKey ip) = st.redis.raw (blockedKey ip)) : RateInv st' T ip := by
  intro e he
  rw [hr] at he
  obtain ⟨n, x, h1, h2, h3, h4, h5⟩ := h e he
  exact ⟨n, x, h1, h2, h3, h4, fun hn => by rw [hb]; exact h5 hn⟩

theorem RateInv.of_none {st : State} {T : Nat} {ip : String}
    (hr : st.redis.raw (rateKey ip) = none) : RateInv st T ip := by
  intro e he; rw [hr] at he; cases he

theorem RateInv.of_low {st st' : State} {T : Nat} {ip : String} (h : RateInv st T ip)
    (hlow : RateLow st ip) (hr : st'.redis.raw (rateKey ip) = st.redis.raw (rateKey ip)) :
    RateInv st' T ip := by
  intro e he
  rw [hr] at he
  obtain ⟨n, x, h1, h2, h3, h4, _⟩ := h e he
  subst h1
  have := hlow n (some x) he
  exact ⟨n, x, rfl, h2, h3, h4, fun hn => by omega⟩

/-- A live counter at 101 comes with a live block. -/
theorem RateInv.live_low {st : State} {T now : Nat} {ip : String} (h : RateInv st T ip)
    (hblk : st.redis.find now (blockedKey ip) = none) {e : Entry}
    (hf : st.redis.find now (rateKey ip) = some e) :
    ∃ n x, e = { val := .int n, expiresAt := some x } ∧ 1 ≤ n ∧ n ≤ 100 ∧ now < x ∧
      x ≤ T + 60 * 1000 := by
  have hraw := Store.raw_of_find hf
  obtain ⟨n, x, h1, h2, h3, h4, h5⟩ := h e hraw
  subst h1
  have hlive : now < x := by
    by_contra hcon
    rw [Store.find_of_raw_dead hraw (by omega)] at hf
    cases hf
  refine ⟨n, x, rfl, h2, ?_, hlive, h4⟩
  by_contra hcon
  have h101 : n = 101 := by omega
  obtain ⟨v, xb, hb, hle⟩ := h5 h101
  rw [Store.find_of_raw_live hb (by omega)] at hblk
  cases hblk

theorem Store.find_isSome_or_none (s : Store) (now : Nat) (k : String) :
    (s.find now k).isSome = true ∨ s.find now k = none := by
  cases s.find now k <;> simp

/-- The rate limiter keeps the invariant of the counter of the requesting address, and a
counted request it lets through leaves the counter at 100 at most. -/
theorem rateLimiter_rate_inv {st : State} {T t : Nat} {req : Request}
    (h : RateInv st T req.ip) (hle : T ≤ t) :
    RateInv (rateLimiter st t req).state t req.ip ∧
    (∀ s1, rateLimiter st t req = .next s1 → rateExempt req.path = false →
      RateLow s1 req.ip) := by
  by_cases hex : rateExempt req.path = true
  · rw [rateLimiter_exempt hex]
    exact ⟨h.mono hle, fun _ _ hh => by rw [hex] at hh; cases hh⟩
  · have hex' : rateExempt req.path = false := by simpa using hex
    rcases Store.find_isSome_or_none st.redis t (blockedKey req.ip) with hb | hb
    · rw [rateLimiter_blocked hex' hb]
      exact ⟨h.mono hle, fun _ hh _ => by cases hh⟩
    · cases hr : st.redis.find t (rateKey req.ip) with
      | none =>
        rw [rateLimiter_first hex' hb hr]
        refine ⟨?_, ?_⟩
        · intro e he
          simp [Step.state, Store.raw_put] at he
          exact ⟨1, t + 60 * 1000, by rw [← he], by omega, by omega, by omega,
            fun hh => by omega⟩
        · intro s1 hs1 _ n x hraw
          simp only [Step.next.injEq] at hs1
          rw [← hs1] at hraw
          simp [Store.raw_put] at hraw
          omega
      | some e =>
        obtain ⟨n, x, he, h1, h100, hlive, hx⟩ := h.live_low hb hr
        subst he
        by_cases hn : n < 100
        · rw [rateLimiter_count hex' hb hr h1 hn]
          refine ⟨?_, ?_⟩
          · intro e he
            simp [Step.state, Store.raw_put] at he
            exact ⟨n + 1, x, by rw [← he], by omega, by omega, by omega, fun hh => by omega⟩
          · intro s1 hs1 _ m y hraw
            simp only [Step.next.injEq] at hs1
            rw [← hs1] at hraw
            simp [Store.raw_put] at hraw
            omega
        · have hn100 : n = 100 := by omega
          subst hn100
          rw [rateLimiter_overflow hex' hb hr]
          refine ⟨?_, fun _ hh _ => by cases hh⟩
          intro e he
          simp [Step.state, Store.raw_set, Store.raw_put, blocked_ne_rate] at he
          refine ⟨101, x, by rw [← he], by omega, by omega, by omega, fun _ => ?_⟩
          exact ⟨.flag, t + 60 * 1000, by simp [Step.state, Store.raw_set], by omega⟩

/-- The rate limiter does not touch the rate counter and the block of another address. -/
theorem rateLimiter_rate_inv_other {st : State} {T t : Nat} {req : Request} {ip : String}
    (h : RateInv st T ip) (hle : T ≤ t) (hip : req.ip ≠ ip) :
    RateInv (rateLimiter st t req).state t ip := by
  apply (h.mono hle).congr
  · exact rateLimiter_frame st t req (by simpa [rateKey_inj] using hip) (blocked_ne_rate _ _)
  · exact rateLimiter_frame st t req (rate_ne_blocked _ _) (by simpa [blockedKey_inj] using hip)

theorem rateKey_mem_keysOf {ip ip' : String} : rateKey ip ∈ keysOf ip' ↔ ip = ip' := by
  simp [mem_keysOf, rateKey_inj, rate_ne_banned, rate_ne_blocked, rate_ne_fail, rate_ne_session]

theorem blockedKey_mem_keysOf {ip ip' : String} : blockedKey ip ∈ keysOf ip' ↔ ip = ip' := by
  simp [mem_keysOf, blockedKey_inj, blocked_ne_banned, blocked_ne_rate, blocked_ne_fail,
    blocked_ne_session]

/-- The route handlers keep the invariant of every rate counter, given that the login
handler only runs after a counted request was let through. -/
theorem dispatch_rate_inv {st : State} {t : Nat} {req : Request} {ip : String}
    (h : RateInv st t ip) (hlow : routeOf req = .login → req.ip = ip → RateLow st ip) :
    RateInv (dispatch st t req).1 t ip := by
  unfold dispatch
  cases hroute : routeOf req with
  | resetRedis => exact RateInv.of_none (by simp [resetRedisHandler, Store.flushDb, Store.raw])
  | stats => exact h
  | bannedIps => exact h
  | unbanIp =>
    simp only
    cases hb : req.unbanTarget with
    | none => rw [unbanIpHandler_no_target hb]; exact h
    | some ip' =>
      by_cases hip : ip = ip'
      · apply RateInv.of_none
        rw [unbanIpHandler_raw st req ip' hb]
        simp [rateKey_mem_keysOf, hip]
      · apply h.congr
        · rw [unbanIpHandler_raw st req ip' hb]
          simp [rateKey_mem_keysOf, hip]
        · rw [unbanIpHandler_raw st req ip' hb]
          simp [blockedKey_mem_keysOf, hip]
  | login =>
    simp only
    by_cases hip : req.ip = ip
    · exact h.of_low (hlow hroute hip)
        (loginHandler_frame st t req (fail_ne_rate _ _) (blocked_ne_rate _ _))
    · apply h.congr
      · exact loginHandler_frame st t req (fail_ne_rate _ _) (blocked_ne_rate _ _)
      · exact loginHandler_frame st t req (fail_ne_blocked _ _)
          (by simpa [blockedKey_inj] using hip)
  | balance =>
    apply h.congr <;> simp [balanceHandler, Store.raw_set, session_ne_rate, session_ne_blocked]
  | transaction =>
    simp only [transactionHandler]
    split
    · apply h.congr <;> simp [Store.raw_set, banned_ne_rate, banned_ne_blocked]
    · exact h
  | unrouted => exact h

/-- The login handler keeps the failure counter of the requesting address between 1 and 5. -/
theorem loginHandler_fail_inv {st : State} {t : Nat} {req : Request}
    (h : FailInv st req.ip) : FailInv (loginHandler st t req).1 req.ip := by
  have hdel : FailInv { st with redis := (st.redis.del (failKey req.ip)).del (blockedKey req.ip) }
      req.ip := by
    intro e he
    simp [Store.raw_del, blocked_ne_fail] at he
  have hsplit : req.body = none ∨ rightLogin req = true ∨ wrongLogin req = true := by
    cases hb : req.body with
    | none => exact Or.inl rfl
    | some b =>
      right
      by_cases hc : credentialsOk b = true
      · left; simp [rightLogin, hb, hc]
      · right; simp [wrongLogin, hb, hc]
  cases hf : st.redis.find t (failKey req.ip) with
  | none =>
    have hov : overThreshold (st.redis.get t (failKey req.ip)) = false := by
      simp [Store.get, hf, overThreshold]
    rcases hsplit with hb | hc | hc
    · rw [loginHandler_no_body hov hb]; exact h
    · rw [loginHandler_ok hov hc]
      exact hdel
    · rw [loginHandler_fail_first hf hc]
      intro e he
      simp [Store.raw_put, failEntry] at he
      exact ⟨1, t + 600 * 1000, by rw [← he], by omega, by omega⟩
  | some e =>
    obtain ⟨n, x, he, h1, h5⟩ := h e (Store.raw_of_find hf)
    subst he
    by_cases hn : 5 ≤ n
    · rw [loginHandler_over hf hn]
      intro e he
      simp [Store.raw_set, blocked_ne_fail] at he
      exact h e he
    · have hov : overThreshold (st.redis.get t (failKey req.ip)) = false := by
        simp [Store.get, hf, overThreshold, parseInt]; omega
      rcases hsplit with hb | hc | hc
      · rw [loginHandler_no_body hov hb]; exact h
      · rw [loginHandler_ok hov hc]
        exact hdel
      · rw [loginHandler_fail_count hf h1 (by omega) hc]
        intro e he
        simp [Store.raw_put] at he
        exact ⟨n + 1, x, by rw [← he], by omega, by omega⟩

/-- The route handlers keep every failure counter between 1 and 5. -/
theorem dispatch_fail_inv {st : State} {t : Nat} {req : Request} {ip : String}
    (h : FailInv st ip) : FailInv (dispatch st t req).1 ip := by
  by_cases hlogin : routeOf req = .login ∧ req.ip = ip
  · obtain ⟨hroute, hip⟩ := hlogin
    subst hip
    have hd : dispatch st t req = loginHandler st t req := by simp [dispatch, hroute]
    rw [hd]
    exact loginHandler_fail_inv h
  · rcases dispatch_fail_raw st t req ip (fun hr hip => hlogin ⟨hr, hip⟩) with hd | hd
    · intro e he; rw [hd] at he; exact h e he
    · intro e he; rw [hd] at he; cases he

/-! ### Bounded counters -/

theorem RateInv.on_redis {st st' : State} {T : Nat} {ip : String} (h : RateInv st T ip)
    (hr : st'.redis = st.redis) : RateInv st' T ip :=
  h.congr (by rw [hr]) (by rw [hr])

theorem FailInv.on_fail_redis {st st' : State} {ip : String} (h : FailInv st ip)
    (hr : st'.redis = st.redis) : FailInv st' ip := by
  intro e he; rw [hr] at he; exact h e he

/-- One request keeps the invariants of the counters of every address. -/
theorem handle_counter_inv {st : State} {T t : Nat} {req : Request} {ip : String}
    (hrate : RateInv st T ip) (hfail : FailInv st ip) (hle : T ≤ t) :
    RateInv (handle st t req).1 t ip ∧ FailInv (handle st t req).1 ip := by
  constructor
  · by_cases hgate : mounted "/api" req.path = true ∧ flagged st t req.ip = true
    · rw [handle_flagged hgate.1 hgate.2]
      exact (hrate.mono hle).on_redis rfl
    · have hg : gates st t req = (.rateLimiter, rateLimiter st t req) := by
        by_cases hmnt : mounted "/api" req.path = true
        · exact gates_of_not_flagged (by simpa [hmnt] using hgate)
        · exact gates_of_not_mounted (by simpa using hmnt)
      have hrl : RateInv (rateLimiter st t req).state t ip := by
        by_cases hip : req.ip = ip
        · subst hip; exact (rateLimiter_rate_inv hrate hle).1
        · exact rateLimiter_rate_inv_other hrate hle hip
      have hred := handle_redis st t req
      rw [hg] at hred
      cases hs : rateLimiter st t req with
      | respond s1 r =>
        rw [hs] at hred hrl
        exact RateInv.on_redis hrl hred
      | rejected s1 =>
        rw [hs] at hred hrl
        exact RateInv.on_redis hrl hred
      | next s1 =>
        rw [hs] at hred hrl
        simp only [Step.state] at hrl
        simp only at hred
        apply RateInv.on_redis _ hred
        apply dispatch_rate_inv hrl
        intro hroute hip
        subst hip
        exact (rateLimiter_rate_inv hrate hle).2 s1 hs
          (rateExempt_of_mounted (mounted_of_login hroute))
  · have hg : (gates st t req).2.state.redis.raw (failKey ip) = st.redis.raw (failKey ip) :=
      gates_frame st t req (rate_ne_fail _ _) (blocked_ne_fail _ _)
    have hgi : FailInv (gates st t req).2.state ip := by
      intro e he; rw [hg] at he; exact hfail e he
    rcases handle_redis_cases st t req with h | h
    · exact hgi.on_fail_redis h
    · exact (dispatch_fail_inv hgi).on_fail_redis h

/-- Requests processed one at a time, in order of time, keep the invariants. -/
theorem run_counter_inv :
    ∀ (evs : List Event) (st : State) (T : Nat), timesFrom T evs →
      (∀ ip, RateInv st T ip ∧ FailInv st ip) →
      ∃ T', ∀ ip, RateInv (runState st evs) T' ip ∧ FailInv (runState st evs) ip := by
  intro evs
  induction evs with
  | nil => intro st T _ h; exact ⟨T, h⟩
  | cons ev rest ih =>
    intro st T hT h
    obtain ⟨t, req⟩ := ev
    obtain ⟨hle, hrest⟩ := hT
    exact ih (handle st t req).1 t hrest
      (fun ip => handle_counter_inv (h ip).1 (h ip).2 hle)

theorem counter_inv_empty (ip : String) : RateInv State.empty 0 ip ∧ FailInv State.empty ip :=
  ⟨fun e he => by simp [State.empty, Store.raw] at he,
   fun e he => by simp [State.empty, Store.raw] at he⟩

/-- C15. Bounded counters under sequential processing. In every state reached from the empty
store by requests processed one at a time in order of time (unban and reset requests
included, any time passing between them), for every address: the rate counter is an integer
between 1 and 101 and the `login_failures` counter an integer between 1 and 5; no request
arriving in that state takes the count-greater-than-101 branch of the rate limiter; and when
the counter stands at 101, at any time at which the blocked key is no longer live the counter
is not live either, so that the next increment returns 1. -/
theorem bounded_counters (evs : List Event) (ip : String) (hmono : timesFrom 0 evs) :
    (∀ e, (runState State.empty evs).redis.raw (rateKey ip) = some e →
      ∃ n, e.val = .int n ∧ 1 ≤ n ∧ n ≤ 101) ∧
    (∀ e, (runState State.empty evs).redis.raw (failKey ip) = some e →
      ∃ n, e.val = .int n ∧ 1 ≤ n ∧ n ≤ 5) ∧
    (∀ t req, takesOverBranch (runState State.empty evs) t req = false) ∧
    (∀ t x, (runState State.empty evs).redis.raw (rateKey ip)
        = some { val := .int 101, expiresAt := x } →
      (runState State.empty evs).redis.find t (blockedKey ip) = none →
      (runState State.empty evs).redis.find t (rateKey ip) = none ∧
      ∃ r1, (runState State.empty evs).redis.incr t (rateKey ip) = some (r1, 1)) := by
  obtain ⟨T, hinv⟩ := run_counter_inv evs State.empty 0 hmono counter_inv_empty
  refine ⟨?_, ?_, ?_, ?_⟩
  · intro e he
    obtain ⟨n, x, h1, h2, h3, _⟩ := (hinv ip).1 e he
    exact ⟨n, by rw [h1], h2, h3⟩
  · intro e he
    obtain ⟨n, x, h1, h2, h3⟩ := (hinv ip).2 e he
    exact ⟨n, by rw [h1], h2, h3⟩
  · intro t req
    unfold takesOverBranch
    by_cases hex : rateExempt req.path = true
    · simp [hex]
    · rcases Store.find_isSome_or_none (runState State.empty evs).redis t (blockedKey req.ip)
        with hb | hb
      · simp [Store.truthy_get, hb]
      · cases hr : (runState State.empty evs).redis.find t (rateKey req.ip) with
        | none => simp [Store.incr_absent hr]
        | some e =>
          obtain ⟨n, x, he, h1, h100, _, _⟩ := (hinv req.ip).1.live_low hb hr
          subst he
          rw [Store.incr_int hr (by omega)]
          simp
          intro _ _
          omega
  · intro t x hraw hb
    obtain ⟨n, y, h1, _, _, _, h5⟩ := (hinv ip).1 _ hraw
    have hn : n = 101 := by
      have := congrArg Entry.val h1
      simp at this
      exact this.symm
    obtain ⟨v, xb, hblk, hle⟩ := h5 hn
    have hdead : xb ≤ t := by
      by_contra hcon
      rw [Store.find_of_raw_live hblk (by omega)] at hb
      cases hb
    have hx : x = some y := by
      have := congrArg Entry.expiresAt h1
      simpa using this
    subst hx
    have hnone := Store.find_of_raw_dead hraw (by omega : y ≤ t)
    exact ⟨hnone, _, Store.incr_absent hnone⟩

/-- C15, witness: the counters of `10.0.0.9` after a short session. -/
theorem bounded_counters_witness :
    timesFrom 0 shortSession ∧
    (∀ e, (runState State.empty shortSession).redis.raw (failKey "10.0.0.9") = some e →
      ∃ n, e.val = .int n ∧ 1 ≤ n ∧ n ≤ 5) ∧
    (runState State.empty shortSession).redis.raw (failKey "10.0.0.9")
      = some { val := .int 2, expiresAt := some 600000 } :=
  ⟨⟨by decide, by decide, by decide, by decide, trivial⟩,
   (bounded_counters shortSession "10.0.0.9"
      ⟨by decide, by decide, by decide, by decide, trivial⟩).2.1,
   by decide⟩

end ApiAbuse
